import Mathlib

/-!
QuizApp (src/app.js): scoring, statistics, the quiz session, the question
provider and the accounts.

A shallow embedding of the quiz core of `class QuizApp`.

Conventions of the embedding.

* A JavaScript `Number` that the program only ever holds as an integer
  (counters, percentages, points, whole seconds, millisecond timestamps) is an
  `ℤ` or an `ℕ`; on integers of this size double arithmetic is exact.
* The two places where the program leaves the integers are modelled exactly:
  `points *= 1.5` (a multiple of one half, exact in binary64) is computed in
  `ℚ`, and `(score / totalQuestions) * 100` is computed with binary64
  rounding after each operation (`toDouble`).
* `undefined`/`null` is `none`.
* Timers, the clock and the shuffle are inputs of the transition functions.
* Of the page the state keeps the `disabled` flags the handlers test and the
  markup assigned to the answers container; a click carries the `data-answer`
  of the clicked button, and `quotedAttributeValue` is how the browser reads
  that attribute from the markup.
-/

namespace QuizApp

/-! ## Numbers -/

/-- Nearest integer to `q`, a tie going to the even neighbour (the rounding of
the significand in IEEE 754 round-to-nearest-even). -/
def roundHalfEven (q : ℚ) : ℤ :=
  let f := ⌊q⌋
  if q - f < 1 / 2 then f
  else if 1 / 2 < q - f then f + 1
  else if f % 2 = 0 then f else f + 1

/-- The binary64 value nearest to the positive rational `q` (round to nearest,
ties to even, 53-bit significand): with `2 ^ b ≤ q < 2 ^ (b + 1)` the result is
the multiple of `2 ^ (b - 52)` nearest to `q`.  Zero stays zero.  Subnormals,
overflow and negative numbers do not occur in the program's use (quotients
`score / totalQuestions` of small non-negative integers and their products by
`100`), and are not modelled. -/
def toDouble (q : ℚ) : ℚ :=
  if q ≤ 0 then 0
  else
    let e := Int.log 2 q - 52
    (roundHalfEven (q / 2 ^ e) : ℚ) * 2 ^ e

/-- The function `Math.round(x)`: the integer nearest to `x`, a tie going up (towards
`+∞`); the specification of `Math.round` is exact, not a floating point sum. -/
def mathRound (x : ℚ) : ℤ := ⌊x + 1 / 2⌋

/-! ## Scoring: `calculatePoints` (app.js 913-927) -/

/-- The method `calculatePoints(percentage, timeTaken)`, with the one field of `this` it
reads, `this.currentQuiz.settings.difficulty`, as first argument.

```
let points = Math.floor(percentage * 10);
if (timeTaken < 60) points += 50;
else if (timeTaken < 120) points += 25;
else if (timeTaken < 180) points += 10;
if (difficulty === 'hard') points *= 2;
else if (difficulty === 'medium') points *= 1.5;
return Math.floor(points);
```
`percentage` is the integer `Math.round` produced in `endQuiz`. -/
def calculatePoints (difficulty : Option String) (percentage : ℤ) (timeTaken : ℤ) : ℤ :=
  let points : ℚ := ⌊(percentage : ℚ) * 10⌋
  let points : ℚ :=
    if timeTaken < 60 then points + 50
    else if timeTaken < 120 then points + 25
    else if timeTaken < 180 then points + 10
    else points
  let points : ℚ :=
    if difficulty = some "hard" then points * 2
    else if difficulty = some "medium" then points * (3 / 2)
    else points
  ⌊points⌋

/-- The speed bonus in the words of the specification: `<60s: +50`,
`<120s: +25`, `<180s: +10`, `>=180s: +0`, only the highest applicable tier. -/
def speedBonus (timeTaken : ℤ) : ℤ :=
  if timeTaken < 60 then 50
  else if timeTaken < 120 then 25
  else if timeTaken < 180 then 10
  else 0

/-! ## Data model -/

/-- One entry of `stats.quizHistory`.  `date` is the clock reading whose
`toISOString()` rendering the program stores. -/
structure HistoryEntry where
  category : String
  score : ℤ
  date : ℤ
  points : ℤ
  deriving DecidableEq, Repr

/-- The `stats` object of an account (created in `signup`, app.js 83-89). -/
structure UserStats where
  totalQuizzes : ℤ
  totalScore : ℤ
  bestScore : ℤ
  points : ℤ
  quizHistory : List HistoryEntry
  deriving DecidableEq, Repr

/-- An account, as stored under `users[username]`. -/
structure UserAccount where
  username : String
  email : String
  password : String
  stats : UserStats
  deriving DecidableEq, Repr

/-- A question as produced by `fetchQuestions` or held in the offline bank. -/
structure QuestionRecord where
  question : String
  correct : String
  incorrect : List String
  category : String
  difficulty : String
  deriving DecidableEq, Repr

/-- The `settings` object built by the setup form (app.js 1207-1212) or by
`startOfflineQuiz`.  `category` and `difficulty` are `none` when the property
is absent; the two numbers are the integers `parseInt` returned (a `NaN` from
an unparsable field is not modelled). -/
structure QuizSettings where
  category : Option String
  difficulty : Option String
  numQuestions : ℤ
  timePerQuestion : ℤ
  deriving DecidableEq, Repr

/-- An element of `currentQuiz.answers`; `userAnswer` is `none` for the `null`
pushed by `timeUp`. -/
structure AnswerRecord where
  question : String
  userAnswer : Option String
  correctAnswer : String
  isCorrect : Bool
  deriving DecidableEq, Repr

/-- The `currentQuiz` object. -/
structure Quiz where
  questions : List QuestionRecord
  settings : QuizSettings
  answers : List AnswerRecord
  startTime : ℤ
  offline : Bool
  deriving DecidableEq, Repr

/-- What the closure scheduled by `selectAnswer` with `setTimeout(..., 300)`
has captured: `userAnswer`, `correctAnswer` and `isCorrect`. -/
structure PendingAnswer where
  userAnswer : String
  correctAnswer : String
  isCorrect : Bool
  deriving DecidableEq, Repr

/-- What `endQuiz` computes and writes to the results screen. -/
structure Summary where
  totalQuestions : ℕ
  score : ℕ
  percentage : ℤ
  timeTaken : ℤ
  points : ℤ
  deriving DecidableEq, Repr

/-- The state of the application that the quiz core reads and writes: the
fields of `this`, the two `localStorage` entries, and the part of the page and
of the browser's timer table that guards the handlers.

* `timer`: the interval held in `this.timer` is live.
* `autoProgressTimer`: the timeout held in `this.autoProgressTimer` is live.
* `staleAutoProgress`: live auto-progress timeouts that `this.autoProgressTimer`
  no longer refers to (`startAutoProgress` overwrites the field without
  clearing it).
* `pendingAnswers`: the closures of `selectAnswer` still waiting for their
  300 ms, oldest first.
* `answersHTML`, `answersDisabled`: the markup `displayQuestion` last assigned
  to `container.innerHTML`, from which the browser builds the `.answer-option`
  buttons (see `answerMarkup`), and the `disabled` flag of those buttons (the
  program only ever sets the flag of all of them together); with no button in
  the page there is nothing to click and the flag is `true`.
* `nextDisabled`: the `disabled` flag of the `nextQuestion` button.
* `results`: the numbers last written to the results screen. -/
structure App where
  currentUser : Option UserAccount
  currentQuiz : Option Quiz
  currentQuestionIndex : ℕ
  score : ℕ
  timer : Bool
  timeRemaining : ℤ
  quizStartTime : ℤ
  autoProgressTimer : Bool
  staleAutoProgress : ℕ
  pendingAnswers : List PendingAnswer
  answersHTML : String
  answersDisabled : Bool
  nextDisabled : Bool
  results : Option Summary
  users : List (String × UserAccount)
  storedUser : Option UserAccount
  deriving Repr

/-! ## Statistics: `updateUserStats` (app.js 929-948) -/

/-- The JavaScript expression `category || 'Mixed'`: the empty string and an
absent value are falsy. -/
def categoryOrMixed : Option String → String
  | none => "Mixed"
  | some c => if c = "" then "Mixed" else c

/-- The JavaScript call `xs.slice(-10)`: the last ten elements, in order. -/
def sliceLast10 {α : Type} (xs : List α) : List α :=
  xs.drop (xs.length - 10)

/-- The assignment `users[name] = account` on the object parsed from
`localStorage`: an existing key keeps its place, a new one is added at the
end. -/
def storePut (users : List (String × UserAccount)) (name : String) (account : UserAccount) :
    List (String × UserAccount) :=
  if users.any (fun e => e.1 == name) then
    users.map (fun e => if e.1 == name then (name, account) else e)
  else users ++ [(name, account)]

/-- The lookup `users[name]`. -/
def storeGet (users : List (String × UserAccount)) (name : String) : Option UserAccount :=
  (users.find? (fun e => e.1 == name)).map Prod.snd

/-- The body of `updateUserStats` on the `stats` object, lines 931-943:

```
stats.totalQuizzes++;
stats.totalScore += percentage;
stats.bestScore = Math.max(stats.bestScore, percentage);
stats.points += points;
stats.quizHistory.push({ category: settings.category || 'Mixed',
                         score: percentage, date: ..., points });
if (stats.quizHistory.length > 10) stats.quizHistory = stats.quizHistory.slice(-10);
```
-/
def updateStats (category : Option String) (now : ℤ) (stats : UserStats)
    (percentage points : ℤ) : UserStats :=
  let history := stats.quizHistory ++
    [{ category := categoryOrMixed category, score := percentage, date := now, points := points }]
  { totalQuizzes := stats.totalQuizzes + 1
    totalScore := stats.totalScore + percentage
    bestScore := max stats.bestScore percentage
    points := stats.points + points
    quizHistory := if history.length > 10 then sliceLast10 history else history }

/-- The method `updateUserStats(percentage, points)` on the application
state; `now` is the clock read by `new Date()`.  Reading `this.currentUser.stats` with no user
logged in throws before anything is written.  With no `currentQuiz` the four
counters are already updated when `this.currentQuiz.settings` throws, and
nothing is pushed or persisted. -/
def updateUserStats (s : App) (now : ℤ) (percentage points : ℤ) : App :=
  match s.currentUser with
  | none => s
  | some u =>
    match s.currentQuiz with
    | none =>
      { s with currentUser := some { u with stats :=
          { u.stats with
            totalQuizzes := u.stats.totalQuizzes + 1
            totalScore := u.stats.totalScore + percentage
            bestScore := max u.stats.bestScore percentage
            points := u.stats.points + points } } }
    | some quiz =>
      let u1 : UserAccount :=
        { u with stats := updateStats quiz.settings.category now u.stats percentage points }
      { s with
        currentUser := some u1
        users := storePut s.users u1.username u1
        storedUser := some u1 }

/-! ## The quiz session (app.js 173-200, 619-669, 736-807, 875-911) -/

/-- The percentage of `endQuiz`, line 894:
`Math.round((this.score / totalQuestions) * 100)`.  The quotient and the
product are binary64 operations, each rounded to the nearest double;
`Math.round` then rounds the product to an integer, halves up.  For
`totalQuestions = 0` the source has `NaN`; `endQuiz` below does not use the
value there. -/
def quizPercentage (score totalQuestions : ℕ) : ℤ :=
  mathRound (toDouble (toDouble ((score : ℚ) / (totalQuestions : ℚ)) * 100))

/-- The elapsed time of `endQuiz`, line 895:
`Math.floor((Date.now() - this.quizStartTime) / 1000)`, the clock readings
being whole milliseconds.  The quotient of a non-negative integer below
`2 ^ 53` by `1000` rounds to a double with the same integer part
(`floor_toDouble_div_thousand`), so the floor is taken of the exact
quotient. -/
def quizTimeTaken (now quizStartTime : ℤ) : ℤ :=
  ⌊((now - quizStartTime : ℤ) : ℚ) / 1000⌋

/-- The method `startAutoProgress()`: schedules `nextQuestion` in five
seconds and stores the timeout in `this.autoProgressTimer` without clearing
the one the field held. -/
def startAutoProgress (s : App) : App :=
  { s with
    staleAutoProgress := if s.autoProgressTimer then s.staleAutoProgress + 1 else s.staleAutoProgress
    autoProgressTimer := true }

/-- The method `startTimer()`: clears `this.timer`, and unless
`timePerQuestion === 0` sets `timeRemaining` and starts a one-second
interval.  With no `currentQuiz` the read of its settings throws after the
interval was cleared. -/
def startTimer (s : App) : App :=
  let s1 := { s with timer := false }
  match s1.currentQuiz with
  | none => s1
  | some quiz =>
    if quiz.settings.timePerQuestion = 0 then s1
    else { s1 with timeRemaining := quiz.settings.timePerQuestion, timer := true }

/-- The markup `displayQuestion` builds from the array `answers`, lines 634-638:

```
answers.map((answer, index) => `
            <button class="answer-option" data-answer="${answer}">
                ${answer}
            </button>
        `).join('')
```

Each text is interpolated as it is, once inside the quoted attribute and once
as content. -/
def answerMarkup (answers : List String) : String :=
  String.join (answers.map (fun answer =>
    "\n            <button class=\"answer-option\" data-answer=\"" ++ answer ++
      "\">\n                " ++ answer ++ "\n            </button>\n        "))

/-- The method `displayQuestion()`; `shuffle` is what
`.sort(() => 0.5 - Math.random())` does to the list of answers this time.
Assigns the markup of the shuffled answers to `container.innerHTML`, which
replaces the answer buttons by fresh, enabled ones, starts the timer and
disables the next button.  With no `currentQuiz`, or with the index past the
last question, `question.question` throws before any of that. -/
def displayQuestion (s : App) (shuffle : List String → List String) : App :=
  match s.currentQuiz with
  | none => s
  | some quiz =>
    match quiz.questions[s.currentQuestionIndex]? with
    | none => s
    | some question =>
      let s1 := { s with
        answersHTML := answerMarkup (shuffle (question.correct :: question.incorrect))
        answersDisabled := false }
      { startTimer s1 with nextDisabled := true }

/-- The method `startQuiz(settings)` from the point where
`await this.fetchQuestions(settings)` has produced `questions`; `now` is the
clock (read twice by the source, taken as one instant: only `quizStartTime` is
read again). -/
def startQuiz (s : App) (settings : QuizSettings) (questions : List QuestionRecord)
    (now : ℤ) (shuffle : List String → List String) : App :=
  if questions.length = 0 then s
  else
    displayQuestion
      { s with
        currentQuiz := some
          { questions := questions, settings := settings, answers := [],
            startTime := now, offline := false }
        currentQuestionIndex := 0
        score := 0
        quizStartTime := now }
      shuffle

/-- The method `timeUp()`: disables the answer buttons, pushes the record of
an unanswered question, enables the next button and starts the auto-progress.
With no `currentQuiz`, or the index past the last question, the read of
`.correct` throws when only the buttons have been disabled. -/
def timeUp (s : App) : App :=
  let s1 := { s with answersDisabled := true }
  match s1.currentQuiz with
  | none => s1
  | some quiz =>
    match quiz.questions[s1.currentQuestionIndex]? with
    | none => s1
    | some question =>
      startAutoProgress
        { s1 with
          currentQuiz := some { quiz with answers := quiz.answers ++
            [{ question := question.question, userAnswer := none,
               correctAnswer := question.correct, isCorrect := false }] }
          nextDisabled := false }

/-- The callback of the interval started by `startTimer` (lines 660-668).  The
browser runs it only while the interval is live. -/
def timerTick (s : App) : App :=
  if s.timer then
    let s1 := { s with timeRemaining := s.timeRemaining - 1 }
    if s1.timeRemaining ≤ 0 then timeUp { s1 with timer := false } else s1
  else s

/-- The method `selectAnswer(button)` up to the `setTimeout` (lines 761-777);
`answer` is `button.dataset.answer`.  A disabled button returns at once.
Otherwise both timers are cleared, the buttons disabled, and the closure that
records the answer is scheduled.  With no `currentQuiz`, or the index past the
last question, the read of `.correct` throws before the closure is
scheduled. -/
def selectAnswer (s : App) (answer : String) : App :=
  if s.answersDisabled then s
  else
    let s1 := { s with timer := false, autoProgressTimer := false, answersDisabled := true }
    match s1.currentQuiz with
    | none => s1
    | some quiz =>
      match quiz.questions[s1.currentQuestionIndex]? with
      | none => s1
      | some question =>
        { s1 with pendingAnswers := s1.pendingAnswers ++
            [{ userAnswer := answer, correctAnswer := question.correct,
               isCorrect := decide (answer = question.correct) }] }

/-- The closure scheduled by `selectAnswer` (lines 778-805), run with what it
captured: increments `score` if the answer was correct, pushes the record
(whose `question` text is read now), enables the next button and starts the
auto-progress.  With no `currentQuiz`, or the index past the last question,
the push throws after `score` was incremented. -/
def selectAnswerTimeout (s : App) (p : PendingAnswer) : App :=
  let s1 := if p.isCorrect then { s with score := s.score + 1 } else s
  match s1.currentQuiz with
  | none => s1
  | some quiz =>
    match quiz.questions[s1.currentQuestionIndex]? with
    | none => s1
    | some question =>
      startAutoProgress
        { s1 with
          currentQuiz := some { quiz with answers := quiz.answers ++
            [{ question := question.question, userAnswer := some p.userAnswer,
               correctAnswer := p.correctAnswer, isCorrect := p.isCorrect }] }
          nextDisabled := false }

/-- The numbers `endQuiz` computes (lines 893-896) for a quiz with a question
list of length `totalQuestions`. -/
def quizSummary (difficulty : Option String) (score totalQuestions : ℕ)
    (now quizStartTime : ℤ) : Summary :=
  let percentage := quizPercentage score totalQuestions
  let timeTaken := quizTimeTaken now quizStartTime
  { totalQuestions := totalQuestions
    score := score
    percentage := percentage
    timeTaken := timeTaken
    points := calculatePoints difficulty percentage timeTaken }

/-- The method `endQuiz()`; `now` is the clock.  Clears the timer, computes the
summary, folds it into the statistics with `updateUserStats` and writes it to
the results screen.  With no `currentQuiz` the read of its questions throws
after the timer was cleared; with no user logged in `updateUserStats` throws
and nothing is displayed.  An empty question list makes the percentage `NaN`
in the source; the model stops there (no quiz with an empty list gets past
`displayQuestion`). -/
def endQuiz (s : App) (now : ℤ) : App :=
  let s1 := { s with timer := false }
  match s1.currentQuiz with
  | none => s1
  | some quiz =>
    if quiz.questions.length = 0 then s1
    else
      let r := quizSummary quiz.settings.difficulty s1.score quiz.questions.length
        now s1.quizStartTime
      match s1.currentUser with
      | none => s1
      | some _ => { updateUserStats s1 now r.percentage r.points with results := some r }

/-- The method `nextQuestion()`: clears the auto-progress timer, increments
the index, and ends the quiz if the index has reached the number of
questions, else displays the question.  With no `currentQuiz` the read of its
questions throws after the increment. -/
def nextQuestion (s : App) (now : ℤ) (shuffle : List String → List String) : App :=
  let s1 := { s with autoProgressTimer := false,
                     currentQuestionIndex := s.currentQuestionIndex + 1 }
  match s1.currentQuiz with
  | none => s1
  | some quiz =>
    if s1.currentQuestionIndex ≥ quiz.questions.length then endQuiz s1 now
    else displayQuestion s1 shuffle

/-- The callback of the timeout scheduled by `startAutoProgress` (lines
719-726): `if (!nextButton.disabled) this.nextQuestion()`. -/
def autoProgressCallback (s : App) (now : ℤ) (shuffle : List String → List String) : App :=
  if s.nextDisabled then s else nextQuestion s now shuffle

/-- What can happen to a running quiz: a click on an answer button, the
300 ms timeout of `selectAnswer`, a tick of the question timer, a click on the
next button, and the expiry of an auto-progress timeout (the current one or a
stale one).  The events that may end the quiz or present a question carry the
clock and the shuffle. -/
inductive Event where
  | clickAnswer (answer : String)
  | answerTimeout
  | tick
  | clickNext (now : ℤ) (shuffle : List String → List String)
  | autoProgress (now : ℤ) (shuffle : List String → List String)
  | staleAutoProgress (now : ℤ) (shuffle : List String → List String)

/-- The effect of one event.  The browser delivers a click only to an enabled
button, runs a timer callback only while the timer is live, and runs the
oldest pending timeout first. -/
def step (s : App) : Event → App
  | .clickAnswer answer => selectAnswer s answer
  | .answerTimeout =>
    match s.pendingAnswers with
    | [] => s
    | p :: rest => selectAnswerTimeout { s with pendingAnswers := rest } p
  | .tick => timerTick s
  | .clickNext now shuffle => if s.nextDisabled then s else nextQuestion s now shuffle
  | .autoProgress now shuffle =>
    if s.autoProgressTimer then
      autoProgressCallback { s with autoProgressTimer := false } now shuffle
    else s
  | .staleAutoProgress now shuffle =>
    if 0 < s.staleAutoProgress then
      autoProgressCallback { s with staleAutoProgress := s.staleAutoProgress - 1 } now shuffle
    else s

/-- The state after a sequence of events. -/
def run (s : App) (events : List Event) : App :=
  events.foldl step s

/-- The number of records in `answers` with `isCorrect` set. -/
def correctCount (answers : List AnswerRecord) : ℕ :=
  (answers.filter (fun a => a.isCorrect)).length

/-- The length of `currentQuiz.answers` (zero with no quiz). -/
def answersLength (s : App) : ℕ :=
  match s.currentQuiz with
  | none => 0
  | some quiz => quiz.answers.length

/-! ## The invariant of a running quiz -/

/-- The number of questions of the current quiz (zero with no quiz). -/
def questionsLength (s : App) : ℕ :=
  match s.currentQuiz with
  | none => 0
  | some quiz => quiz.questions.length

/-- The question at the current index is displayed and has no record yet. -/
def Unanswered (s : App) (quiz : Quiz) : Prop :=
  s.currentQuestionIndex < quiz.questions.length ∧
  quiz.answers.length = s.currentQuestionIndex ∧
  s.pendingAnswers = [] ∧ s.nextDisabled = true

/-- An answer button was clicked and the closure has not run yet. -/
def Submitted (s : App) (quiz : Quiz) : Prop :=
  s.currentQuestionIndex < quiz.questions.length ∧
  quiz.answers.length = s.currentQuestionIndex ∧
  (∃ p, s.pendingAnswers = [p]) ∧ s.nextDisabled = true ∧
  s.answersDisabled = true ∧ s.timer = false

/-- The question at the current index has its record. -/
def Answered (s : App) (quiz : Quiz) : Prop :=
  s.currentQuestionIndex < quiz.questions.length ∧
  quiz.answers.length = s.currentQuestionIndex + 1 ∧
  s.pendingAnswers = [] ∧ s.answersDisabled = true ∧ s.timer = false

/-- The index has passed the last question. -/
def Ended (s : App) (quiz : Quiz) : Prop :=
  quiz.questions.length ≤ s.currentQuestionIndex ∧
  quiz.answers.length = quiz.questions.length ∧
  s.pendingAnswers = [] ∧ s.answersDisabled = true ∧ s.timer = false

/-- The invariant of a running quiz. -/
def SessionInv (s : App) : Prop :=
  ∃ quiz, s.currentQuiz = some quiz ∧ s.score = correctCount quiz.answers ∧
    (Unanswered s quiz ∨ Submitted s quiz ∨ Answered s quiz ∨ Ended s quiz)

/-- What one event may do to the list of answers: nothing, or append one
record at an index that had none, the index staying. -/
def AppendsAtMostOne (s t : App) : Prop :=
  answersLength t = answersLength s ∨
    (answersLength s = s.currentQuestionIndex ∧ answersLength t = answersLength s + 1 ∧
      t.currentQuestionIndex = s.currentQuestionIndex)

/-! ## Iterated reconciliation and sample data -/

/-- The arguments of one call of `updateUserStats`: the category of the quiz
settings, the clock, the percentage and the points. -/
structure Reconciliation where
  category : Option String
  now : ℤ
  percentage : ℤ
  points : ℤ
  deriving DecidableEq, Repr

/-- The history entry that `updateUserStats` pushes for these arguments. -/
def Reconciliation.entry (r : Reconciliation) : HistoryEntry :=
  { category := categoryOrMixed r.category, score := r.percentage, date := r.now,
    points := r.points }

/-- The statistics after a sequence of quizzes, oldest first. -/
def reconcileAll (stats : UserStats) (rs : List Reconciliation) : UserStats :=
  rs.foldl (fun st r => updateStats r.category r.now st r.percentage r.points) stats

/-- The statistics `signup` creates (app.js 83-89). -/
def newStats : UserStats :=
  { totalQuizzes := 0, totalScore := 0, bestScore := 0, points := 0, quizHistory := [] }

/-- The state the constructor and `checkAuth` leave (app.js 2-15, 49-57) for
the given contents of `localStorage`: no quiz, index and score zero, no timer,
`quizStartTime` null (zero in arithmetic), no answer button in the page.  The
initial `disabled` flag of the next button comes from the page, which is not
part of the source. -/
def initialApp (users : List (String × UserAccount)) (storedUser : Option UserAccount)
    (nextDisabled : Bool) : App :=
  { currentUser := storedUser
    currentQuiz := none
    currentQuestionIndex := 0
    score := 0
    timer := false
    timeRemaining := 0
    quizStartTime := 0
    autoProgressTimer := false
    staleAutoProgress := 0
    pendingAnswers := []
    answersHTML := ""
    answersDisabled := true
    nextDisabled := nextDisabled
    results := none
    users := users
    storedUser := storedUser }

/-- An account fresh from `signup`. -/
def sampleUser : UserAccount :=
  { username := "ada", email := "ada@example.org", password := "pw", stats := newStats }

/-- The first question of the bundled offline bank (app.js 232-238). -/
def franceQuestion : QuestionRecord :=
  { question := "What is the capital of France?", correct := "Paris",
    incorrect := ["London", "Berlin", "Madrid"], category := "Geography",
    difficulty := "easy" }

/-- The second question of the bundled offline bank (app.js 239-245). -/
def egyptQuestion : QuestionRecord :=
  { question := "Which continent is Egypt located in?", correct := "Africa",
    incorrect := ["Asia", "Europe", "South America"], category := "Geography",
    difficulty := "easy" }

/-- The first two questions of the bundled offline bank. -/
def sampleQuestions : List QuestionRecord :=
  [franceQuestion, egyptQuestion]

/-- The settings of `startOfflineQuiz` (app.js 593-598). -/
def offlineSettings : QuizSettings :=
  { category := some "", difficulty := some "", numQuestions := 10, timePerQuestion := 30 }

/-- Settings as the setup form builds them for a named category. -/
def scienceSettings : QuizSettings :=
  { category := some "Science", difficulty := some "easy", numQuestions := 2,
    timePerQuestion := 30 }

/-- A logged-in application with `sampleUser` and nothing else. -/
def sampleApp : App :=
  initialApp [("ada", sampleUser)] (some sampleUser) true

/-- The application `sampleApp` after `startQuiz` with `scienceSettings` and
the two sample questions at clock 0, the answers left in source order. -/
def scienceApp : App :=
  startQuiz sampleApp scienceSettings sampleQuestions 0 id

/-- The quiz object of `scienceApp`. -/
def scienceQuiz : Quiz :=
  { questions := sampleQuestions, settings := scienceSettings, answers := [],
    startTime := 0, offline := false }

/-- Eleven quizzes with the percentages 0, 10, ..., 100 at clocks 0, ..., 10. -/
def elevenQuizzes : List Reconciliation :=
  (List.range 11).map (fun i =>
    { category := some "Science", now := i, percentage := 10 * i, points := 100 * i })

/-- The application `scienceApp` one second before the first question times
out: 29 of its 30 ticks have passed. -/
def lastSecondApp : App :=
  run scienceApp (List.replicate 29 Event.tick)

/-- A quiz of two questions played to the end: the first answered right, the
second wrong, the next button clicked after each. -/
def twoQuestionEvents : List Event :=
  [.clickAnswer "Paris", .answerTimeout, .clickNext 5000 id,
   .clickAnswer "Asia", .answerTimeout, .clickNext 9000 id]

/-- A quiz of forty questions played up to the last click on the next button:
23 questions answered right, 17 wrong, the next button clicked after each but
the last. -/
def fortyQuestionEvents : List Event :=
  (List.replicate 23
    [Event.clickAnswer "Paris", Event.answerTimeout, Event.clickNext 1000 id]).flatten ++
  (List.replicate 16
    [Event.clickAnswer "London", Event.answerTimeout, Event.clickNext 1000 id]).flatten ++
  [Event.clickAnswer "London", Event.answerTimeout]

/-- The application `sampleApp` after `startQuiz` with forty questions at
clock 0 and the events of `fortyQuestionEvents`: the last question is answered
and the next button is enabled. -/
def fortyQuestionApp : App :=
  run (startQuiz sampleApp scienceSettings (List.replicate 40 franceQuestion) 0 id)
    fortyQuestionEvents

/-! ## Further definitions for the statements -/

/-- The account after a quiz with summary `r` has been folded into its
statistics by `updateUserStats`. -/
def accountAfterQuiz (u : UserAccount) (category : Option String) (now : ℤ) (r : Summary) :
    UserAccount :=
  { u with stats := updateStats category now u.stats r.percentage r.points }

/-- The ticks of the question timer, `k` of them. -/
def ticks (k : ℕ) : List Event :=
  List.replicate k Event.tick

/-! ## The question provider (app.js 202-227, 229-590) -/

/-- The bundled offline bank of `loadOfflineQuestions` (app.js 230-579), in
source order. -/
def offlineBank : List QuestionRecord :=
  [⟨"What is the capital of France?", "Paris", ["London", "Berlin", "Madrid"], "Geography", "easy"⟩,
   ⟨"Which continent is Egypt located in?", "Africa", ["Asia", "Europe", "South America"], "Geography", "easy"⟩,
   ⟨"What is the largest ocean on Earth?", "Pacific Ocean", ["Atlantic Ocean", "Indian Ocean", "Arctic Ocean"], "Geography", "easy"⟩,
   ⟨"What is the smallest country in the world?", "Vatican City", ["Monaco", "San Marino", "Liechtenstein"], "Geography", "medium"⟩,
   ⟨"Which river flows through Egypt?", "Nile River", ["Amazon River", "Mississippi River", "Yangtze River"], "Geography", "medium"⟩,
   ⟨"What is the capital of Kazakhstan?", "Nur-Sultan", ["Almaty", "Shymkent", "Aktobe"], "Geography", "hard"⟩,
   ⟨"What is 2 + 2?", "4", ["3", "5", "6"], "Mathematics", "easy"⟩,
   ⟨"What is 10 × 5?", "50", ["45", "55", "60"], "Mathematics", "easy"⟩,
   ⟨"What is 100 ÷ 4?", "25", ["20", "30", "24"], "Mathematics", "easy"⟩,
   ⟨"What is 15% of 200?", "30", ["25", "35", "40"], "Mathematics", "medium"⟩,
   ⟨"What is the square root of 144?", "12", ["11", "13", "14"], "Mathematics", "medium"⟩,
   ⟨"What is 7³ (7 to the power of 3)?", "343", ["327", "365", "392"], "Mathematics", "hard"⟩,
   ⟨"What is the largest planet in our solar system?", "Jupiter", ["Saturn", "Earth", "Mars"], "Science", "easy"⟩,
   ⟨"How many continents are there?", "7", ["6", "5", "8"], "Science", "easy"⟩,
   ⟨"What gas do plants absorb from the atmosphere during photosynthesis?", "Carbon Dioxide", ["Oxygen", "Nitrogen", "Hydrogen"], "Science", "easy"⟩,
   ⟨"What is the chemical symbol for gold?", "Au", ["Go", "Gd", "Ag"], "Science", "medium"⟩,
   ⟨"What is the hardest natural substance on Earth?", "Diamond", ["Quartz", "Steel", "Granite"], "Science", "medium"⟩,
   ⟨"What is the speed of light in a vacuum?", "299,792,458 m/s", ["300,000,000 m/s", "250,000,000 m/s", "350,000,000 m/s"], "Science", "hard"⟩,
   ⟨"In which year did World War II end?", "1945", ["1944", "1946", "1943"], "History", "easy"⟩,
   ⟨"Who was the first President of the United States?", "George Washington", ["Thomas Jefferson", "John Adams", "Benjamin Franklin"], "History", "easy"⟩,
   ⟨"Which empire was ruled by Julius Caesar?", "Roman Empire", ["Greek Empire", "Persian Empire", "Byzantine Empire"], "History", "medium"⟩,
   ⟨"In which year did the Berlin Wall fall?", "1989", ["1987", "1990", "1991"], "History", "medium"⟩,
   ⟨"Who was the last Pharaoh of Egypt?", "Cleopatra VII", ["Nefertiti", "Hatshepsut", "Cleopatra VI"], "History", "hard"⟩,
   ⟨"Who wrote 'Romeo and Juliet'?", "William Shakespeare", ["Charles Dickens", "Jane Austen", "Mark Twain"], "Literature", "easy"⟩,
   ⟨"Which book begins with 'It was the best of times, it was the worst of times'?", "A Tale of Two Cities", ["Great Expectations", "Oliver Twist", "David Copperfield"], "Literature", "easy"⟩,
   ⟨"Who wrote '1984'?", "George Orwell", ["Aldous Huxley", "Ray Bradbury", "H.G. Wells"], "Literature", "medium"⟩,
   ⟨"Which novel features the character Atticus Finch?", "To Kill a Mockingbird", ["Of Mice and Men", "The Grapes of Wrath", "The Great Gatsby"], "Literature", "medium"⟩,
   ⟨"Who wrote 'One Hundred Years of Solitude'?", "Gabriel García Márquez", ["Mario Vargas Llosa", "Isabel Allende", "Jorge Luis Borges"], "Literature", "hard"⟩,
   ⟨"How many players are on a basketball team on the court at one time?", "5", ["6", "4", "7"], "Sports", "easy"⟩,
   ⟨"In which sport would you perform a slam dunk?", "Basketball", ["Volleyball", "Tennis", "Football"], "Sports", "easy"⟩,
   ⟨"Which country has won the most FIFA World Cups?", "Brazil", ["Germany", "Argentina", "Italy"], "Sports", "medium"⟩,
   ⟨"In tennis, what does 'love' mean?", "Zero points", ["One point", "Game point", "Set point"], "Sports", "medium"⟩,
   ⟨"Who holds the record for most home runs in a single MLB season?", "Barry Bonds", ["Babe Ruth", "Mark McGwire", "Sammy Sosa"], "Sports", "hard"⟩,
   ⟨"What does 'WWW' stand for?", "World Wide Web", ["World Web Wide", "Wide World Web", "Web Wide World"], "Technology", "easy"⟩,
   ⟨"Which company created the iPhone?", "Apple", ["Samsung", "Google", "Microsoft"], "Technology", "easy"⟩,
   ⟨"What does 'CPU' stand for?", "Central Processing Unit", ["Computer Processing Unit", "Central Program Unit", "Computer Program Unit"], "Technology", "medium"⟩,
   ⟨"Which programming language is known as the 'language of the web'?", "JavaScript", ["Python", "Java", "C++"], "Technology", "medium"⟩,
   ⟨"Who is credited with inventing the World Wide Web?", "Tim Berners-Lee", ["Bill Gates", "Steve Jobs", "Mark Zuckerberg"], "Technology", "hard"⟩,
   ⟨"Which movie features the song 'Let It Go'?", "Frozen", ["Moana", "Tangled", "The Little Mermaid"], "Entertainment", "easy"⟩,
   ⟨"Who played Jack in the movie 'Titanic'?", "Leonardo DiCaprio", ["Brad Pitt", "Tom Cruise", "Johnny Depp"], "Entertainment", "easy"⟩,
   ⟨"Which TV series features dragons and the Iron Throne?", "Game of Thrones", ["The Witcher", "Lord of the Rings", "Vikings"], "Entertainment", "medium"⟩,
   ⟨"Who directed the movie 'Inception'?", "Christopher Nolan", ["Steven Spielberg", "Martin Scorsese", "Quentin Tarantino"], "Entertainment", "medium"⟩,
   ⟨"Which actor won an Oscar for playing the Joker in 2019?", "Joaquin Phoenix", ["Heath Ledger", "Jack Nicholson", "Jared Leto"], "Entertainment", "hard"⟩]

/-- The JavaScript call `xs.slice(0, end)` for an integer `end`: the first
`end` elements, and for a negative `end` all but the last `-end`. -/
def sliceTo {α : Type} (xs : List α) (e : ℤ) : List α :=
  if e < 0 then xs.take (xs.length - (-e).toNat) else xs.take e.toNat

/-- The method `getOfflineQuestions(count)` (app.js 583-590):

```
const stored = localStorage.getItem('offlineQuestions');
const questions = stored ? JSON.parse(stored) : this.offlineQuestions;
const shuffled = questions.sort(() => 0.5 - Math.random());
return shuffled.slice(0, Math.min(count, questions.length));
```
`stored` is the parsed `localStorage` entry if there is one, `offlineQuestions`
the field of `this`, and `shuffle` what the sort with the random comparator
does to the list this time (the sort works in place, so `questions` and
`shuffled` are the same array; the order it leaves in `this.offlineQuestions`
is not kept by the model). -/
def getOfflineQuestions (stored : Option (List QuestionRecord))
    (offlineQuestions : List QuestionRecord)
    (shuffle : List QuestionRecord → List QuestionRecord) (count : ℤ) : List QuestionRecord :=
  let questions := shuffle (match stored with
    | some qs => qs
    | none => offlineQuestions)
  sliceTo questions (min count questions.length)

/-- A question object of the remote trivia API (specification, section 6),
with all five fields present. -/
structure RawQuestion where
  question : String
  correct_answer : String
  incorrect_answers : List String
  category : String
  difficulty : String
  deriving DecidableEq, Repr

/-- The parsed body of the remote response: `response_code` (`none` when the
field is absent or not a number) and `results` (`none` when the field is absent
or not an array). -/
structure ApiBody where
  response_code : Option ℤ
  results : Option (List RawQuestion)
  deriving DecidableEq, Repr

/-- How the remote request of `fetchQuestions` ends: `fetch` rejects (no
network, time-out), `response.json()` rejects (the body is not JSON; a body
that parses to `null` throws on the read of `response_code` and ends the same
way), or the body is parsed to an object. -/
inductive FetchOutcome where
  | requestFailed
  | bodyUnparsable
  | body (data : ApiBody)
  deriving DecidableEq, Repr

/-- The record `fetchQuestions` builds from a remote question (lines 214-220);
`decodeHTML` is the method of that name, which asks the page to decode the
text. -/
def fromRaw (decodeHTML : String → String) (q : RawQuestion) : QuestionRecord :=
  { question := decodeHTML q.question
    correct := decodeHTML q.correct_answer
    incorrect := q.incorrect_answers.map decodeHTML
    category := q.category
    difficulty := q.difficulty }

/-- The method `fetchQuestions(settings)` (app.js 202-227) as a function of how
the request ends:

```
try {
    const response = await fetch(url);
    const data = await response.json();
    if (data.response_code === 0) { return data.results.map(q => ({ ... })); }
    return [];
} catch (error) {
    return this.getOfflineQuestions(numQuestions);
}
```
A body with response code `0` and no `results` array throws in `.map` and is
caught like the other failures.  The first three arguments after `decodeHTML`
are those of `getOfflineQuestions`. -/
def fetchQuestions (decodeHTML : String → String) (stored : Option (List QuestionRecord))
    (offlineQuestions : List QuestionRecord)
    (shuffle : List QuestionRecord → List QuestionRecord)
    (settings : QuizSettings) (outcome : FetchOutcome) : List QuestionRecord :=
  match outcome with
  | .requestFailed => getOfflineQuestions stored offlineQuestions shuffle settings.numQuestions
  | .bodyUnparsable => getOfflineQuestions stored offlineQuestions shuffle settings.numQuestions
  | .body data =>
    if data.response_code = some 0 then
      match data.results with
      | some results => results.map (fromRaw decodeHTML)
      | none => getOfflineQuestions stored offlineQuestions shuffle settings.numQuestions
    else []

/-! ## Accounts: `login` and `signup` (app.js 59-96) -/

/-- The property names every object inherits from `Object.prototype`: on the
object parsed from `localStorage`, `users[name]` for one of these names is a
function (or the prototype itself), not `undefined`, unless an own property
shadows it. -/
def inheritedNames : List String :=
  ["constructor", "hasOwnProperty", "isPrototypeOf", "propertyIsEnumerable",
   "toLocaleString", "toString", "valueOf", "__proto__",
   "__defineGetter__", "__defineSetter__", "__lookupGetter__", "__lookupSetter__"]

/-- The value of the expression `users[username]`. -/
inductive Lookup where
  | account (a : UserAccount)
  | inherited
  | undefined
  deriving DecidableEq, Repr

/-- The expression `users[username]`: the stored account, else an inherited
property, else `undefined`. -/
def usersLookup (users : List (String × UserAccount)) (username : String) : Lookup :=
  match storeGet users username with
  | some a => .account a
  | none => if username ∈ inheritedNames then .inherited else .undefined

/-- The method `login(username, password)` (app.js 59-70), with its return
value.  The condition `users[username] && users[username].password === password`
holds for a stored account with that password; an inherited property is truthy
but has no `password`. -/
def login (s : App) (username password : String) : App × Bool :=
  match usersLookup s.users username with
  | .account a =>
    if a.password = password then
      ({ s with currentUser := some a, storedUser := some a }, true)
    else (s, false)
  | .inherited => (s, false)
  | .undefined => (s, false)

/-- The method `signup(username, email, password)` (app.js 72-96), with its
return value.  The condition `users[username]` is true of any truthy value, a
stored account or an inherited property. -/
def signup (s : App) (username email password : String) : App × Bool :=
  match usersLookup s.users username with
  | .account _ => (s, false)
  | .inherited => (s, false)
  | .undefined =>
    let account : UserAccount :=
      { username := username, email := email, password := password, stats := newStats }
    ({ s with users := storePut s.users username account }, true)

/-! ## Playing a quiz question by question -/

/-- One question played in order: `wait` ticks of the question timer pass,
then either an answer button is clicked and the closure records the answer
(`answer = some a`), or nobody answers and the timer runs out
(`answer = none`); after that the quiz advances, by the auto-progress timeout
(`auto`) or by a click on the next button, at clock `now`, the answers of the
next question being shuffled by `shuffle`. -/
structure Round where
  wait : ℕ
  answer : Option String
  auto : Bool
  now : ℤ
  shuffle : List String → List String

/-- The event that advances the quiz at the end of a round. -/
def Round.advance (r : Round) : Event :=
  if r.auto then Event.autoProgress r.now r.shuffle else Event.clickNext r.now r.shuffle

/-- The part of a round that produces the record of the question: with a time
limit of `timePerQuestion` seconds an unanswered question times out on tick
`timePerQuestion` (on the first tick if the limit is negative). -/
def Round.answerEvents (timePerQuestion : ℤ) (r : Round) : List Event :=
  match r.answer with
  | some a => ticks r.wait ++ [Event.clickAnswer a, Event.answerTimeout]
  | none => ticks (max timePerQuestion 1).toNat

/-- The events of a round. -/
def Round.events (timePerQuestion : ℤ) (r : Round) : List Event :=
  r.answerEvents timePerQuestion ++ [r.advance]

/-- A round fits the time limit: an answer comes before the timer runs out,
and a question can only time out if there is a limit. -/
def Round.WellTimed (timePerQuestion : ℤ) (r : Round) : Prop :=
  match r.answer with
  | some _ => timePerQuestion = 0 ∨ r.wait = 0 ∨ (r.wait : ℤ) < timePerQuestion
  | none => timePerQuestion ≠ 0

/-- The events of a sequence of rounds. -/
def playRounds (timePerQuestion : ℤ) (rs : List Round) : List Event :=
  (rs.map (Round.events timePerQuestion)).flatten

/-- The shuffle that ordered the answers of the question on display after the
rounds `rs`: that of the last round, or that of `startQuiz`. -/
def lastShuffle (sh0 : List String → List String) (rs : List Round) :
    List String → List String :=
  match rs.getLast? with
  | some r => r.shuffle
  | none => sh0

/-- Question `k` of the quiz started in `st` is on display, unanswered, after
`k` questions have been recorded, and the quiz has not been reconciled. -/
def Presented (st : App) (k : ℕ) (sh : List String → List String) (s : App) : Prop :=
  ∃ quiz0 quiz question,
    st.currentQuiz = some quiz0 ∧ s.currentQuiz = some quiz ∧
    quiz.questions = quiz0.questions ∧ quiz.settings = quiz0.settings ∧
    quiz.answers.length = k ∧ s.currentQuestionIndex = k ∧
    quiz.questions[k]? = some question ∧
    s.answersHTML = answerMarkup (sh (question.correct :: question.incorrect)) ∧
    s.answersDisabled = false ∧ s.nextDisabled = true ∧ s.pendingAnswers = [] ∧
    s.timer = decide (quiz.settings.timePerQuestion ≠ 0) ∧
    (quiz.settings.timePerQuestion ≠ 0 → s.timeRemaining = quiz.settings.timePerQuestion) ∧
    s.score = correctCount quiz.answers ∧
    s.currentUser = st.currentUser ∧ s.users = st.users ∧ s.storedUser = st.storedUser ∧
    s.results = st.results ∧ s.quizStartTime = st.quizStartTime

/-- Question `k` has its record and the quiz waits to advance. -/
def Recorded (st : App) (k : ℕ) (s : App) : Prop :=
  ∃ quiz0 quiz,
    st.currentQuiz = some quiz0 ∧ s.currentQuiz = some quiz ∧
    quiz.questions = quiz0.questions ∧ quiz.settings = quiz0.settings ∧
    quiz.answers.length = k + 1 ∧ s.currentQuestionIndex = k ∧
    k < quiz.questions.length ∧
    s.nextDisabled = false ∧ s.autoProgressTimer = true ∧ s.pendingAnswers = [] ∧
    s.score = correctCount quiz.answers ∧
    s.currentUser = st.currentUser ∧ s.users = st.users ∧ s.storedUser = st.storedUser ∧
    s.results = st.results ∧ s.quizStartTime = st.quizStartTime

/-- The quiz started in `st` by the user `u` has ended at clock `now`: every
question has its record and the summary has been folded into the account of
`u` once. -/
def Finished (st : App) (u : UserAccount) (now : ℤ) (s : App) : Prop :=
  ∃ quiz0 quiz,
    st.currentQuiz = some quiz0 ∧ s.currentQuiz = some quiz ∧
    quiz.questions = quiz0.questions ∧ quiz.settings = quiz0.settings ∧
    quiz.answers.length = quiz.questions.length ∧
    s.currentQuestionIndex = quiz.questions.length ∧
    s.score = correctCount quiz.answers ∧
    s.results = some (quizSummary quiz.settings.difficulty s.score quiz.questions.length now
      st.quizStartTime) ∧
    s.currentUser = some (accountAfterQuiz u quiz.settings.category now
      (quizSummary quiz.settings.difficulty s.score quiz.questions.length now
        st.quizStartTime)) ∧
    s.storedUser = s.currentUser ∧
    s.users = storePut st.users u.username (accountAfterQuiz u quiz.settings.category now
      (quizSummary quiz.settings.difficulty s.score quiz.questions.length now
        st.quizStartTime))

/-- A round in which `Paris` is clicked after three seconds and the next
button is clicked at clock 5000. -/
def parisRound : Round :=
  { wait := 3, answer := some "Paris", auto := false, now := 5000, shuffle := id }

/-- A round in which nobody answers and the auto-progress advances at clock
40000. -/
def silentRound : Round :=
  { wait := 0, answer := none, auto := true, now := 40000, shuffle := id }

/-! ## The dashboard: `updateDashboardStats` (app.js 125-133) -/

/-- The binary64 quotient `a / b` of two integers that doubles hold exactly:
`none` for a zero divisor, where the source has `NaN` or an infinity, else the
exact quotient rounded to the nearest double, symmetrically in the sign. -/
def jsDivide (a b : ℤ) : Option ℚ :=
  if b = 0 then none
  else
    let q := (a : ℚ) / (b : ℚ)
    some (if q < 0 then -toDouble (-q) else toDouble q)

/-- The four numbers `updateDashboardStats` writes to the page; the average
and the best score are followed by a percent sign there.  An average of `none`
stands for the text `NaN%` or `Infinity%` of a division by zero. -/
structure DashboardStats where
  totalQuizzes : ℤ
  avgScore : Option ℤ
  bestScore : ℤ
  userPoints : ℤ
  deriving DecidableEq, Repr

/-- The method `updateDashboardStats` on the statistics of the current user:

```
avgScore = stats.totalQuizzes > 0
    ? Math.round(stats.totalScore / stats.totalQuizzes) + '%' : '0%'
```
-/
def updateDashboardStats (stats : UserStats) : DashboardStats :=
  { totalQuizzes := stats.totalQuizzes
    avgScore :=
      if stats.totalQuizzes > 0 then
        (jsDivide stats.totalScore stats.totalQuizzes).map mathRound
      else some 0
    bestScore := stats.bestScore
    userPoints := stats.points }

/-- Two quizzes, the second one better than the first. -/
def twoQuizzes : List Reconciliation :=
  [{ category := some "Science", now := 1000, percentage := 57, points := 620 },
   { category := none, now := 2000, percentage := 80, points := 850 }]

/-! ## The leaderboard: `loadLeaderboard` (app.js 135-149) -/

/-- The comparator of the sort, `(a, b) => b.stats.points - a.stats.points`. -/
def comparePoints (a b : UserAccount) : ℤ :=
  b.stats.points - a.stats.points

/-- The accounts `loadLeaderboard` lists, for `values = Object.values(users)`,
the accounts of the parsed store in the enumeration order of its keys:

```
Object.values(users).sort((a, b) => b.stats.points - a.stats.points).slice(0, 5)
```

`sort` is stable: `a` comes before `b` when the comparator is negative, and
when it is zero if `a` came first. -/
def loadLeaderboard (values : List UserAccount) : List UserAccount :=
  (values.insertionSort (fun a b => comparePoints a b ≤ 0)).take 5

/-- An account that has earned `points` points in one quiz. -/
def accountWithPoints (username : String) (points : ℤ) : UserAccount :=
  { username := username, email := username ++ "@example.org", password := "secret",
    stats := { totalQuizzes := 1, totalScore := 50, bestScore := 50, points := points,
               quizHistory := [] } }

/-- Six accounts, two of them with the same points. -/
def sixAccounts : List UserAccount :=
  [accountWithPoints "ann" 300, accountWithPoints "bob" 900, accountWithPoints "cy" 100,
   accountWithPoints "dee" 900, accountWithPoints "eve" 0, accountWithPoints "flo" 1200]

/-! ## What the browser reads from the markup -/

/-- The value the HTML tokenizer gives a double-quoted attribute whose opening
quote is followed by the characters `rest` (its state "attribute value
(double-quoted)"): the characters before the first double quote.  An ampersand
starts a character reference, a NUL is replaced and a carriage return is
normalised before tokenizing; the model does not follow those and gives
`none`, as it does when no closing quote comes. -/
def quotedAttributeValue : List Char → Option (List Char)
  | [] => none
  | c :: rest =>
    if c = Char.ofNat 34 then some []
    else if c = Char.ofNat 38 ∨ c = Char.ofNat 0 ∨ c = Char.ofNat 13 then none
    else (quotedAttributeValue rest).map (fun v => c :: v)

/-- The start of `answerMarkup` for a non-empty array, up to the quote that
opens the `data-answer` attribute of the first button. -/
def buttonOpening : String :=
  "\n            <button class=\"answer-option\" data-answer=\""

/-- The `data-answer` attribute of the first `.answer-option` button the
browser builds from `markup`, which is `button.dataset.answer` in
`selectAnswer`: the quoted value that follows `buttonOpening`. -/
def firstDataAnswer (markup : String) : Option String :=
  if markup.data.take buttonOpening.data.length = buttonOpening.data then
    (quotedAttributeValue (markup.data.drop buttonOpening.data.length)).map String.mk
  else none

/-- A question as `fetchQuestions` returns it when the answers of the API
carry `&quot;`, which `decodeHTML` turns into double quotes. -/
def floppyQuestion : QuestionRecord :=
  { question := "How wide were the first floppy disks?", correct := "8\"",
    incorrect := ["5.25\"", "3.5\"", "12\""], category := "Science: Computers",
    difficulty := "easy" }

/-- The application `sampleApp` after `startQuiz` with the one question
`floppyQuestion`, the answers left in source order. -/
def floppyApp : App :=
  startQuiz sampleApp scienceSettings [floppyQuestion] 0 id

/-! ## The guard of the next button -/

/-- What the next button guards: while the quiz runs the index never passes
the number of records, and with the button enabled the question at the index
has a record. -/
def NextGuard (s : App) : Prop :=
  (s.currentQuestionIndex < questionsLength s → s.currentQuestionIndex ≤ answersLength s) ∧
  (s.nextDisabled = false → s.currentQuestionIndex < questionsLength s →
    s.currentQuestionIndex < answersLength s)

/-! ## A quiz started while a click is still being processed -/

/-- The application `sampleApp` after `startQuiz` with the one question
`franceQuestion`. -/
def oneQuestionApp : App :=
  startQuiz sampleApp scienceSettings [franceQuestion] 0 id

/-- A second `startQuiz` overtaking a click: in `scienceApp` the button
"Paris" is clicked, and before the 300 ms of its closure have passed a second
call of `startQuiz`, whose questions arrive only now, resumes with the one
question `franceQuestion`.  The closure of the click is still pending. -/
def restartedApp : App :=
  startQuiz (selectAnswer scienceApp "Paris") scienceSettings [franceQuestion] 100 id

/-! # Theorems -/

/-! ## Binary64 rounding -/

theorem int_log_two_eq (q : ℚ) (b : ℤ) (h1 : (2 : ℚ) ^ b ≤ q) (h2 : q < (2 : ℚ) ^ (b + 1)) :
    Int.log 2 q = b := by
  have hq : 0 < q := lt_of_lt_of_le (by positivity) h1
  apply le_antisymm
  · have h := (Int.lt_zpow_iff_log_lt (b := 2) (by norm_num) hq (x := b + 1)).1 h2
    omega
  · exact (Int.zpow_le_iff_le_log (b := 2) (by norm_num) hq).1 h1

theorem roundHalfEven_down (q : ℚ) (f : ℤ) (h1 : (f : ℚ) ≤ q) (h2 : q < f + 1 / 2) :
    roundHalfEven q = f := by
  have hf : ⌊q⌋ = f := by
    rw [Int.floor_eq_iff]
    constructor
    · exact h1
    · linarith
  unfold roundHalfEven
  simp only [hf]
  rw [if_pos (by linarith)]

theorem roundHalfEven_up (q : ℚ) (f : ℤ) (h1 : (f : ℚ) + 1 / 2 < q) (h2 : q < f + 1) :
    roundHalfEven q = f + 1 := by
  have hf : ⌊q⌋ = f := by
    rw [Int.floor_eq_iff]
    constructor
    · linarith
    · exact h2
  unfold roundHalfEven
  simp only [hf]
  rw [if_neg (by linarith), if_pos (by linarith)]

theorem toDouble_eq (q : ℚ) (b m : ℤ) (h1 : (2 : ℚ) ^ b ≤ q) (h2 : q < (2 : ℚ) ^ (b + 1))
    (hm : roundHalfEven (q / 2 ^ (b - 52)) = m) : toDouble q = (m : ℚ) * 2 ^ (b - 52) := by
  have hq : 0 < q := lt_of_lt_of_le (by positivity) h1
  unfold toDouble
  rw [if_neg (not_le.mpr hq)]
  simp only [int_log_two_eq q b h1 h2, hm]

theorem floor_le_roundHalfEven (y : ℚ) : ⌊y⌋ ≤ roundHalfEven y := by
  unfold roundHalfEven
  simp only
  split_ifs <;> omega

theorem roundHalfEven_le (y : ℚ) : (roundHalfEven y : ℚ) ≤ y + 1 / 2 := by
  have h1 : (⌊y⌋ : ℚ) ≤ y := Int.floor_le y
  unfold roundHalfEven
  simp only
  split_ifs with a b c
  · linarith
  · push_cast; linarith
  · linarith
  · have : y - ⌊y⌋ = 1 / 2 := le_antisymm (not_lt.mp b) (not_lt.mp a)
    push_cast; linarith

/-- The double nearest to the quotient of a clock difference below `2 ^ 53` by
`1000` has the integer part of the exact quotient: `quizTimeTaken` loses
nothing by dividing exactly. -/
theorem floor_toDouble_div_thousand (x : ℤ) (h0 : 0 ≤ x) (h53 : x < 2 ^ 53) :
    ⌊toDouble ((x : ℚ) / 1000)⌋ = ⌊(x : ℚ) / 1000⌋ := by
  rcases eq_or_lt_of_le h0 with hx | hx
  · subst hx; simp [toDouble]
  have hxq : (0 : ℚ) < x := by exact_mod_cast hx
  have hq : (0 : ℚ) < (x : ℚ) / 1000 := by positivity
  set q : ℚ := (x : ℚ) / 1000 with hqdef
  have hlo : (2 : ℚ) ^ Int.log 2 q ≤ q := Int.zpow_log_le_self (by norm_num) hq
  have hqlt : q < 2 ^ (53 : ℤ) / 1000 := by
    rw [hqdef]
    have h : (x : ℚ) < ((2 ^ 53 : ℤ) : ℚ) := (Int.cast_lt (R := ℚ)).mpr h53
    have h2 : ((2 ^ 53 : ℤ) : ℚ) = 2 ^ (53 : ℤ) := by norm_num
    rw [h2] at h
    linarith
  -- the exponent of the last place is not positive
  have hb : Int.log 2 q ≤ 52 := by
    by_contra hcon
    have h53' : (53 : ℤ) ≤ Int.log 2 q := by omega
    have : (2 : ℚ) ^ (53 : ℤ) ≤ 2 ^ Int.log 2 q := zpow_le_zpow_right₀ (by norm_num) h53'
    have : (2 : ℚ) ^ (53 : ℤ) ≤ q := le_trans this hlo
    have hpos : (0 : ℚ) < 2 ^ (53 : ℤ) := by positivity
    linarith
  set e : ℤ := Int.log 2 q - 52 with hedef
  have he : e ≤ 0 := by omega
  have hpe : (0 : ℚ) < 2 ^ e := by positivity
  have htd : toDouble q = (roundHalfEven (q / 2 ^ e) : ℚ) * 2 ^ e := by
    unfold toDouble
    rw [if_neg (not_le.mpr hq)]
  -- half a unit in the last place is below one thousandth
  have hulp : (2 : ℚ) ^ e * (1 / 2) < 1 / 1000 := by
    have h1 : (2 : ℚ) ^ e = 2 ^ Int.log 2 q * 2 ^ (-52 : ℤ) := by
      rw [hedef, sub_eq_add_neg, zpow_add₀ (by norm_num)]
    rw [h1]
    have h2 : (2 : ℚ) ^ Int.log 2 q * 2 ^ (-52 : ℤ) ≤ q * 2 ^ (-52 : ℤ) :=
      mul_le_mul_of_nonneg_right hlo (by positivity)
    have h3 : q * 2 ^ (-52 : ℤ) * (1 / 2) < (2 ^ (53 : ℤ) / 1000) * 2 ^ (-52 : ℤ) * (1 / 2) := by
      have hp : (0 : ℚ) < 2 ^ (-52 : ℤ) * (1 / 2) := by positivity
      have := mul_lt_mul_of_pos_right hqlt hp
      linarith
    have h4 : ((2 : ℚ) ^ (53 : ℤ) / 1000) * 2 ^ (-52 : ℤ) * (1 / 2) = 1 / 1000 := by norm_num
    linarith
  have hk1 : ((⌊q⌋ : ℤ) : ℚ) ≤ q := Int.floor_le q
  -- the exact quotient stays a thousandth below the next integer
  have hk2 : q + 1 / 1000 ≤ (⌊q⌋ : ℚ) + 1 := by
    have hfl : ⌊q⌋ = x / 1000 := by
      rw [hqdef]
      exact_mod_cast Rat.floor_intCast_div_natCast x 1000
    have hmod := Int.emod_add_ediv x 1000
    have hlt := Int.emod_lt_of_pos x (by norm_num : (0 : ℤ) < 1000)
    have hxk : x ≤ 1000 * (x / 1000) + 999 := by omega
    have hxkq : (x : ℚ) ≤ 1000 * ((x / 1000 : ℤ) : ℚ) + 999 := by exact_mod_cast hxk
    rw [hfl, hqdef]
    linarith
  rw [htd, Int.floor_eq_iff]
  constructor
  · -- the integer part is itself a multiple of the unit in the last place
    obtain ⟨j, hj⟩ : ∃ j : ℕ, e = -(j : ℤ) := ⟨(-e).toNat, by omega⟩
    have h2e : (2 : ℚ) ^ e = 1 / 2 ^ j := by
      rw [hj, zpow_neg, zpow_natCast, one_div]
    have hint : ((⌊q⌋ * 2 ^ j : ℤ) : ℚ) ≤ q / 2 ^ e := by
      rw [h2e]
      push_cast
      have hp : (0 : ℚ) < 2 ^ j := by positivity
      rw [div_div_eq_mul_div, div_one]
      exact mul_le_mul_of_nonneg_right hk1 hp.le
    have hfl : ⌊q⌋ * 2 ^ j ≤ ⌊q / 2 ^ e⌋ := Int.le_floor.mpr hint
    have hr : ⌊q⌋ * 2 ^ j ≤ roundHalfEven (q / 2 ^ e) :=
      le_trans hfl (floor_le_roundHalfEven _)
    have hrq : ((⌊q⌋ * 2 ^ j : ℤ) : ℚ) ≤ (roundHalfEven (q / 2 ^ e) : ℚ) := by exact_mod_cast hr
    have hp : (0 : ℚ) < 2 ^ j := by positivity
    push_cast at hrq
    have h5 : (roundHalfEven (q / 2 ^ e) : ℚ) * 2 ^ e = (roundHalfEven (q / 2 ^ e) : ℚ) / 2 ^ j := by
      rw [h2e, mul_one_div]
    rw [h5, le_div_iff₀ hp]
    exact hrq
  · have h1 := roundHalfEven_le (q / 2 ^ e)
    have h2 : (roundHalfEven (q / 2 ^ e) : ℚ) * 2 ^ e ≤ (q / 2 ^ e + 1 / 2) * 2 ^ e :=
      mul_le_mul_of_nonneg_right h1 hpe.le
    have h3 : (q / 2 ^ e + 1 / 2) * 2 ^ e = q + 2 ^ e * (1 / 2) := by
      field_simp
      ring
    linarith

/-! ## Scoring -/

theorem floor_ten_mul (p : ℤ) : (⌊(p : ℚ) * 10⌋ : ℤ) = 10 * p := by
  have h : (p : ℚ) * 10 = ((10 * p : ℤ) : ℚ) := by push_cast; ring
  rw [h, Int.floor_intCast]

/-- The value of `calculatePoints` in integer arithmetic: the bonus is added
to ten times the percentage, then the multiplier is applied and the result
floored. -/
theorem calculatePoints_eq (d : Option String) (p t : ℤ) :
    calculatePoints d p t =
      if d = some "hard" then 2 * (10 * p + speedBonus t)
      else if d = some "medium" then 3 * (10 * p + speedBonus t) / 2
      else 10 * p + speedBonus t := by
  have hb : (if t < 60 then ((⌊(p : ℚ) * 10⌋ : ℤ) : ℚ) + 50
      else if t < 120 then ((⌊(p : ℚ) * 10⌋ : ℤ) : ℚ) + 25
      else if t < 180 then ((⌊(p : ℚ) * 10⌋ : ℤ) : ℚ) + 10
      else ((⌊(p : ℚ) * 10⌋ : ℤ) : ℚ)) = ((10 * p + speedBonus t : ℤ) : ℚ) := by
    unfold speedBonus
    rw [floor_ten_mul]
    split_ifs <;> push_cast <;> ring
  unfold calculatePoints
  simp only [hb]
  split_ifs with h1 h2
  · have : ((10 * p + speedBonus t : ℤ) : ℚ) * 2 = ((2 * (10 * p + speedBonus t) : ℤ) : ℚ) := by
      push_cast; ring
    rw [this, Int.floor_intCast]
  · have : ((10 * p + speedBonus t : ℤ) : ℚ) * (3 / 2) =
        ((3 * (10 * p + speedBonus t) : ℤ) : ℚ) / ((2 : ℕ) : ℚ) := by
      push_cast; ring
    rw [this, Rat.floor_intCast_div_natCast]
    rfl
  · exact Int.floor_intCast _

/-- C1: with difficulty `easy`, empty or absent, `calculatePoints` returns ten
times the percentage (an integer, so `floor(10 * p) = 10 * p`) plus exactly one
speed bonus: 50 below 60 seconds, 25 from 60 to below 120, 10 from 120 to below
180, nothing from 180 on; and 50 percent in 200 seconds on `easy` gives 500. -/
theorem calculatePoints_easy_or_unspecified (p t : ℤ) (d : Option String)
    (hd : d = some "easy" ∨ d = some "" ∨ d = none) :
    (t < 60 → calculatePoints d p t = 10 * p + 50) ∧
    (60 ≤ t → t < 120 → calculatePoints d p t = 10 * p + 25) ∧
    (120 ≤ t → t < 180 → calculatePoints d p t = 10 * p + 10) ∧
    (180 ≤ t → calculatePoints d p t = 10 * p) ∧
    calculatePoints (some "easy") 50 200 = 500 := by
  have hh : d ≠ some "hard" := by rcases hd with h | h | h <;> simp [h]
  have hm : d ≠ some "medium" := by rcases hd with h | h | h <;> simp [h]
  have key : calculatePoints d p t = 10 * p + speedBonus t := by
    rw [calculatePoints_eq, if_neg hh, if_neg hm]
  refine ⟨?_, ?_, ?_, ?_, ?_⟩
  · intro h; rw [key]; simp [speedBonus, h]
  · intro h1 h2; rw [key]; simp [speedBonus, h2, not_lt.mpr h1]
  · intro h1 h2
    have : ¬ t < 60 := by omega
    have : ¬ t < 120 := by omega
    rw [key]; simp [speedBonus, *]
  · intro h1
    have : ¬ t < 60 := by omega
    have : ¬ t < 120 := by omega
    have : ¬ t < 180 := by omega
    rw [key]; simp [speedBonus, *]
  · rw [calculatePoints_eq]; decide

/-- One quiz in each bonus tier, with the difficulty absent, empty and `easy`. -/
theorem calculatePoints_easy_or_unspecified_witness :
    calculatePoints none 50 30 = 10 * 50 + 50 ∧
    calculatePoints (some "") 50 90 = 10 * 50 + 25 ∧
    calculatePoints (some "easy") 50 150 = 10 * 50 + 10 ∧
    calculatePoints (some "easy") 50 200 = 10 * 50 :=
  ⟨(calculatePoints_easy_or_unspecified 50 30 none (Or.inr (Or.inr rfl))).1 (by decide),
   (calculatePoints_easy_or_unspecified 50 90 (some "") (Or.inr (Or.inl rfl))).2.1
      (by decide) (by decide),
   (calculatePoints_easy_or_unspecified 50 150 (some "easy") (Or.inl rfl)).2.2.1
      (by decide) (by decide),
   (calculatePoints_easy_or_unspecified 50 200 (some "easy") (Or.inl rfl)).2.2.2.1 (by decide)⟩

/-- C2: the multiplier is applied to the sum of base points and speed bonus
and the result is floored: twice the sum on `hard`, the floor of three halves
of the sum on `medium` (integer division by 2 rounds down), the sum itself for
every other difficulty value; and 100 percent in 50 seconds on `hard` gives
2100. -/
theorem calculatePoints_multiplier (p t : ℤ) (d : Option String) :
    calculatePoints (some "hard") p t = 2 * (10 * p + speedBonus t) ∧
    calculatePoints (some "medium") p t = 3 * (10 * p + speedBonus t) / 2 ∧
    (d ≠ some "hard" → d ≠ some "medium" →
      calculatePoints d p t = 10 * p + speedBonus t) ∧
    calculatePoints (some "hard") 100 50 = 2100 := by
  refine ⟨?_, ?_, ?_, ?_⟩
  · rw [calculatePoints_eq]; simp
  · rw [calculatePoints_eq]; simp
  · intro h1 h2; rw [calculatePoints_eq, if_neg h1, if_neg h2]
  · rw [calculatePoints_eq]; decide

/-- A quiz of 77 percent in 130 seconds on `easy` and on `medium`. -/
theorem calculatePoints_multiplier_witness :
    calculatePoints (some "easy") 77 130 = 10 * 77 + speedBonus 130 ∧
    calculatePoints (some "medium") 77 130 = 1170 :=
  ⟨(calculatePoints_multiplier 77 130 (some "easy")).2.2.1 (by decide) (by decide),
   (calculatePoints_multiplier 77 130 none).2.1.trans (by decide)⟩

/-! ## Statistics -/

theorem sliceLast10_suffix {α : Type} (xs : List α) : sliceLast10 xs <:+ xs :=
  List.drop_suffix _ _

theorem sliceLast10_length {α : Type} (xs : List α) :
    (sliceLast10 xs).length = min xs.length 10 := by
  unfold sliceLast10
  rw [List.length_drop]
  omega

/-- The history after one update: the last ten of the old history followed by
the new entry. -/
theorem updateStats_history (c : Option String) (now : ℤ) (st : UserStats) (p q : ℤ) :
    (updateStats c now st p q).quizHistory =
      sliceLast10 (st.quizHistory ++
        [{ category := categoryOrMixed c, score := p, date := now, points := q }]) := by
  unfold updateStats
  simp only
  split_ifs with h
  · rfl
  · unfold sliceLast10
    have : (st.quizHistory ++
        [({ category := categoryOrMixed c, score := p, date := now, points := q } :
          HistoryEntry)]).length - 10 = 0 := by omega
    rw [this, List.drop_zero]

theorem updateUserStats_currentUser (s : App) (u : UserAccount) (quiz : Quiz) (now p q : ℤ)
    (hu : s.currentUser = some u) (hq : s.currentQuiz = some quiz) :
    (updateUserStats s now p q).currentUser =
      some { u with stats := updateStats quiz.settings.category now u.stats p q } := by
  unfold updateUserStats
  rw [hu, hq]

theorem storeGet_storePut (users : List (String × UserAccount)) (name : String)
    (account : UserAccount) : storeGet (storePut users name account) name = some account := by
  unfold storeGet storePut
  induction users with
  | nil => simp
  | cons e rest ih =>
    by_cases h : e.1 = name
    · simp [h]
    · have hb : (e.1 == name) = false := by simpa using h
      by_cases hr : rest.any (fun e => e.1 == name) = true
      · simp only [List.any_cons, hb, hr, Bool.false_or, if_true, List.map_cons] at ih ⊢
        simp only [Bool.false_eq_true, if_false, List.find?_cons, hb]
        exact ih
      · have hr2 : rest.any (fun e => e.1 == name) = false := Bool.eq_false_iff.mpr hr
        simp only [List.any_cons, hb, hr2, Bool.false_or, Bool.false_eq_true, if_false,
          List.cons_append, List.find?_cons] at ih ⊢
        exact ih

theorem sliceLast10_getLast {α : Type} (xs : List α) (e : α) :
    (sliceLast10 (xs ++ [e])).getLast? = some e := by
  unfold sliceLast10
  have h : (xs ++ [e]).length - 10 ≤ xs.length := by simp only [List.length_append, List.length_singleton]; omega
  rw [List.drop_append_of_le_length h]
  simp

theorem sliceLast10_append {α : Type} (xs ys : List α) :
    sliceLast10 (sliceLast10 xs ++ ys) = sliceLast10 (xs ++ ys) := by
  by_cases h : xs.length ≤ 10
  · have : sliceLast10 xs = xs := by
      unfold sliceLast10
      rw [Nat.sub_eq_zero_of_le h, List.drop_zero]
    rw [this]
  · have hl := sliceLast10_length xs
    conv_rhs =>
      unfold sliceLast10
      rw [← List.take_append_drop (xs.length - 10) xs, List.append_assoc]
    have e1 : (List.take (xs.length - 10) xs ++ (List.drop (xs.length - 10) xs ++ ys)).length - 10
        = (List.take (xs.length - 10) xs).length + ((sliceLast10 xs ++ ys).length - 10) := by
      simp only [List.length_append, List.length_take, List.length_drop, hl]
      omega
    rw [e1, List.drop_append]
    rfl

theorem reconcileAll_cons (st : UserStats) (r : Reconciliation) (rs : List Reconciliation) :
    reconcileAll st (r :: rs) =
      reconcileAll (updateStats r.category r.now st r.percentage r.points) rs := rfl

/-- The history after a sequence of quizzes is the last ten entries of the old
history followed by the new entries. -/
theorem reconcileAll_history (rs : List Reconciliation) (st : UserStats) :
    sliceLast10 (reconcileAll st rs).quizHistory =
      sliceLast10 (st.quizHistory ++ rs.map Reconciliation.entry) := by
  induction rs generalizing st with
  | nil => simp [reconcileAll]
  | cons r rest ih =>
    rw [reconcileAll_cons, ih, updateStats_history, sliceLast10_append, List.map_cons,
      List.append_assoc]
    rfl

theorem sliceLast10_of_length_le {α : Type} (xs : List α) (h : xs.length ≤ 10) :
    sliceLast10 xs = xs := by
  unfold sliceLast10
  rw [Nat.sub_eq_zero_of_le h, List.drop_zero]

theorem reconcileAll_history_length (rs : List Reconciliation) (st : UserStats)
    (h : st.quizHistory.length ≤ 10) : (reconcileAll st rs).quizHistory.length ≤ 10 := by
  induction rs generalizing st with
  | nil => simpa [reconcileAll] using h
  | cons r rest ih =>
    rw [reconcileAll_cons]
    apply ih
    rw [updateStats_history, sliceLast10_length]
    omega

/-- C3, as stated, fails for the empty category: a quiz started with the
settings of `startOfflineQuiz` has category `""`, and the entry pushed for it
carries the category `"Mixed"`. -/
theorem updateUserStats_empty_category_counterexample :
    (Option.map (fun quiz => quiz.settings.category)
      (startQuiz sampleApp offlineSettings sampleQuestions 0 id).currentQuiz = some (some "")) ∧
    (Option.map (fun u => u.stats.quizHistory)
      (updateUserStats (startQuiz sampleApp offlineSettings sampleQuestions 0 id)
        1000 80 900).currentUser =
      some [{ category := "Mixed", score := 80, date := 1000, points := 900 }]) ∧
    ¬ (Option.map (fun u => (u.stats.quizHistory.getLast?).map HistoryEntry.category)
      (updateUserStats (startQuiz sampleApp offlineSettings sampleQuestions 0 id)
        1000 80 900).currentUser = some (some "")) := by
  refine ⟨by rfl, by rfl, ?_⟩
  decide

/-- C3 (amended): `updateUserStats` adds one to `totalQuizzes`, the percentage
to `totalScore`, raises `bestScore` to the maximum of itself and the
percentage, adds the points, and the last history entry has the score, the
points, the clock reading, and as category the category of the settings when
that is a non-empty text and `"Mixed"` when it is empty or absent; the updated
account is what is stored.  From the all-zero statistics, 80 percent and 900
points in category `"Science"` give 1, 80, 80, 900 and the one entry for
`"Science"`. -/
theorem updateUserStats_spec (s : App) (u : UserAccount) (quiz : Quiz) (now p q : ℤ)
    (hu : s.currentUser = some u) (hq : s.currentQuiz = some quiz) :
    ∃ u1 : UserAccount,
      (updateUserStats s now p q).currentUser = some u1 ∧
      (updateUserStats s now p q).storedUser = some u1 ∧
      storeGet (updateUserStats s now p q).users u.username = some u1 ∧
      u1.username = u.username ∧
      u1.stats.totalQuizzes = u.stats.totalQuizzes + 1 ∧
      u1.stats.totalScore = u.stats.totalScore + p ∧
      u1.stats.bestScore = max u.stats.bestScore p ∧
      u1.stats.points = u.stats.points + q ∧
      (∃ e : HistoryEntry, u1.stats.quizHistory.getLast? = some e ∧
        e.score = p ∧ e.points = q ∧ e.date = now ∧
        (∀ c : String, quiz.settings.category = some c → c ≠ "" → e.category = c) ∧
        (quiz.settings.category = some "" ∨ quiz.settings.category = none →
          e.category = "Mixed")) ∧
      updateStats (some "Science") now newStats 80 900 =
        { totalQuizzes := 1, totalScore := 80, bestScore := 80, points := 900,
          quizHistory := [{ category := "Science", score := 80, date := now, points := 900 }] } := by
  refine ⟨{ u with stats := updateStats quiz.settings.category now u.stats p q }, ?_, ?_, ?_,
    rfl, rfl, rfl, rfl, rfl, ?_, ?_⟩
  · exact updateUserStats_currentUser s u quiz now p q hu hq
  · unfold updateUserStats; rw [hu, hq]
  · unfold updateUserStats; rw [hu, hq]
    exact storeGet_storePut _ _ _
  · refine ⟨⟨categoryOrMixed quiz.settings.category, p, now, q⟩, ?_, rfl, rfl, rfl, ?_, ?_⟩
    · show (updateStats quiz.settings.category now u.stats p q).quizHistory.getLast? = _
      rw [updateStats_history]
      exact sliceLast10_getLast _ _
    · intro c hc hne
      show categoryOrMixed quiz.settings.category = c
      rw [hc]; simp [categoryOrMixed, hne]
    · intro h
      show categoryOrMixed quiz.settings.category = "Mixed"
      rcases h with h | h <;> rw [h] <;> simp [categoryOrMixed]
  · simp [updateStats, newStats, categoryOrMixed]

/-- The first quiz of a fresh account, in category `Science`. -/
theorem updateUserStats_spec_witness :
    scienceApp.currentUser = some sampleUser ∧ scienceApp.currentQuiz = some scienceQuiz ∧
    ∃ u1 : UserAccount,
      (updateUserStats scienceApp 1000 80 900).currentUser = some u1 ∧
      (updateUserStats scienceApp 1000 80 900).storedUser = some u1 ∧
      storeGet (updateUserStats scienceApp 1000 80 900).users sampleUser.username = some u1 ∧
      u1.username = sampleUser.username ∧
      u1.stats.totalQuizzes = sampleUser.stats.totalQuizzes + 1 ∧
      u1.stats.totalScore = sampleUser.stats.totalScore + 80 ∧
      u1.stats.bestScore = max sampleUser.stats.bestScore 80 ∧
      u1.stats.points = sampleUser.stats.points + 900 ∧
      (∃ e : HistoryEntry, u1.stats.quizHistory.getLast? = some e ∧
        e.score = 80 ∧ e.points = 900 ∧ e.date = 1000 ∧
        (∀ c : String, scienceQuiz.settings.category = some c → c ≠ "" → e.category = c) ∧
        (scienceQuiz.settings.category = some "" ∨ scienceQuiz.settings.category = none →
          e.category = "Mixed")) ∧
      updateStats (some "Science") 1000 newStats 80 900 =
        { totalQuizzes := 1, totalScore := 80, bestScore := 80, points := 900,
          quizHistory := [{ category := "Science", score := 80, date := 1000, points := 900 }] } :=
  ⟨rfl, rfl, updateUserStats_spec scienceApp sampleUser scienceQuiz 1000 80 900 rfl rfl⟩

/-- C4: after `updateUserStats` the history is the last ten elements of the old
history followed by the new entry, in order (a suffix of that list, of length
the smaller of its length and ten), hence at most ten long whatever the old
length; after `n` quizzes from an empty history it is the last ten of the `n`
entries, of length `min n 10`; and after eleven it has length ten and is the
eleven entries without the first. -/
theorem quizHistory_last_ten (s : App) (u : UserAccount) (quiz : Quiz) (now p q : ℤ)
    (hu : s.currentUser = some u) (hq : s.currentQuiz = some quiz)
    (st : UserStats) (hst : st.quizHistory = []) (rs : List Reconciliation) :
    (∃ u1 : UserAccount, (updateUserStats s now p q).currentUser = some u1 ∧
      u1.stats.quizHistory <:+
        u.stats.quizHistory ++ [⟨categoryOrMixed quiz.settings.category, p, now, q⟩] ∧
      u1.stats.quizHistory.length = min (u.stats.quizHistory.length + 1) 10 ∧
      u1.stats.quizHistory.length ≤ 10) ∧
    ((reconcileAll st rs).quizHistory <:+ rs.map Reconciliation.entry ∧
      (reconcileAll st rs).quizHistory.length = min rs.length 10) ∧
    (rs.length = 11 →
      (reconcileAll st rs).quizHistory = (rs.map Reconciliation.entry).tail ∧
      (reconcileAll st rs).quizHistory.length = 10) := by
  have hall : (reconcileAll st rs).quizHistory = sliceLast10 (rs.map Reconciliation.entry) := by
    have h1 := reconcileAll_history rs st
    rw [hst, List.nil_append] at h1
    rw [← h1, sliceLast10_of_length_le]
    exact reconcileAll_history_length rs st (by simp [hst])
  refine ⟨⟨{ u with stats := updateStats quiz.settings.category now u.stats p q },
    updateUserStats_currentUser s u quiz now p q hu hq, ?_, ?_, ?_⟩, ⟨?_, ?_⟩, ?_⟩
  · show (updateStats quiz.settings.category now u.stats p q).quizHistory <:+ _
    rw [updateStats_history]
    exact sliceLast10_suffix _
  · show (updateStats quiz.settings.category now u.stats p q).quizHistory.length = _
    rw [updateStats_history, sliceLast10_length]
    simp
  · show (updateStats quiz.settings.category now u.stats p q).quizHistory.length ≤ 10
    rw [updateStats_history, sliceLast10_length]
    omega
  · rw [hall]; exact sliceLast10_suffix _
  · rw [hall, sliceLast10_length, List.length_map]
  · intro h11
    rw [hall]
    refine ⟨?_, ?_⟩
    · unfold sliceLast10
      rw [List.length_map, h11]
      exact List.drop_one _
    · rw [sliceLast10_length, List.length_map, h11]; rfl

/-- Eleven quizzes of a fresh account: the entry of the first is gone. -/
theorem quizHistory_last_ten_witness :
    scienceApp.currentUser = some sampleUser ∧ scienceApp.currentQuiz = some scienceQuiz ∧
    newStats.quizHistory = [] ∧ elevenQuizzes.length = 11 ∧
    (reconcileAll newStats elevenQuizzes).quizHistory =
      (elevenQuizzes.map Reconciliation.entry).tail ∧
    (reconcileAll newStats elevenQuizzes).quizHistory.length = 10 :=
  ⟨rfl, rfl, rfl, rfl,
    (quizHistory_last_ten scienceApp sampleUser scienceQuiz 1000 80 900 rfl rfl
      newStats rfl elevenQuizzes).2.2 rfl⟩

/-! ## The quiz session -/

theorem displayQuestion_unanswered (s : App) (quiz : Quiz) (sh : List String → List String)
    (hq : s.currentQuiz = some quiz) (hi : s.currentQuestionIndex < quiz.questions.length)
    (ha : quiz.answers.length = s.currentQuestionIndex) (hp : s.pendingAnswers = []) :
    (displayQuestion s sh).currentQuiz = some quiz ∧
    (displayQuestion s sh).score = s.score ∧
    (displayQuestion s sh).currentQuestionIndex = s.currentQuestionIndex ∧
    Unanswered (displayQuestion s sh) quiz := by
  obtain ⟨cu, cq, idx, sc, tm, tr, qst, au, stale, pend, btns, ad, nd, res, us, su⟩ := s
  simp only at hq hi ha hp
  subst hq hp
  simp only [displayQuestion, startTimer, Unanswered, List.getElem?_eq_getElem hi]
  split_ifs <;> simp [hi, ha]

theorem endQuiz_fields (s : App) (now : ℤ) :
    (endQuiz s now).currentQuiz = s.currentQuiz ∧
    (endQuiz s now).currentQuestionIndex = s.currentQuestionIndex ∧
    (endQuiz s now).score = s.score ∧
    (endQuiz s now).pendingAnswers = s.pendingAnswers ∧
    (endQuiz s now).answersDisabled = s.answersDisabled ∧
    (endQuiz s now).nextDisabled = s.nextDisabled ∧
    (endQuiz s now).timer = false := by
  obtain ⟨cu, cq, idx, sc, tm, tr, qst, au, stale, pend, btns, ad, nd, res, us, su⟩ := s
  cases cq with
  | none => simp [endQuiz]
  | some quiz =>
    cases cu with
    | none => simp only [endQuiz]; split_ifs <;> simp
    | some u => simp only [endQuiz, updateUserStats]; split_ifs <;> simp

theorem nextQuestion_answered (s : App) (quiz : Quiz) (now : ℤ) (sh : List String → List String)
    (hq : s.currentQuiz = some quiz) (h : Answered s quiz) :
    (nextQuestion s now sh).currentQuiz = some quiz ∧
    (nextQuestion s now sh).score = s.score ∧
    (nextQuestion s now sh).currentQuestionIndex = s.currentQuestionIndex + 1 ∧
    (Unanswered (nextQuestion s now sh) quiz ∨ Ended (nextQuestion s now sh) quiz) := by
  obtain ⟨cu, cq, idx, sc, tm, tr, qst, au, stale, pend, btns, ad, nd, res, us, su⟩ := s
  obtain ⟨hi, ha, hp, hd, ht⟩ := h
  simp only at hq hi ha hp hd ht
  subst hq hp hd ht
  simp only [nextQuestion]
  split_ifs with hn
  · obtain ⟨e1, e2, e3, e4, e5, _, e7⟩ := endQuiz_fields
      ⟨cu, some quiz, idx + 1, sc, false, tr, qst, false, stale, [], btns, true, nd, res, us, su⟩ now
    refine ⟨e1, e3, e2, Or.inr ⟨?_, ?_, e4, e5, e7⟩⟩
    · rw [e2]; exact hn
    · rw [ha]; simp only [ge_iff_le] at hn; omega
  · obtain ⟨d1, d2, d3, d4⟩ := displayQuestion_unanswered
      ⟨cu, some quiz, idx + 1, sc, false, tr, qst, false, stale, [], btns, true, nd, res, us, su⟩
      quiz sh rfl (by simpa using hn) ha rfl
    exact ⟨d1, d2, d3, Or.inl d4⟩

theorem nextQuestion_ended (s : App) (quiz : Quiz) (now : ℤ) (sh : List String → List String)
    (hq : s.currentQuiz = some quiz) (h : Ended s quiz) :
    (nextQuestion s now sh).currentQuiz = some quiz ∧
    (nextQuestion s now sh).score = s.score ∧
    (nextQuestion s now sh).currentQuestionIndex = s.currentQuestionIndex + 1 ∧
    Ended (nextQuestion s now sh) quiz := by
  obtain ⟨cu, cq, idx, sc, tm, tr, qst, au, stale, pend, btns, ad, nd, res, us, su⟩ := s
  obtain ⟨hi, ha, hp, hd, ht⟩ := h
  simp only at hq hi ha hp hd ht
  subst hq hp hd ht
  have hn : idx + 1 ≥ quiz.questions.length := by omega
  simp only [nextQuestion, if_pos hn]
  obtain ⟨e1, e2, e3, e4, e5, _, e7⟩ := endQuiz_fields
    ⟨cu, some quiz, idx + 1, sc, false, tr, qst, false, stale, [], btns, true, nd, res, us, su⟩ now
  refine ⟨e1, e3, e2, ?_, ha, e4, e5, e7⟩
  rw [e2]; exact hn

theorem correctCount_append (xs : List AnswerRecord) (a : AnswerRecord) :
    correctCount (xs ++ [a]) = correctCount xs + (if a.isCorrect then 1 else 0) := by
  unfold correctCount
  rw [List.filter_append, List.length_append]
  cases h : a.isCorrect <;> simp [List.filter, h]

theorem correctCount_le (xs : List AnswerRecord) : correctCount xs ≤ xs.length :=
  List.length_filter_le _ _

theorem sessionInv_of_fields (s t : App) (h : SessionInv s)
    (h1 : t.currentQuiz = s.currentQuiz) (h2 : t.currentQuestionIndex = s.currentQuestionIndex)
    (h3 : t.score = s.score) (h4 : t.pendingAnswers = s.pendingAnswers)
    (h5 : t.answersDisabled = s.answersDisabled) (h6 : t.nextDisabled = s.nextDisabled)
    (h7 : t.timer = s.timer) : SessionInv t := by
  obtain ⟨quiz, hq, hs, hph⟩ := h
  refine ⟨quiz, h1.trans hq, h3.trans hs, ?_⟩
  unfold Unanswered Submitted Answered Ended at hph ⊢
  rw [h2, h4, h5, h6, h7]
  exact hph

theorem nextQuestion_inv (s : App) (now : ℤ) (sh : List String → List String)
    (h : SessionInv s) (hn : s.nextDisabled = false) :
    SessionInv (nextQuestion s now sh) ∧
    answersLength (nextQuestion s now sh) = answersLength s ∧
    questionsLength (nextQuestion s now sh) = questionsLength s := by
  obtain ⟨quiz, hq, hs, hph⟩ := h
  rcases hph with hu | hsub | ha | he
  · rw [hu.2.2.2] at hn; exact absurd hn (by decide)
  · rw [hsub.2.2.2.1] at hn; exact absurd hn (by decide)
  · obtain ⟨n1, n2, n3, n4⟩ := nextQuestion_answered s quiz now sh hq ha
    refine ⟨⟨quiz, n1, n2.trans hs, ?_⟩, ?_, ?_⟩
    · rcases n4 with n4 | n4
      · exact Or.inl n4
      · exact Or.inr (Or.inr (Or.inr n4))
    · simp [answersLength, n1, hq]
    · simp [questionsLength, n1, hq]
  · obtain ⟨n1, n2, n3, n4⟩ := nextQuestion_ended s quiz now sh hq he
    refine ⟨⟨quiz, n1, n2.trans hs, Or.inr (Or.inr (Or.inr n4))⟩, ?_, ?_⟩
    · simp [answersLength, n1, hq]
    · simp [questionsLength, n1, hq]

theorem autoProgressCallback_inv (s : App) (now : ℤ) (sh : List String → List String)
    (h : SessionInv s) :
    SessionInv (autoProgressCallback s now sh) ∧
    answersLength (autoProgressCallback s now sh) = answersLength s ∧
    questionsLength (autoProgressCallback s now sh) = questionsLength s := by
  unfold autoProgressCallback
  cases hn : s.nextDisabled with
  | true => simp [h]
  | false => simpa using nextQuestion_inv s now sh h hn

theorem selectAnswer_inv (s : App) (answer : String) (h : SessionInv s) :
    SessionInv (selectAnswer s answer) ∧
    answersLength (selectAnswer s answer) = answersLength s ∧
    questionsLength (selectAnswer s answer) = questionsLength s := by
  obtain ⟨cu, cq, idx, sc, tm, tr, qst, au, stale, pend, btns, ad, nd, res, us, su⟩ := s
  obtain ⟨quiz, hq, hs, hph⟩ := h
  simp only at hq hs
  subst hq
  cases ad with
  | true =>
    have e : selectAnswer ⟨cu, some quiz, idx, sc, tm, tr, qst, au, stale, pend, btns, true, nd,
        res, us, su⟩ answer = ⟨cu, some quiz, idx, sc, tm, tr, qst, au, stale, pend, btns, true,
        nd, res, us, su⟩ := by simp [selectAnswer]
    rw [e]
    exact ⟨⟨quiz, rfl, hs, hph⟩, rfl, rfl⟩
  | false =>
    rcases hph with hu | hsub | ha | he
    · obtain ⟨hi, hlen, hp, hnd⟩ := hu
      simp only at hi hlen hp hnd
      subst hp hnd
      simp only [selectAnswer, Bool.false_eq_true, if_false, List.getElem?_eq_getElem hi,
        List.nil_append]
      refine ⟨⟨quiz, rfl, hs, Or.inr (Or.inl ⟨hi, hlen, ⟨_, rfl⟩, rfl, rfl, rfl⟩)⟩, rfl, rfl⟩
    · exact absurd hsub.2.2.2.2.1 (by simp)
    · exact absurd ha.2.2.2.1 (by simp)
    · exact absurd he.2.2.2.1 (by simp)

theorem answerTimeout_inv (s : App) (h : SessionInv s) :
    SessionInv (step s .answerTimeout) ∧
    AppendsAtMostOne s (step s .answerTimeout) ∧
    questionsLength (step s .answerTimeout) = questionsLength s := by
  obtain ⟨cu, cq, idx, sc, tm, tr, qst, au, stale, pend, btns, ad, nd, res, us, su⟩ := s
  obtain ⟨quiz, hq, hs, hph⟩ := h
  simp only at hq hs
  subst hq
  rcases hph with hu | hsub | ha | he
  · obtain ⟨hi, hlen, hp, hnd⟩ := hu
    simp only at hp
    subst hp
    exact ⟨⟨quiz, rfl, hs, Or.inl ⟨hi, hlen, rfl, hnd⟩⟩, Or.inl rfl, rfl⟩
  · obtain ⟨hi, hlen, ⟨p, hp⟩, hnd, had, ht⟩ := hsub
    simp only at hi hlen hp hnd had ht
    subst hp hnd had ht
    simp only [step, selectAnswerTimeout]
    cases hc : p.isCorrect with
    | true =>
      simp only [if_true, List.getElem?_eq_getElem hi, startAutoProgress]
      refine ⟨⟨_, rfl, ?_, Or.inr (Or.inr (Or.inl ⟨hi, ?_, rfl, rfl, rfl⟩))⟩, Or.inr ⟨?_, ?_, rfl⟩, rfl⟩
      · simp only [correctCount_append, if_true, hs]
      · simp [hlen]
      · simp [answersLength, hlen]
      · simp [answersLength]
    | false =>
      simp only [Bool.false_eq_true, if_false, List.getElem?_eq_getElem hi, startAutoProgress]
      refine ⟨⟨_, rfl, ?_, Or.inr (Or.inr (Or.inl ⟨hi, ?_, rfl, rfl, rfl⟩))⟩, Or.inr ⟨?_, ?_, rfl⟩, rfl⟩
      · simp only [correctCount_append, Bool.false_eq_true, if_false, hs, Nat.add_zero]
      · simp [hlen]
      · simp [answersLength, hlen]
      · simp [answersLength]
  · obtain ⟨hi, hlen, hp, hr⟩ := ha
    simp only at hp
    subst hp
    exact ⟨⟨quiz, rfl, hs, Or.inr (Or.inr (Or.inl ⟨hi, hlen, rfl, hr⟩))⟩, Or.inl rfl, rfl⟩
  · obtain ⟨hi, hlen, hp, hr⟩ := he
    simp only at hp
    subst hp
    exact ⟨⟨quiz, rfl, hs, Or.inr (Or.inr (Or.inr ⟨hi, hlen, rfl, hr⟩))⟩, Or.inl rfl, rfl⟩

theorem timerTick_inv (s : App) (h : SessionInv s) :
    SessionInv (timerTick s) ∧
    AppendsAtMostOne s (timerTick s) ∧
    questionsLength (timerTick s) = questionsLength s := by
  obtain ⟨cu, cq, idx, sc, tm, tr, qst, au, stale, pend, btns, ad, nd, res, us, su⟩ := s
  obtain ⟨quiz, hq, hs, hph⟩ := h
  simp only at hq hs
  subst hq
  cases tm with
  | false =>
    have e : timerTick ⟨cu, some quiz, idx, sc, false, tr, qst, au, stale, pend, btns, ad, nd,
        res, us, su⟩ = ⟨cu, some quiz, idx, sc, false, tr, qst, au, stale, pend, btns, ad,
        nd, res, us, su⟩ := by simp [timerTick]
    rw [e]
    exact ⟨⟨quiz, rfl, hs, hph⟩, Or.inl rfl, rfl⟩
  | true =>
    rcases hph with hu | hsub | ha | he
    · obtain ⟨hi, hlen, hp, hnd⟩ := hu
      simp only at hi hlen hp hnd
      subst hp hnd
      simp only [timerTick, if_true]
      split_ifs with hz
      · simp only [timeUp, List.getElem?_eq_getElem hi, startAutoProgress]
        refine ⟨⟨_, rfl, ?_, Or.inr (Or.inr (Or.inl ⟨hi, ?_, rfl, rfl, rfl⟩))⟩,
          Or.inr ⟨?_, ?_, rfl⟩, rfl⟩
        · simp only [correctCount_append, Bool.false_eq_true, if_false, hs, Nat.add_zero]
        · simp [hlen]
        · simp [answersLength, hlen]
        · simp [answersLength]
      · exact ⟨⟨quiz, rfl, hs, Or.inl ⟨hi, hlen, rfl, rfl⟩⟩, Or.inl rfl, rfl⟩
    · exact absurd hsub.2.2.2.2.2 (by simp)
    · exact absurd ha.2.2.2.2 (by simp)
    · exact absurd he.2.2.2.2 (by simp)

theorem step_inv (s : App) (e : Event) (h : SessionInv s) :
    SessionInv (step s e) ∧ AppendsAtMostOne s (step s e) ∧
    questionsLength (step s e) = questionsLength s := by
  cases e with
  | clickAnswer answer =>
    obtain ⟨h1, h2, h3⟩ := selectAnswer_inv s answer h
    exact ⟨h1, Or.inl h2, h3⟩
  | answerTimeout => exact answerTimeout_inv s h
  | tick => exact timerTick_inv s h
  | clickNext now sh =>
    simp only [step]
    cases hn : s.nextDisabled with
    | true => simpa using ⟨h, Or.inl rfl⟩
    | false =>
      obtain ⟨h1, h2, h3⟩ := nextQuestion_inv s now sh h hn
      simpa using ⟨h1, Or.inl h2, h3⟩
  | autoProgress now sh =>
    simp only [step]
    cases ha : s.autoProgressTimer with
    | false => simpa using ⟨h, Or.inl rfl⟩
    | true =>
      have h0 : SessionInv { s with autoProgressTimer := false } :=
        sessionInv_of_fields s _ h rfl rfl rfl rfl rfl rfl rfl
      obtain ⟨h1, h2, h3⟩ := autoProgressCallback_inv _ now sh h0
      simp only [if_true]
      exact ⟨h1, Or.inl h2, h3⟩
  | staleAutoProgress now sh =>
    simp only [step]
    split_ifs with hpos
    · have h0 : SessionInv { s with staleAutoProgress := s.staleAutoProgress - 1 } :=
        sessionInv_of_fields s _ h rfl rfl rfl rfl rfl rfl rfl
      obtain ⟨h1, h2, h3⟩ := autoProgressCallback_inv _ now sh h0
      exact ⟨h1, Or.inl h2, h3⟩
    · exact ⟨h, Or.inl rfl, rfl⟩

theorem run_nil (s : App) : run s [] = s := rfl

theorem run_cons (s : App) (e : Event) (es : List Event) : run s (e :: es) = run (step s e) es := rfl

theorem run_append_one (s : App) (es : List Event) (e : Event) :
    run s (es ++ [e]) = step (run s es) e := by
  unfold run
  rw [List.foldl_append]
  rfl

theorem run_inv (events : List Event) (s : App) (h : SessionInv s) :
    SessionInv (run s events) ∧ questionsLength (run s events) = questionsLength s := by
  induction events generalizing s with
  | nil => exact ⟨h, rfl⟩
  | cons e es ih =>
    obtain ⟨h1, _, h3⟩ := step_inv s e h
    obtain ⟨i1, i2⟩ := ih (step s e) h1
    exact ⟨i1, i2.trans h3⟩

theorem startQuiz_inv (s0 : App) (settings : QuizSettings) (questions : List QuestionRecord)
    (now : ℤ) (sh : List String → List String)
    (h0 : s0.pendingAnswers = []) (hne : questions ≠ []) :
    SessionInv (startQuiz s0 settings questions now sh) ∧
    questionsLength (startQuiz s0 settings questions now sh) = questions.length := by
  have hlen : 0 < questions.length := List.length_pos.mpr hne
  have hlen0 : ¬ questions.length = 0 := by omega
  unfold startQuiz
  rw [if_neg hlen0]
  obtain ⟨d1, d2, d3, d4⟩ := displayQuestion_unanswered
    { s0 with
      currentQuiz := some
        { questions := questions, settings := settings, answers := [],
          startTime := now, offline := false }
      currentQuestionIndex := 0
      score := 0
      quizStartTime := now }
    { questions := questions, settings := settings, answers := [],
      startTime := now, offline := false } sh rfl hlen rfl h0
  refine ⟨⟨_, d1, ?_, Or.inl d4⟩, ?_⟩
  · rw [d2]; rfl
  · simp [questionsLength, d1]

/-- The states of a session: those after `startQuiz`, called with a non-empty
question list in a state where no answer closure is pending, and any sequence
of events. -/
theorem session_inv (s0 : App) (settings : QuizSettings) (questions : List QuestionRecord)
    (now : ℤ) (sh : List String → List String) (events : List Event)
    (h0 : s0.pendingAnswers = []) (hne : questions ≠ []) :
    SessionInv (run (startQuiz s0 settings questions now sh) events) ∧
    questionsLength (run (startQuiz s0 settings questions now sh) events) = questions.length := by
  obtain ⟨h1, h2⟩ := startQuiz_inv s0 settings questions now sh h0 hne
  obtain ⟨i1, i2⟩ := run_inv events _ h1
  exact ⟨i1, i2.trans h2⟩

theorem selectAnswer_index (s : App) (answer : String) :
    (selectAnswer s answer).currentQuestionIndex = s.currentQuestionIndex := by
  unfold selectAnswer
  split_ifs
  · rfl
  · simp only
    split
    · rfl
    · split <;> rfl

theorem timeUp_index (s : App) : (timeUp s).currentQuestionIndex = s.currentQuestionIndex := by
  unfold timeUp
  simp only
  split
  · rfl
  · split <;> rfl

theorem timerTick_index (s : App) :
    (timerTick s).currentQuestionIndex = s.currentQuestionIndex := by
  unfold timerTick
  simp only
  split_ifs
  · rw [timeUp_index]
  · rfl
  · rfl

theorem selectAnswerTimeout_index (s : App) (p : PendingAnswer) :
    (selectAnswerTimeout s p).currentQuestionIndex = s.currentQuestionIndex := by
  unfold selectAnswerTimeout
  cases p.isCorrect <;>
  · simp only
    split
    · simp
    · split <;> simp [startAutoProgress]

theorem nextQuestion_index (s : App) (now : ℤ) (sh : List String → List String)
    (h : SessionInv s) (hn : s.nextDisabled = false) :
    (nextQuestion s now sh).currentQuestionIndex = s.currentQuestionIndex + 1 := by
  obtain ⟨quiz, hq, hs, hph⟩ := h
  rcases hph with hu | hsub | ha | he
  · rw [hu.2.2.2] at hn; exact absurd hn (by decide)
  · rw [hsub.2.2.2.1] at hn; exact absurd hn (by decide)
  · exact (nextQuestion_answered s quiz now sh hq ha).2.2.1
  · exact (nextQuestion_ended s quiz now sh hq he).2.2.1

theorem nextQuestion_active (s : App) (now : ℤ) (sh : List String → List String)
    (h : SessionInv s) (hn : s.nextDisabled = false)
    (hact : s.currentQuestionIndex < questionsLength s) :
    answersLength (nextQuestion s now sh) = (nextQuestion s now sh).currentQuestionIndex := by
  obtain ⟨quiz, hq, hs, hph⟩ := h
  have hql : questionsLength s = quiz.questions.length := by simp [questionsLength, hq]
  rcases hph with hu | hsub | ha | he
  · rw [hu.2.2.2] at hn; exact absurd hn (by decide)
  · rw [hsub.2.2.2.1] at hn; exact absurd hn (by decide)
  · obtain ⟨n1, n2, n3, n4⟩ := nextQuestion_answered s quiz now sh hq ha
    rw [n3]
    simp [answersLength, n1, ha.2.1]
  · have := he.1
    omega

/-- C5: on a displayed question (buttons enabled, no closure pending) a click on
an answer button leaves `answers`, `score` and the index as they are until the
closure scheduled by `selectAnswer` runs; the closure appends exactly one
record, with the text of the current question, the clicked answer, the
question's correct answer and `isCorrect` set exactly when the two texts are
equal, adds one to `score` in that case and nothing otherwise, and leaves the
index unchanged. -/
theorem selectAnswer_records (s : App) (quiz : Quiz) (question : QuestionRecord)
    (answer : String) (hq : s.currentQuiz = some quiz)
    (hi : quiz.questions[s.currentQuestionIndex]? = some question)
    (hen : s.answersDisabled = false) (hp : s.pendingAnswers = []) :
    (selectAnswer s answer).currentQuiz = some quiz ∧
    (selectAnswer s answer).score = s.score ∧
    (step (selectAnswer s answer) .answerTimeout).currentQuiz =
      some { quiz with answers := quiz.answers ++
        [{ question := question.question, userAnswer := some answer,
           correctAnswer := question.correct,
           isCorrect := decide (answer = question.correct) }] } ∧
    (step (selectAnswer s answer) .answerTimeout).score =
      (if answer = question.correct then s.score + 1 else s.score) ∧
    (step (selectAnswer s answer) .answerTimeout).currentQuestionIndex =
      s.currentQuestionIndex := by
  obtain ⟨cu, cq, idx, sc, tm, tr, qst, au, stale, pend, btns, ad, nd, res, us, su⟩ := s
  simp only at hq hi hen hp
  subst hq hen hp
  by_cases hc : answer = question.correct
  · simp [selectAnswer, step, selectAnswerTimeout, startAutoProgress, hi, hc]
  · simp [selectAnswer, step, selectAnswerTimeout, startAutoProgress, hi, hc]

/-- The right answer to the first sample question. -/
theorem selectAnswer_records_witness :
    scienceApp.currentQuiz = some scienceQuiz ∧
    scienceQuiz.questions[scienceApp.currentQuestionIndex]? = some franceQuestion ∧
    scienceApp.answersDisabled = false ∧ scienceApp.pendingAnswers = [] ∧
    (step (selectAnswer scienceApp "Paris") .answerTimeout).currentQuiz =
      some { scienceQuiz with answers := scienceQuiz.answers ++
        [{ question := franceQuestion.question, userAnswer := some "Paris",
           correctAnswer := franceQuestion.correct,
           isCorrect := decide ("Paris" = franceQuestion.correct) }] } ∧
    (step (selectAnswer scienceApp "Paris") .answerTimeout).score =
      (if "Paris" = franceQuestion.correct then scienceApp.score + 1 else scienceApp.score) :=
  ⟨rfl, rfl, rfl, rfl,
    (selectAnswer_records scienceApp scienceQuiz franceQuestion "Paris" rfl rfl rfl rfl).2.2.1,
    (selectAnswer_records scienceApp scienceQuiz franceQuestion "Paris" rfl rfl rfl rfl).2.2.2.1⟩

/-- C6: at a question of the quiz, `timeUp` appends exactly one record, with
the text of the question, no user answer, the question's correct answer and
`isCorrect = false`, and leaves `score` and the index unchanged; and the tick
that brings `timeRemaining` to zero does exactly that. -/
theorem timeUp_records (s : App) (quiz : Quiz) (question : QuestionRecord)
    (hq : s.currentQuiz = some quiz)
    (hi : quiz.questions[s.currentQuestionIndex]? = some question) :
    ((timeUp s).currentQuiz =
      some { quiz with answers := quiz.answers ++
        [{ question := question.question, userAnswer := none,
           correctAnswer := question.correct, isCorrect := false }] } ∧
     (timeUp s).score = s.score ∧
     (timeUp s).currentQuestionIndex = s.currentQuestionIndex) ∧
    (s.timer = true → s.timeRemaining ≤ 1 →
      (timerTick s).currentQuiz =
        some { quiz with answers := quiz.answers ++
          [{ question := question.question, userAnswer := none,
             correctAnswer := question.correct, isCorrect := false }] } ∧
      (timerTick s).score = s.score ∧
      (timerTick s).currentQuestionIndex = s.currentQuestionIndex ∧
      (timerTick s).timer = false) := by
  obtain ⟨cu, cq, idx, sc, tm, tr, qst, au, stale, pend, btns, ad, nd, res, us, su⟩ := s
  simp only at hq hi
  subst hq
  refine ⟨?_, ?_⟩
  · simp [timeUp, startAutoProgress, hi]
  · intro ht hr
    simp only at ht hr
    subst ht
    have hz : tr - 1 ≤ 0 := by omega
    simp [timerTick, timeUp, startAutoProgress, hi, hz]

/-- The thirtieth tick on the first sample question. -/
theorem timeUp_records_witness :
    lastSecondApp.currentQuiz = some scienceQuiz ∧
    scienceQuiz.questions[lastSecondApp.currentQuestionIndex]? = some franceQuestion ∧
    lastSecondApp.timer = true ∧ lastSecondApp.timeRemaining ≤ 1 ∧
    (timerTick lastSecondApp).currentQuiz =
      some { scienceQuiz with answers := scienceQuiz.answers ++
        [{ question := franceQuestion.question, userAnswer := none,
           correctAnswer := franceQuestion.correct, isCorrect := false }] } ∧
    (timerTick lastSecondApp).score = lastSecondApp.score ∧
    (timerTick lastSecondApp).currentQuestionIndex = lastSecondApp.currentQuestionIndex ∧
    (timerTick lastSecondApp).timer = false :=
  ⟨rfl, rfl, rfl, by decide,
    (timeUp_records lastSecondApp scienceQuiz franceQuestion rfl rfl).2 rfl (by decide)⟩

theorem timerTick_of_timer_false (s : App) (h : s.timer = false) : timerTick s = s := by
  unfold timerTick
  simp [h]

theorem selectAnswer_of_disabled (s : App) (answer : String) (h : s.answersDisabled = true) :
    selectAnswer s answer = s := by
  unfold selectAnswer
  simp [h]

theorem selectAnswer_disables (s : App) (answer : String) :
    (selectAnswer s answer).answersDisabled = true := by
  unfold selectAnswer
  split_ifs with h
  · exact h
  · simp only
    split
    · rfl
    · split <;> rfl

theorem selectAnswer_clears_timer (s : App) (answer : String) (h : s.answersDisabled = false) :
    (selectAnswer s answer).timer = false := by
  unfold selectAnswer
  rw [if_neg (by simp [h])]
  simp only
  split
  · rfl
  · split <;> rfl

theorem selectAnswerTimeout_flags (s : App) (p : PendingAnswer) :
    (selectAnswerTimeout s p).timer = s.timer ∧
    (selectAnswerTimeout s p).answersDisabled = s.answersDisabled := by
  unfold selectAnswerTimeout
  cases p.isCorrect <;>
  · simp only
    split
    · simp
    · split <;> simp [startAutoProgress]

theorem answerTimeout_flags (s : App) :
    (step s .answerTimeout).timer = s.timer ∧
    (step s .answerTimeout).answersDisabled = s.answersDisabled := by
  unfold step
  cases h : s.pendingAnswers with
  | nil => simp [h]
  | cons p rest =>
    simp only [h]
    exact selectAnswerTimeout_flags _ p

theorem timeUp_disables (s : App) : (timeUp s).answersDisabled = true := by
  unfold timeUp
  simp only
  split
  · rfl
  · split <;> rfl

theorem step_clickNext_eq (s : App) (now : ℤ) (sh : List String → List String)
    (hn : s.nextDisabled = false) : step s (.clickNext now sh) = nextQuestion s now sh := by
  show (if s.nextDisabled = true then s else nextQuestion s now sh) = _
  exact if_neg (by simp [hn])

theorem step_autoProgress_eq (s : App) (now : ℤ) (sh : List String → List String)
    (ha : s.autoProgressTimer = true) (hn : s.nextDisabled = false) :
    step s (.autoProgress now sh) = nextQuestion { s with autoProgressTimer := false } now sh := by
  show (if s.autoProgressTimer = true then
    autoProgressCallback { s with autoProgressTimer := false } now sh else s) = _
  rw [if_pos ha]
  unfold autoProgressCallback
  exact if_neg (by simp [hn])

theorem step_staleAutoProgress_eq (s : App) (now : ℤ) (sh : List String → List String)
    (hpos : 0 < s.staleAutoProgress) (hn : s.nextDisabled = false) :
    step s (.staleAutoProgress now sh) =
      nextQuestion { s with staleAutoProgress := s.staleAutoProgress - 1 } now sh := by
  show (if 0 < s.staleAutoProgress then
    autoProgressCallback { s with staleAutoProgress := s.staleAutoProgress - 1 } now sh
    else s) = _
  rw [if_pos hpos]
  unfold autoProgressCallback
  exact if_neg (by simp [hn])

/-- C7, as stated, fails when `startQuiz` resumes while the closure of a click
is still pending.  In `restartedApp` the closure of the earlier click writes
its record into the new quiz at index 0 and leaves the fresh answer buttons
enabled; a click on one of them is then accepted, and its closure appends a
second record at index 0. -/
theorem second_record_after_restart_counterexample :
    restartedApp.pendingAnswers.length = 1 ∧ questionsLength restartedApp = 1 ∧
    answersLength restartedApp = 0 ∧
    answersLength (run restartedApp [.answerTimeout]) = 1 ∧
    (run restartedApp [.answerTimeout]).currentQuestionIndex = 0 ∧
    (run restartedApp [.answerTimeout]).answersDisabled = false ∧
    (run restartedApp [.answerTimeout, .clickAnswer "Paris"]).pendingAnswers.length = 1 ∧
    answersLength (run restartedApp [.answerTimeout, .clickAnswer "Paris", .answerTimeout]) = 2 ∧
    (run restartedApp
      [.answerTimeout, .clickAnswer "Paris", .answerTimeout]).currentQuestionIndex = 0 := by
  refine ⟨by rfl, by rfl, by rfl, by rfl, by rfl, by rfl, by rfl, by rfl, by rfl⟩

/-- C7 (amended): answering and timing out exclude each other.  Once a click on an answer
button has been accepted (the buttons were enabled), a tick of the question
timer does nothing, before and after the closure has recorded the answer, and
neither does a second click; once `timeUp` has run, directly or from the tick
that brings `timeRemaining` to zero, a click on an answer button does nothing.
In a session (from `startQuiz` with a non-empty question list, no closure of an
earlier quiz pending) every event either leaves the number of records
unchanged or appends one record at an index that had none and stays at that
index. -/
theorem answer_and_timeout_exclusive (s : App) (a b : String)
    (s0 : App) (settings : QuizSettings) (questions : List QuestionRecord)
    (now : ℤ) (sh : List String → List String) (events : List Event) (e : Event)
    (h0 : s0.pendingAnswers = []) (hne : questions ≠ []) :
    (s.answersDisabled = false →
      timerTick (selectAnswer s a) = selectAnswer s a ∧
      timerTick (step (selectAnswer s a) .answerTimeout) =
        step (selectAnswer s a) .answerTimeout ∧
      selectAnswer (selectAnswer s a) b = selectAnswer s a ∧
      selectAnswer (step (selectAnswer s a) .answerTimeout) b =
        step (selectAnswer s a) .answerTimeout) ∧
    selectAnswer (timeUp s) b = timeUp s ∧
    (s.timer = true → s.timeRemaining ≤ 1 → selectAnswer (timerTick s) b = timerTick s) ∧
    (answersLength (step (run (startQuiz s0 settings questions now sh) events) e) =
        answersLength (run (startQuiz s0 settings questions now sh) events) ∨
      (answersLength (run (startQuiz s0 settings questions now sh) events) =
          (run (startQuiz s0 settings questions now sh) events).currentQuestionIndex ∧
        answersLength (step (run (startQuiz s0 settings questions now sh) events) e) =
          answersLength (run (startQuiz s0 settings questions now sh) events) + 1 ∧
        (step (run (startQuiz s0 settings questions now sh) events) e).currentQuestionIndex =
          (run (startQuiz s0 settings questions now sh) events).currentQuestionIndex)) := by
  refine ⟨?_, ?_, ?_, ?_⟩
  · intro hen
    have ht := selectAnswer_clears_timer s a hen
    have hd := selectAnswer_disables s a
    obtain ⟨f1, f2⟩ := answerTimeout_flags (selectAnswer s a)
    exact ⟨timerTick_of_timer_false _ ht, timerTick_of_timer_false _ (f1.trans ht),
      selectAnswer_of_disabled _ b hd, selectAnswer_of_disabled _ b (f2.trans hd)⟩
  · exact selectAnswer_of_disabled _ b (timeUp_disables s)
  · intro ht hr
    apply selectAnswer_of_disabled
    unfold timerTick
    have hz : s.timeRemaining - 1 ≤ 0 := by omega
    simp only [ht, if_true, hz]
    exact timeUp_disables _
  · exact (step_inv _ e (session_inv s0 settings questions now sh events h0 hne).1).2.1

/-- The first sample question, answered, and timed out. -/
theorem answer_and_timeout_exclusive_witness :
    sampleApp.pendingAnswers = [] ∧ sampleQuestions ≠ [] ∧
    scienceApp.answersDisabled = false ∧
    lastSecondApp.timer = true ∧ lastSecondApp.timeRemaining ≤ 1 ∧
    timerTick (selectAnswer scienceApp "Paris") = selectAnswer scienceApp "Paris" ∧
    selectAnswer (selectAnswer scienceApp "Paris") "London" = selectAnswer scienceApp "Paris" ∧
    selectAnswer (timerTick lastSecondApp) "Paris" = timerTick lastSecondApp :=
  ⟨rfl, by decide, rfl, rfl, by decide,
    ((answer_and_timeout_exclusive scienceApp "Paris" "London" sampleApp scienceSettings
      sampleQuestions 0 id [] Event.tick rfl (by decide)).1 rfl).1,
    ((answer_and_timeout_exclusive scienceApp "Paris" "London" sampleApp scienceSettings
      sampleQuestions 0 id [] Event.tick rfl (by decide)).1 rfl).2.2.1,
    (answer_and_timeout_exclusive lastSecondApp "Paris" "Paris" sampleApp scienceSettings
      sampleQuestions 0 id [] Event.tick rfl (by decide)).2.2.1 rfl (by decide)⟩

/-- C8, as stated, fails once the quiz has ended: `endQuiz` leaves the next
button enabled, a further click calls `nextQuestion` again, and the index moves
to 3 while `answers` keeps its 2 records (and `endQuiz` runs a second time). -/
theorem nextQuestion_after_end_counterexample :
    (run scienceApp twoQuestionEvents).currentQuestionIndex = 2 ∧
    answersLength (run scienceApp twoQuestionEvents) = 2 ∧
    (run scienceApp twoQuestionEvents).nextDisabled = false ∧
    (step (run scienceApp twoQuestionEvents) (.clickNext 9100 id)).currentQuestionIndex = 3 ∧
    answersLength (step (run scienceApp twoQuestionEvents) (.clickNext 9100 id)) = 2 := by
  refine ⟨by rfl, by rfl, by rfl, by rfl, by rfl⟩

/-- C8 (amended): in a session (from `startQuiz` with a non-empty question
list, no closure of an earlier quiz pending), whenever an event moves the
index while the quiz has not ended (the index was below the number of
questions), which is what a call of `nextQuestion` does, the index has grown by
one and `answers.length` equals the new index. -/
theorem nextQuestion_answers_length (s0 : App) (settings : QuizSettings)
    (questions : List QuestionRecord) (now : ℤ) (sh : List String → List String)
    (events : List Event) (e : Event)
    (h0 : s0.pendingAnswers = []) (hne : questions ≠ [])
    (hact : (run (startQuiz s0 settings questions now sh) events).currentQuestionIndex <
      questions.length)
    (hmove : (step (run (startQuiz s0 settings questions now sh) events) e).currentQuestionIndex ≠
      (run (startQuiz s0 settings questions now sh) events).currentQuestionIndex) :
    (step (run (startQuiz s0 settings questions now sh) events) e).currentQuestionIndex =
      (run (startQuiz s0 settings questions now sh) events).currentQuestionIndex + 1 ∧
    answersLength (step (run (startQuiz s0 settings questions now sh) events) e) =
      (step (run (startQuiz s0 settings questions now sh) events) e).currentQuestionIndex := by
  obtain ⟨hinv, hql⟩ := session_inv s0 settings questions now sh events h0 hne
  generalize run (startQuiz s0 settings questions now sh) events = s at hinv hql hact hmove ⊢
  rw [← hql] at hact
  cases e with
  | clickAnswer answer => exact absurd (selectAnswer_index s answer) hmove
  | answerTimeout =>
    exfalso; apply hmove
    unfold step
    cases h : s.pendingAnswers with
    | nil => rfl
    | cons p rest => exact selectAnswerTimeout_index _ p
  | tick => exact absurd (timerTick_index s) hmove
  | clickNext now1 sh1 =>
    cases hn : s.nextDisabled with
    | true => exact absurd (by simp [step, hn]) hmove
    | false =>
      rw [step_clickNext_eq s now1 sh1 hn]
      exact ⟨nextQuestion_index s now1 sh1 hinv hn, nextQuestion_active s now1 sh1 hinv hn hact⟩
  | autoProgress now1 sh1 =>
    cases ha : s.autoProgressTimer with
    | false => exact absurd (by simp [step, ha]) hmove
    | true =>
      cases hn : s.nextDisabled with
      | true => exact absurd (by simp [step, autoProgressCallback, ha, hn]) hmove
      | false =>
        have hinv1 : SessionInv { s with autoProgressTimer := false } :=
          sessionInv_of_fields s _ hinv rfl rfl rfl rfl rfl rfl rfl
        rw [step_autoProgress_eq s now1 sh1 ha hn]
        exact ⟨nextQuestion_index _ now1 sh1 hinv1 hn,
          nextQuestion_active _ now1 sh1 hinv1 hn hact⟩
  | staleAutoProgress now1 sh1 =>
    by_cases hpos : 0 < s.staleAutoProgress
    · cases hn : s.nextDisabled with
      | true => exact absurd (by simp [step, autoProgressCallback, hpos, hn]) hmove
      | false =>
        have hinv1 : SessionInv { s with staleAutoProgress := s.staleAutoProgress - 1 } :=
          sessionInv_of_fields s _ hinv rfl rfl rfl rfl rfl rfl rfl
        rw [step_staleAutoProgress_eq s now1 sh1 hpos hn]
        exact ⟨nextQuestion_index _ now1 sh1 hinv1 hn,
          nextQuestion_active _ now1 sh1 hinv1 hn hact⟩
    · exact absurd (by simp [step, hpos]) hmove

/-- The click on the next button after the first of two questions. -/
theorem nextQuestion_answers_length_witness :
    sampleApp.pendingAnswers = [] ∧ sampleQuestions ≠ [] ∧
    (run (startQuiz sampleApp scienceSettings sampleQuestions 0 id)
      [.clickAnswer "Paris", .answerTimeout]).currentQuestionIndex < sampleQuestions.length ∧
    (step (run (startQuiz sampleApp scienceSettings sampleQuestions 0 id)
      [.clickAnswer "Paris", .answerTimeout]) (.clickNext 5000 id)).currentQuestionIndex ≠
      (run (startQuiz sampleApp scienceSettings sampleQuestions 0 id)
        [.clickAnswer "Paris", .answerTimeout]).currentQuestionIndex ∧
    (step (run (startQuiz sampleApp scienceSettings sampleQuestions 0 id)
      [.clickAnswer "Paris", .answerTimeout]) (.clickNext 5000 id)).currentQuestionIndex =
      (run (startQuiz sampleApp scienceSettings sampleQuestions 0 id)
        [.clickAnswer "Paris", .answerTimeout]).currentQuestionIndex + 1 ∧
    answersLength (step (run (startQuiz sampleApp scienceSettings sampleQuestions 0 id)
      [.clickAnswer "Paris", .answerTimeout]) (.clickNext 5000 id)) =
      (step (run (startQuiz sampleApp scienceSettings sampleQuestions 0 id)
        [.clickAnswer "Paris", .answerTimeout]) (.clickNext 5000 id)).currentQuestionIndex :=
  ⟨rfl, by decide, by decide, by decide,
    nextQuestion_answers_length sampleApp scienceSettings sampleQuestions 0 id
      [.clickAnswer "Paris", .answerTimeout] (.clickNext 5000 id) rfl (by decide)
      (by decide) (by decide)⟩

/-- C9, as stated, fails when `startQuiz` resumes while the closure of a click
is still pending: the closure scores its point in the new quiz, the question
is then answered once more on the fresh buttons, and the quiz of one question
has a score of 2. -/
theorem score_exceeds_questions_counterexample :
    restartedApp.score = 0 ∧ questionsLength restartedApp = 1 ∧
    questionsLength
      (run restartedApp [.answerTimeout, .clickAnswer "Paris", .answerTimeout]) = 1 ∧
    (run restartedApp [.answerTimeout, .clickAnswer "Paris", .answerTimeout]).score = 2 := by
  refine ⟨by rfl, by rfl, by rfl, by rfl⟩

/-- C9 (amended): in every state of a session (from `startQuiz` with a non-empty question
list, no closure of an earlier quiz pending, after any sequence of events)
`score` is the number of records in `answers` with `isCorrect` set, there are
at most as many records as questions, and `score` is at most the number of
questions. -/
theorem score_counts_correct_answers (s0 : App) (settings : QuizSettings)
    (questions : List QuestionRecord) (now : ℤ) (sh : List String → List String)
    (events : List Event) (h0 : s0.pendingAnswers = []) (hne : questions ≠ []) :
    ∃ quiz : Quiz,
      (run (startQuiz s0 settings questions now sh) events).currentQuiz = some quiz ∧
      quiz.questions.length = questions.length ∧
      (run (startQuiz s0 settings questions now sh) events).score =
        correctCount quiz.answers ∧
      quiz.answers.length ≤ questions.length ∧
      (run (startQuiz s0 settings questions now sh) events).score ≤ questions.length := by
  obtain ⟨hinv, hql⟩ := session_inv s0 settings questions now sh events h0 hne
  generalize run (startQuiz s0 settings questions now sh) events = s at hinv hql ⊢
  obtain ⟨quiz, hq, hs, hph⟩ := hinv
  have hn : quiz.questions.length = questions.length := by
    simpa [questionsLength, hq] using hql
  have hle : quiz.answers.length ≤ questions.length := by
    rw [← hn]
    rcases hph with h | h | h | h
    · have := h.1; have := h.2.1; omega
    · have := h.1; have := h.2.1; omega
    · have := h.1; have := h.2.1; omega
    · exact le_of_eq h.2.1
  exact ⟨quiz, hq, hn, hs, hle, hs ▸ (correctCount_le _).trans hle⟩

/-- A quiz of two questions played to the end. -/
theorem score_counts_correct_answers_witness :
    sampleApp.pendingAnswers = [] ∧ sampleQuestions ≠ [] ∧
    ∃ quiz : Quiz,
      (run (startQuiz sampleApp scienceSettings sampleQuestions 0 id)
        twoQuestionEvents).currentQuiz = some quiz ∧
      quiz.questions.length = sampleQuestions.length ∧
      (run (startQuiz sampleApp scienceSettings sampleQuestions 0 id)
        twoQuestionEvents).score = correctCount quiz.answers ∧
      quiz.answers.length ≤ sampleQuestions.length ∧
      (run (startQuiz sampleApp scienceSettings sampleQuestions 0 id)
        twoQuestionEvents).score ≤ sampleQuestions.length :=
  ⟨rfl, by decide,
    score_counts_correct_answers sampleApp scienceSettings sampleQuestions 0 id
      twoQuestionEvents rfl (by decide)⟩

/-! ## The summary of `endQuiz` -/

/-- The double nearest to `23 / 40`. -/
theorem toDouble_23_40 : toDouble (23 / 40) = 2589569785738035 / 4503599627370496 := by
  have h := toDouble_eq (23 / 40) (-1) 5179139571476070 (by norm_num) (by norm_num)
    (roundHalfEven_down _ _ (by norm_num) (by norm_num))
  rw [h]; norm_num

/-- The double nearest to one tenth, the familiar `0.1000000000000000055511151231257827`. -/
theorem toDouble_one_tenth : toDouble (1 / 10) = 3602879701896397 / 36028797018963968 := by
  have h := toDouble_eq (1 / 10) (-4) 7205759403792794 (by norm_num) (by norm_num)
    (roundHalfEven_up _ 7205759403792793 (by norm_num) (by norm_num))
  rw [h]; norm_num

theorem toDouble_23_40_times_100 :
    toDouble (toDouble (23 / 40) * 100) = 8092405580431359 / 140737488355328 := by
  rw [toDouble_23_40]
  have h := toDouble_eq (2589569785738035 / 4503599627370496 * 100) 5 8092405580431359
    (by norm_num) (by norm_num) (roundHalfEven_down _ _ (by norm_num) (by norm_num))
  rw [h]; norm_num

theorem quizPercentage_23_40 : quizPercentage 23 40 = 57 := by
  unfold quizPercentage mathRound
  have e : ((23 : ℕ) : ℚ) / ((40 : ℕ) : ℚ) = 23 / 40 := by norm_num
  rw [e, toDouble_23_40_times_100, Int.floor_eq_iff]
  constructor <;> norm_num

/-- The summary that `endQuiz` writes to the results screen, for a quiz with
questions and a logged-in user. -/
theorem endQuiz_results (s : App) (quiz : Quiz) (u : UserAccount) (now : ℤ)
    (hq : s.currentQuiz = some quiz) (hn : quiz.questions.length ≠ 0)
    (hu : s.currentUser = some u) :
    (endQuiz s now).results =
      some (quizSummary quiz.settings.difficulty s.score quiz.questions.length
        now s.quizStartTime) := by
  obtain ⟨cu, cq, idx, sc, tm, tr, qst, au, stale, pend, btns, ad, nd, res, us, su⟩ := s
  simp only at hq hu
  subst hq hu
  simp [endQuiz, hn]

/-- The summary after the call of `nextQuestion` that ends the quiz. -/
theorem nextQuestion_results (s : App) (quiz : Quiz) (u : UserAccount) (now : ℤ)
    (sh : List String → List String)
    (hq : s.currentQuiz = some quiz) (hn : quiz.questions.length ≠ 0)
    (hlast : s.currentQuestionIndex + 1 ≥ quiz.questions.length)
    (hu : s.currentUser = some u) :
    (nextQuestion s now sh).results =
      some (quizSummary quiz.settings.difficulty s.score quiz.questions.length
        now s.quizStartTime) := by
  obtain ⟨cu, cq, idx, sc, tm, tr, qst, au, stale, pend, btns, ad, nd, res, us, su⟩ := s
  simp only at hq hu hlast
  subst hq hu
  simp only [nextQuestion, if_pos hlast]
  exact endQuiz_results _ quiz u now rfl hn rfl

set_option maxRecDepth 1000000 in
theorem fortyQuestionApp_facts :
    (fortyQuestionApp.currentQuiz.map fun quiz => quiz.questions.length) = some 40 ∧
    (fortyQuestionApp.currentQuiz.map fun quiz => quiz.settings.difficulty) = some (some "easy") ∧
    fortyQuestionApp.score = 23 ∧ fortyQuestionApp.currentQuestionIndex = 39 ∧
    fortyQuestionApp.quizStartTime = 0 ∧ fortyQuestionApp.nextDisabled = false ∧
    fortyQuestionApp.currentUser = some sampleUser := by
  refine ⟨by rfl, by rfl, by rfl, by rfl, by rfl, by rfl, by rfl⟩

theorem quizTimeTaken_eq_div (now start : ℤ) : quizTimeTaken now start = (now - start) / 1000 := by
  unfold quizTimeTaken
  exact_mod_cast Rat.floor_intCast_div_natCast (now - start) 1000

theorem quizSummary_23_of_40 :
    quizSummary (some "easy") 23 40 90500 0 =
      { totalQuestions := 40, score := 23, percentage := 57, timeTaken := 90, points := 595 } := by
  unfold quizSummary
  simp only [quizPercentage_23_40, quizTimeTaken_eq_div, calculatePoints_eq]
  decide

/-- C10: a quiz of forty questions with 23 right answers, ended 90.5 seconds
after its start, is given 57 percent by `endQuiz` (and 595 points on `easy`),
where rounding `100 * 23 / 40 = 57.5` with halves up gives 58: the double
nearest to `23 / 40` lies below it, and so does its product by `100`.  The
elapsed time is the whole seconds between start and end. -/
theorem endQuiz_percentage_23_of_40 :
    fortyQuestionApp.score = 23 ∧ questionsLength fortyQuestionApp = 40 ∧
    (step fortyQuestionApp (.clickNext 90500 id)).results =
      some { totalQuestions := 40, score := 23, percentage := 57, timeTaken := 90,
             points := 595 } ∧
    quizPercentage 23 40 = 57 ∧
    ⌊(100 * 23 / 40 : ℚ) + 1 / 2⌋ = 58 := by
  obtain ⟨f1, f2, f3, f4, f5, f6, f7⟩ := fortyQuestionApp_facts
  cases hq : fortyQuestionApp.currentQuiz with
  | none => rw [hq] at f1; exact absurd f1 (by simp)
  | some quiz =>
    rw [hq] at f1 f2
    simp only [Option.map_some', Option.some.injEq] at f1 f2
    refine ⟨f3, by simp [questionsLength, hq, f1], ?_, quizPercentage_23_40, ?_⟩
    · rw [step_clickNext_eq _ _ _ f6,
        nextQuestion_results fortyQuestionApp quiz sampleUser 90500 id hq (by omega) (by omega) f7,
        f1, f2, f3, f5, quizSummary_23_of_40]
    · rw [Int.floor_eq_iff]; constructor <;> norm_num

/-! ## Starting and finishing -/

theorem displayQuestion_fields (s : App) (sh : List String → List String) :
    (displayQuestion s sh).currentQuiz = s.currentQuiz ∧
    (displayQuestion s sh).currentQuestionIndex = s.currentQuestionIndex ∧
    (displayQuestion s sh).score = s.score ∧
    (displayQuestion s sh).quizStartTime = s.quizStartTime ∧
    (displayQuestion s sh).currentUser = s.currentUser ∧
    (displayQuestion s sh).users = s.users ∧
    (displayQuestion s sh).storedUser = s.storedUser ∧
    (displayQuestion s sh).results = s.results ∧
    (displayQuestion s sh).pendingAnswers = s.pendingAnswers := by
  obtain ⟨cu, cq, idx, sc, tm, tr, qst, au, stale, pend, btns, ad, nd, res, us, su⟩ := s
  cases cq with
  | none => simp [displayQuestion]
  | some quiz =>
    simp only [displayQuestion]
    cases quiz.questions[idx]? with
    | none => simp
    | some question =>
      simp only [startTimer]
      split_ifs <;> simp

/-- C12: whatever the state before (a running quiz included), `startQuiz` with
a non-empty question list replaces the quiz by one with those questions and
settings and no answers, and sets the index and the score to zero; with an
empty list it changes nothing at all. -/
theorem startQuiz_spec (s : App) (settings : QuizSettings) (questions : List QuestionRecord)
    (now : ℤ) (sh : List String → List String) :
    (questions ≠ [] →
      (startQuiz s settings questions now sh).currentQuiz =
        some { questions := questions, settings := settings, answers := [],
               startTime := now, offline := false } ∧
      (startQuiz s settings questions now sh).currentQuestionIndex = 0 ∧
      (startQuiz s settings questions now sh).score = 0 ∧
      (startQuiz s settings questions now sh).quizStartTime = now) ∧
    (questions = [] → startQuiz s settings questions now sh = s) := by
  refine ⟨?_, ?_⟩
  · intro hne
    have hlen : ¬ questions.length = 0 := by
      have := List.length_pos.mpr hne
      omega
    unfold startQuiz
    rw [if_neg hlen]
    obtain ⟨h1, h2, h3, h4, _⟩ := displayQuestion_fields
      { s with
        currentQuiz := some
          { questions := questions, settings := settings, answers := [],
            startTime := now, offline := false }
        currentQuestionIndex := 0
        score := 0
        quizStartTime := now } sh
    exact ⟨h1, h2, h3, h4⟩
  · intro he
    unfold startQuiz
    rw [if_pos (by simp [he])]

/-- A quiz in progress replaced by a new one, and an empty list ignored. -/
theorem startQuiz_spec_witness :
    sampleQuestions ≠ [] ∧ ([] : List QuestionRecord) = [] ∧
    (startQuiz (run scienceApp [.clickAnswer "Paris", .answerTimeout]) offlineSettings
      sampleQuestions 7000 id).currentQuiz =
        some { questions := sampleQuestions, settings := offlineSettings, answers := [],
               startTime := 7000, offline := false } ∧
    (startQuiz (run scienceApp [.clickAnswer "Paris", .answerTimeout]) offlineSettings
      sampleQuestions 7000 id).score = 0 ∧
    startQuiz (run scienceApp [.clickAnswer "Paris", .answerTimeout]) offlineSettings
      [] 7000 id = run scienceApp [.clickAnswer "Paris", .answerTimeout] :=
  ⟨by decide, rfl,
    ((startQuiz_spec (run scienceApp [.clickAnswer "Paris", .answerTimeout]) offlineSettings
      sampleQuestions 7000 id).1 (by decide)).1,
    ((startQuiz_spec (run scienceApp [.clickAnswer "Paris", .answerTimeout]) offlineSettings
      sampleQuestions 7000 id).1 (by decide)).2.2.1,
    (startQuiz_spec (run scienceApp [.clickAnswer "Paris", .answerTimeout]) offlineSettings
      [] 7000 id).2 rfl⟩

/-- The state after `endQuiz`, for a quiz with questions and a logged-in
user: the summary is on the results screen and has been folded into the
account, in memory and in both stored copies; the quiz, the index, the score
and the start time are as before. -/
theorem endQuiz_state (s : App) (quiz : Quiz) (u : UserAccount) (now : ℤ)
    (hq : s.currentQuiz = some quiz) (hn : quiz.questions.length ≠ 0)
    (hu : s.currentUser = some u) :
    (endQuiz s now).results =
      some (quizSummary quiz.settings.difficulty s.score quiz.questions.length now
        s.quizStartTime) ∧
    (endQuiz s now).currentUser =
      some (accountAfterQuiz u quiz.settings.category now
        (quizSummary quiz.settings.difficulty s.score quiz.questions.length now
          s.quizStartTime)) ∧
    (endQuiz s now).storedUser = (endQuiz s now).currentUser ∧
    (endQuiz s now).users =
      storePut s.users u.username (accountAfterQuiz u quiz.settings.category now
        (quizSummary quiz.settings.difficulty s.score quiz.questions.length now
          s.quizStartTime)) ∧
    (endQuiz s now).currentQuiz = some quiz ∧
    (endQuiz s now).score = s.score ∧
    (endQuiz s now).quizStartTime = s.quizStartTime ∧
    (endQuiz s now).currentQuestionIndex = s.currentQuestionIndex := by
  obtain ⟨cu, cq, idx, sc, tm, tr, qst, au, stale, pend, btns, ad, nd, res, us, su⟩ := s
  simp only at hq hu
  subst hq hu
  simp [endQuiz, updateUserStats, accountAfterQuiz, hn]

/-- C11, as stated, fails: `endQuiz` reconciles on every call.  The quiz of
`twoQuestionEvents` has ended and the account counts one quiz; a second
`endQuiz` at the same clock reading makes it two, with two history entries. -/
theorem endQuiz_twice_counterexample :
    (Option.map (fun u => u.stats.totalQuizzes)
      (run scienceApp twoQuestionEvents).currentUser = some 1) ∧
    (Option.map (fun u => u.stats.totalQuizzes)
      (endQuiz (run scienceApp twoQuestionEvents) 9000).currentUser = some 2) ∧
    (Option.map (fun u => u.stats.quizHistory.length)
      (run scienceApp twoQuestionEvents).currentUser = some 1) ∧
    (Option.map (fun u => u.stats.quizHistory.length)
      (endQuiz (run scienceApp twoQuestionEvents) 9000).currentUser = some 2) := by
  refine ⟨by rfl, by rfl, by rfl, by rfl⟩

/-- C11 (amended): for a quiz with questions and a logged-in user, a second
`endQuiz` at the same clock reading writes the same summary to the results
screen as the first, and each call folds that summary into the statistics:
after two calls the account is the account after one call with the summary
folded in once more, so `totalQuizzes` has grown by two, `totalScore` by twice
the percentage and `points` by twice the points. -/
theorem endQuiz_twice (s : App) (quiz : Quiz) (u : UserAccount) (now : ℤ)
    (hq : s.currentQuiz = some quiz) (hn : quiz.questions.length ≠ 0)
    (hu : s.currentUser = some u) :
    (endQuiz (endQuiz s now) now).results = (endQuiz s now).results ∧
    (endQuiz s now).results =
      some (quizSummary quiz.settings.difficulty s.score quiz.questions.length now
        s.quizStartTime) ∧
    (endQuiz (endQuiz s now) now).currentUser =
      some (accountAfterQuiz
        (accountAfterQuiz u quiz.settings.category now
          (quizSummary quiz.settings.difficulty s.score quiz.questions.length now
            s.quizStartTime))
        quiz.settings.category now
        (quizSummary quiz.settings.difficulty s.score quiz.questions.length now
          s.quizStartTime)) ∧
    (∃ u2 : UserAccount, (endQuiz (endQuiz s now) now).currentUser = some u2 ∧
      u2.stats.totalQuizzes = u.stats.totalQuizzes + 2 ∧
      u2.stats.totalScore = u.stats.totalScore +
        2 * (quizSummary quiz.settings.difficulty s.score quiz.questions.length now
          s.quizStartTime).percentage ∧
      u2.stats.points = u.stats.points +
        2 * (quizSummary quiz.settings.difficulty s.score quiz.questions.length now
          s.quizStartTime).points) := by
  obtain ⟨r1, c1, _, _, q1, sc1, st1, _⟩ := endQuiz_state s quiz u now hq hn hu
  obtain ⟨r2, c2, _, _, _, _, _, _⟩ := endQuiz_state (endQuiz s now) quiz _ now q1 hn c1
  rw [sc1, st1] at r2 c2
  refine ⟨r2.trans r1.symm, r1, c2, _, c2, ?_, ?_, ?_⟩
  · simp only [accountAfterQuiz, updateStats]; ring
  · simp only [accountAfterQuiz, updateStats]; ring
  · simp only [accountAfterQuiz, updateStats]; ring

/-- The quiz of `twoQuestionEvents`, ended once, and ended again. -/
theorem endQuiz_twice_witness :
    (∃ quiz u, (run scienceApp twoQuestionEvents).currentQuiz = some quiz ∧
      quiz.questions.length ≠ 0 ∧ (run scienceApp twoQuestionEvents).currentUser = some u ∧
      (endQuiz (endQuiz (run scienceApp twoQuestionEvents) 9000) 9000).results =
        (endQuiz (run scienceApp twoQuestionEvents) 9000).results) :=
  ⟨_, _, rfl, by decide, rfl,
    (endQuiz_twice (run scienceApp twoQuestionEvents) _ _ 9000 rfl (by decide) rfl).1⟩

/-! ## Advancing and the question timer -/

theorem selectAnswer_outcome (s : App) (answer : String) :
    (selectAnswer s answer).results = s.results ∧
    (selectAnswer s answer).currentUser = s.currentUser ∧
    (selectAnswer s answer).users = s.users ∧
    (selectAnswer s answer).storedUser = s.storedUser := by
  unfold selectAnswer
  split_ifs
  · exact ⟨rfl, rfl, rfl, rfl⟩
  · simp only
    split
    · exact ⟨rfl, rfl, rfl, rfl⟩
    · split <;> exact ⟨rfl, rfl, rfl, rfl⟩

theorem timeUp_outcome (s : App) :
    (timeUp s).results = s.results ∧ (timeUp s).currentUser = s.currentUser ∧
    (timeUp s).users = s.users ∧ (timeUp s).storedUser = s.storedUser := by
  unfold timeUp
  simp only
  split
  · exact ⟨rfl, rfl, rfl, rfl⟩
  · split <;> exact ⟨rfl, rfl, rfl, rfl⟩

theorem timerTick_outcome (s : App) :
    (timerTick s).results = s.results ∧ (timerTick s).currentUser = s.currentUser ∧
    (timerTick s).users = s.users ∧ (timerTick s).storedUser = s.storedUser := by
  unfold timerTick
  simp only
  split_ifs
  · exact timeUp_outcome _
  · exact ⟨rfl, rfl, rfl, rfl⟩
  · exact ⟨rfl, rfl, rfl, rfl⟩

theorem selectAnswerTimeout_outcome (s : App) (p : PendingAnswer) :
    (selectAnswerTimeout s p).results = s.results ∧
    (selectAnswerTimeout s p).currentUser = s.currentUser ∧
    (selectAnswerTimeout s p).users = s.users ∧
    (selectAnswerTimeout s p).storedUser = s.storedUser := by
  unfold selectAnswerTimeout
  cases p.isCorrect <;>
  · simp only
    split
    · simp
    · split <;> simp [startAutoProgress]

/-- While the next button is disabled no event moves the index, writes results
or touches the accounts. -/
theorem step_of_nextDisabled (s : App) (e : Event) (hn : s.nextDisabled = true) :
    (step s e).currentQuestionIndex = s.currentQuestionIndex ∧
    (step s e).results = s.results ∧
    (step s e).currentUser = s.currentUser ∧
    (step s e).users = s.users ∧
    (step s e).storedUser = s.storedUser := by
  cases e with
  | clickAnswer answer => exact ⟨selectAnswer_index s answer, selectAnswer_outcome s answer⟩
  | answerTimeout =>
    unfold step
    cases h : s.pendingAnswers with
    | nil => exact ⟨rfl, rfl, rfl, rfl, rfl⟩
    | cons p rest =>
      exact ⟨selectAnswerTimeout_index _ p, selectAnswerTimeout_outcome _ p⟩
  | tick => exact ⟨timerTick_index s, timerTick_outcome s⟩
  | clickNext now sh =>
    have e : step s (.clickNext now sh) = s := by
      show (if s.nextDisabled = true then s else nextQuestion s now sh) = s
      rw [if_pos hn]
    rw [e]
    exact ⟨rfl, rfl, rfl, rfl, rfl⟩
  | autoProgress now sh =>
    have e : step s (.autoProgress now sh) =
        if s.autoProgressTimer = true then { s with autoProgressTimer := false } else s := by
      show (if s.autoProgressTimer = true then
        autoProgressCallback { s with autoProgressTimer := false } now sh else s) = _
      have c : autoProgressCallback { s with autoProgressTimer := false } now sh =
          { s with autoProgressTimer := false } := by
        unfold autoProgressCallback
        exact if_pos hn
      rw [c]
    rw [e]
    split_ifs <;> exact ⟨rfl, rfl, rfl, rfl, rfl⟩
  | staleAutoProgress now sh =>
    have e : step s (.staleAutoProgress now sh) =
        if 0 < s.staleAutoProgress then
          { s with staleAutoProgress := s.staleAutoProgress - 1 } else s := by
      show (if 0 < s.staleAutoProgress then
        autoProgressCallback { s with staleAutoProgress := s.staleAutoProgress - 1 } now sh
        else s) = _
      have c : autoProgressCallback { s with staleAutoProgress := s.staleAutoProgress - 1 }
          now sh = { s with staleAutoProgress := s.staleAutoProgress - 1 } := by
        unfold autoProgressCallback
        exact if_pos hn
      rw [c]
    rw [e]
    split_ifs <;> exact ⟨rfl, rfl, rfl, rfl, rfl⟩

theorem nextGuard_of_fields (s t : App) (hq : t.currentQuiz = s.currentQuiz)
    (hi : t.currentQuestionIndex = s.currentQuestionIndex)
    (hn : t.nextDisabled = s.nextDisabled) (h : NextGuard s) : NextGuard t := by
  unfold NextGuard questionsLength answersLength at *
  rw [hq, hi, hn]
  exact h

theorem selectAnswer_quiz_next (s : App) (answer : String) :
    (selectAnswer s answer).currentQuiz = s.currentQuiz ∧
    (selectAnswer s answer).nextDisabled = s.nextDisabled := by
  unfold selectAnswer
  split_ifs
  · exact ⟨rfl, rfl⟩
  · simp only
    split
    · exact ⟨rfl, rfl⟩
    · split <;> exact ⟨rfl, rfl⟩

theorem timeUp_nextGuard (s : App) (h : NextGuard s) : NextGuard (timeUp s) := by
  obtain ⟨cu, cq, idx, sc, tm, tr, qst, au, stale, pend, btns, ad, nd, res, us, su⟩ := s
  cases cq with
  | none => simp [timeUp, NextGuard, questionsLength, answersLength]
  | some quiz =>
    simp only [timeUp]
    cases hq : quiz.questions[idx]? with
    | none => simpa [NextGuard, questionsLength, answersLength] using h
    | some question =>
      simp only [NextGuard, questionsLength, answersLength, startAutoProgress,
        List.length_append, List.length_singleton] at h ⊢
      obtain ⟨h1, h2⟩ := h
      constructor
      · intro hlt; have := h1 hlt; omega
      · intro _ hlt; have := h1 hlt; omega

theorem timerTick_nextGuard (s : App) (h : NextGuard s) : NextGuard (timerTick s) := by
  unfold timerTick
  simp only
  split_ifs
  · exact timeUp_nextGuard _ (nextGuard_of_fields s _ rfl rfl rfl h)
  · exact nextGuard_of_fields s _ rfl rfl rfl h
  · exact h

theorem selectAnswerTimeout_nextGuard (s : App) (p : PendingAnswer) (h : NextGuard s) :
    NextGuard (selectAnswerTimeout s p) := by
  obtain ⟨cu, cq, idx, sc, tm, tr, qst, au, stale, pend, btns, ad, nd, res, us, su⟩ := s
  cases cq with
  | none =>
    cases hp : p.isCorrect <;>
      simp [selectAnswerTimeout, hp, NextGuard, questionsLength, answersLength]
  | some quiz =>
    cases hq : quiz.questions[idx]? with
    | none =>
      cases hp : p.isCorrect <;>
        simpa [selectAnswerTimeout, hp, hq, NextGuard, questionsLength, answersLength] using h
    | some question =>
      simp only [NextGuard, questionsLength, answersLength] at h
      obtain ⟨h1, h2⟩ := h
      cases hp : p.isCorrect <;>
      · simp only [selectAnswerTimeout, hp, Bool.false_eq_true, if_false, if_true, hq, NextGuard,
          questionsLength, answersLength, startAutoProgress, List.length_append,
          List.length_singleton]
        constructor
        · intro hlt; have := h1 hlt; omega
        · intro _ hlt; have := h1 hlt; omega

theorem displayQuestion_nextDisabled (s : App) (sh : List String → List String)
    (h : s.currentQuestionIndex < questionsLength s) :
    (displayQuestion s sh).nextDisabled = true := by
  obtain ⟨cu, cq, idx, sc, tm, tr, qst, au, stale, pend, btns, ad, nd, res, us, su⟩ := s
  cases cq with
  | none => simp [questionsLength] at h
  | some quiz =>
    simp only [questionsLength] at h
    simp only [displayQuestion, List.getElem?_eq_getElem h]

theorem nextQuestion_nextGuard (s : App) (now : ℤ) (sh : List String → List String)
    (h : NextGuard s) (hn : s.nextDisabled = false) : NextGuard (nextQuestion s now sh) := by
  obtain ⟨cu, cq, idx, sc, tm, tr, qst, au, stale, pend, btns, ad, nd, res, us, su⟩ := s
  simp only at hn
  subst hn
  cases cq with
  | none => simp [nextQuestion, NextGuard, questionsLength, answersLength]
  | some quiz =>
    simp only [NextGuard, questionsLength, answersLength] at h
    obtain ⟨h1, h2⟩ := h
    simp only [nextQuestion]
    split_ifs with hge
    · obtain ⟨e1, e2, -, -, -, e6, -⟩ := endQuiz_fields
        { currentUser := cu, currentQuiz := some quiz, currentQuestionIndex := idx + 1,
          score := sc, timer := tm, timeRemaining := tr, quizStartTime := qst,
          autoProgressTimer := false, staleAutoProgress := stale, pendingAnswers := pend,
          answersHTML := btns, answersDisabled := ad, nextDisabled := false, results := res,
          users := us, storedUser := su } now
      unfold NextGuard questionsLength answersLength
      rw [e1, e2]
      simp only
      constructor
      · intro hlt; omega
      · intro _ hlt; omega
    · have hlt : idx + 1 < quiz.questions.length := by omega
      obtain ⟨f1, f2, -⟩ := displayQuestion_fields
        { currentUser := cu, currentQuiz := some quiz, currentQuestionIndex := idx + 1,
          score := sc, timer := tm, timeRemaining := tr, quizStartTime := qst,
          autoProgressTimer := false, staleAutoProgress := stale, pendingAnswers := pend,
          answersHTML := btns, answersDisabled := ad, nextDisabled := false, results := res,
          users := us, storedUser := su } sh
      have f3 := displayQuestion_nextDisabled
        { currentUser := cu, currentQuiz := some quiz, currentQuestionIndex := idx + 1,
          score := sc, timer := tm, timeRemaining := tr, quizStartTime := qst,
          autoProgressTimer := false, staleAutoProgress := stale, pendingAnswers := pend,
          answersHTML := btns, answersDisabled := ad, nextDisabled := false, results := res,
          users := us, storedUser := su } sh (by simpa [questionsLength] using hlt)
      unfold NextGuard questionsLength answersLength
      rw [f1, f2, f3]
      simp only
      have := h2 trivial (by omega)
      constructor
      · intro _; omega
      · intro hc; exact absurd hc (by decide)

theorem autoProgressCallback_nextGuard (s : App) (now : ℤ) (sh : List String → List String)
    (h : NextGuard s) : NextGuard (autoProgressCallback s now sh) := by
  unfold autoProgressCallback
  split_ifs with hn
  · exact h
  · exact nextQuestion_nextGuard s now sh h (by simpa using hn)

theorem step_nextGuard (s : App) (e : Event) (h : NextGuard s) : NextGuard (step s e) := by
  cases e with
  | clickAnswer answer =>
    obtain ⟨e1, e2⟩ := selectAnswer_quiz_next s answer
    exact nextGuard_of_fields s _ e1 (selectAnswer_index s answer) e2 h
  | answerTimeout =>
    unfold step
    cases hp : s.pendingAnswers with
    | nil => exact h
    | cons p rest =>
      exact selectAnswerTimeout_nextGuard _ p (nextGuard_of_fields s _ rfl rfl rfl h)
  | tick => exact timerTick_nextGuard s h
  | clickNext now sh =>
    show NextGuard (if s.nextDisabled then s else nextQuestion s now sh)
    split_ifs with hn
    · exact h
    · exact nextQuestion_nextGuard s now sh h (by simpa using hn)
  | autoProgress now sh =>
    show NextGuard (if s.autoProgressTimer then
      autoProgressCallback { s with autoProgressTimer := false } now sh else s)
    split_ifs
    · exact autoProgressCallback_nextGuard _ now sh (nextGuard_of_fields s _ rfl rfl rfl h)
    · exact h
  | staleAutoProgress now sh =>
    show NextGuard (if 0 < s.staleAutoProgress then
      autoProgressCallback { s with staleAutoProgress := s.staleAutoProgress - 1 } now sh
      else s)
    split_ifs
    · exact autoProgressCallback_nextGuard _ now sh (nextGuard_of_fields s _ rfl rfl rfl h)
    · exact h

theorem run_nextGuard (events : List Event) (s : App) (h : NextGuard s) :
    NextGuard (run s events) := by
  induction events generalizing s with
  | nil => exact h
  | cons e es ih => exact ih _ (step_nextGuard s e h)

theorem startQuiz_nextGuard (s0 : App) (settings : QuizSettings)
    (questions : List QuestionRecord) (now : ℤ) (sh : List String → List String)
    (hne : questions ≠ []) :
    NextGuard (startQuiz s0 settings questions now sh) ∧
    questionsLength (startQuiz s0 settings questions now sh) = questions.length := by
  have hlen : questions.length ≠ 0 := by
    intro h; exact hne (List.length_eq_zero.mp h)
  unfold startQuiz
  rw [if_neg hlen]
  obtain ⟨f1, f2, -⟩ := displayQuestion_fields
    { s0 with
      currentQuiz := some
        { questions := questions, settings := settings, answers := [],
          startTime := now, offline := false }
      currentQuestionIndex := 0
      score := 0
      quizStartTime := now } sh
  have f3 := displayQuestion_nextDisabled
    { s0 with
      currentQuiz := some
        { questions := questions, settings := settings, answers := [],
          startTime := now, offline := false }
      currentQuestionIndex := 0
      score := 0
      quizStartTime := now } sh (by simp only [questionsLength]; omega)
  unfold NextGuard questionsLength answersLength
  rw [f1, f2, f3]
  simp

theorem timeUp_questionsLength (s : App) : questionsLength (timeUp s) = questionsLength s := by
  obtain ⟨cu, cq, idx, sc, tm, tr, qst, au, stale, pend, btns, ad, nd, res, us, su⟩ := s
  cases cq with
  | none => simp [timeUp, questionsLength]
  | some quiz =>
    simp only [timeUp]
    cases hq : quiz.questions[idx]? with
    | none => simp [questionsLength]
    | some question => simp [questionsLength, startAutoProgress]

theorem selectAnswerTimeout_questionsLength (s : App) (p : PendingAnswer) :
    questionsLength (selectAnswerTimeout s p) = questionsLength s := by
  obtain ⟨cu, cq, idx, sc, tm, tr, qst, au, stale, pend, btns, ad, nd, res, us, su⟩ := s
  cases cq with
  | none => cases hp : p.isCorrect <;> simp [selectAnswerTimeout, hp, questionsLength]
  | some quiz =>
    cases hq : quiz.questions[idx]? with
    | none => cases hp : p.isCorrect <;> simp [selectAnswerTimeout, hp, hq, questionsLength]
    | some question =>
      cases hp : p.isCorrect <;>
        simp [selectAnswerTimeout, hp, hq, questionsLength, startAutoProgress]

theorem nextQuestion_questionsLength (s : App) (now : ℤ) (sh : List String → List String) :
    questionsLength (nextQuestion s now sh) = questionsLength s := by
  obtain ⟨cu, cq, idx, sc, tm, tr, qst, au, stale, pend, btns, ad, nd, res, us, su⟩ := s
  cases cq with
  | none => simp [nextQuestion, questionsLength]
  | some quiz =>
    simp only [nextQuestion]
    split_ifs
    · unfold questionsLength
      rw [(endQuiz_fields _ now).1]
    · unfold questionsLength
      rw [(displayQuestion_fields _ sh).1]

theorem step_questionsLength (s : App) (e : Event) :
    questionsLength (step s e) = questionsLength s := by
  cases e with
  | clickAnswer answer =>
    show questionsLength (selectAnswer s answer) = _
    unfold questionsLength
    rw [(selectAnswer_quiz_next s answer).1]
  | answerTimeout =>
    unfold step
    cases hp : s.pendingAnswers with
    | nil => rfl
    | cons p rest => exact selectAnswerTimeout_questionsLength _ p
  | tick =>
    show questionsLength (timerTick s) = _
    unfold timerTick
    simp only
    split_ifs
    · exact timeUp_questionsLength _
    · rfl
    · rfl
  | clickNext now sh =>
    show questionsLength (if s.nextDisabled then s else nextQuestion s now sh) = _
    split_ifs
    · rfl
    · exact nextQuestion_questionsLength s now sh
  | autoProgress now sh =>
    show questionsLength (if s.autoProgressTimer then
      autoProgressCallback { s with autoProgressTimer := false } now sh else s) = _
    unfold autoProgressCallback
    split_ifs
    · rfl
    · exact nextQuestion_questionsLength _ now sh
    · rfl
  | staleAutoProgress now sh =>
    show questionsLength (if 0 < s.staleAutoProgress then
      autoProgressCallback { s with staleAutoProgress := s.staleAutoProgress - 1 } now sh
      else s) = _
    unfold autoProgressCallback
    split_ifs
    · rfl
    · exact nextQuestion_questionsLength _ now sh
    · rfl

theorem run_questionsLength (events : List Event) (s : App) :
    questionsLength (run s events) = questionsLength s := by
  induction events generalizing s with
  | nil => rfl
  | cons e es ih => exact (ih _).trans (step_questionsLength s e)

/-- C13, as stated, fails: `nextQuestion` has no check of its own.  Called on
a question that was just displayed and has no record, it moves the index to
the next question, and on the only question of a quiz it ends the quiz, the
summary going to the results screen with no record at all. -/
theorem nextQuestion_unanswered_counterexample :
    scienceApp.currentQuestionIndex = 0 ∧ answersLength scienceApp = 0 ∧
    questionsLength scienceApp = 2 ∧
    (nextQuestion scienceApp 100 id).currentQuestionIndex = 1 ∧
    oneQuestionApp.currentQuestionIndex = 0 ∧ answersLength oneQuestionApp = 0 ∧
    questionsLength oneQuestionApp = 1 ∧ oneQuestionApp.results = none ∧
    (nextQuestion oneQuestionApp 100 id).currentQuestionIndex = 1 ∧
    (nextQuestion oneQuestionApp 100 id).results.isSome = true := by
  refine ⟨by rfl, by rfl, by rfl, by rfl, by rfl, by rfl, by rfl, by rfl, by rfl, by rfl⟩

/-- C13 (amended): from `startQuiz` with a non-empty question list, in whatever
state the application was before, while the question at the current index has
no record (`answers.length` equals the index, which is below the number of
questions) the next button is disabled, so no call of `nextQuestion` is made:
neither a click on the button nor an auto-progress timeout nor any other event
moves the index, and none ends the quiz (the results and the accounts stay as
they are). -/
theorem advance_requires_answer (s0 : App) (settings : QuizSettings)
    (questions : List QuestionRecord) (now : ℤ) (sh : List String → List String)
    (events : List Event) (e : Event) (hne : questions ≠ [])
    (hact : (run (startQuiz s0 settings questions now sh) events).currentQuestionIndex <
      questions.length)
    (hnone : answersLength (run (startQuiz s0 settings questions now sh) events) =
      (run (startQuiz s0 settings questions now sh) events).currentQuestionIndex) :
    (run (startQuiz s0 settings questions now sh) events).nextDisabled = true ∧
    (step (run (startQuiz s0 settings questions now sh) events) e).currentQuestionIndex =
      (run (startQuiz s0 settings questions now sh) events).currentQuestionIndex ∧
    (step (run (startQuiz s0 settings questions now sh) events) e).results =
      (run (startQuiz s0 settings questions now sh) events).results ∧
    (step (run (startQuiz s0 settings questions now sh) events) e).currentUser =
      (run (startQuiz s0 settings questions now sh) events).currentUser ∧
    (step (run (startQuiz s0 settings questions now sh) events) e).users =
      (run (startQuiz s0 settings questions now sh) events).users ∧
    (step (run (startQuiz s0 settings questions now sh) events) e).storedUser =
      (run (startQuiz s0 settings questions now sh) events).storedUser := by
  obtain ⟨hg0, hq0⟩ := startQuiz_nextGuard s0 settings questions now sh hne
  have hg := run_nextGuard events _ hg0
  have hql := (run_questionsLength events (startQuiz s0 settings questions now sh)).trans hq0
  generalize run (startQuiz s0 settings questions now sh) events = s at hg hql hact hnone ⊢
  have hnd : s.nextDisabled = true := by
    cases hd : s.nextDisabled with
    | true => rfl
    | false =>
      have := hg.2 hd (by omega)
      omega
  exact ⟨hnd, step_of_nextDisabled s e hnd⟩

/-- A quiz started while the closure of a click is pending: the question just
displayed has no record, and a click on the next button is not delivered. -/
theorem advance_requires_answer_witness :
    [franceQuestion] ≠ [] ∧
    (run (startQuiz (selectAnswer scienceApp "Paris") scienceSettings [franceQuestion] 100 id)
      []).currentQuestionIndex < [franceQuestion].length ∧
    answersLength (run (startQuiz (selectAnswer scienceApp "Paris") scienceSettings
      [franceQuestion] 100 id) []) =
      (run (startQuiz (selectAnswer scienceApp "Paris") scienceSettings [franceQuestion] 100 id)
        []).currentQuestionIndex ∧
    (step (run (startQuiz (selectAnswer scienceApp "Paris") scienceSettings [franceQuestion]
      100 id) []) (.clickNext 200 id)).currentQuestionIndex =
      (run (startQuiz (selectAnswer scienceApp "Paris") scienceSettings [franceQuestion] 100 id)
        []).currentQuestionIndex :=
  ⟨by decide, by decide, rfl,
    (advance_requires_answer (selectAnswer scienceApp "Paris") scienceSettings [franceQuestion]
      100 id [] (.clickNext 200 id) (by decide) (by decide) rfl).2.1⟩

theorem run_append (s : App) (es fs : List Event) : run s (es ++ fs) = run (run s es) fs := by
  unfold run
  rw [List.foldl_append]

theorem ticks_succ (k : ℕ) : ticks (k + 1) = Event.tick :: ticks k := rfl

theorem ticks_add (j k : ℕ) : ticks (j + k) = ticks j ++ ticks k := by
  unfold ticks
  rw [List.replicate_add]

/-- With the timer off, ticks do nothing. -/
theorem run_ticks_of_timer_false (k : ℕ) (s : App) (h : s.timer = false) :
    run s (ticks k) = s := by
  induction k with
  | zero => rfl
  | succ k ih =>
    rw [ticks_succ, run_cons]
    show run (timerTick s) (ticks k) = s
    rw [timerTick_of_timer_false s h]
    exact ih

/-- Fewer ticks than `timeRemaining` only count down. -/
theorem run_ticks_before (j : ℕ) (s : App) (ht : s.timer = true)
    (hj : (j : ℤ) < s.timeRemaining) :
    run s (ticks j) = { s with timeRemaining := s.timeRemaining - j } := by
  induction j generalizing s with
  | zero => simp [ticks, run]
  | succ j ih =>
    rw [ticks_succ, run_cons]
    have hpos : ¬ s.timeRemaining - 1 ≤ 0 := by push_cast at hj; omega
    have e : step s Event.tick = { s with timeRemaining := s.timeRemaining - 1 } := by
      show timerTick s = _
      unfold timerTick
      simp only [ht, if_true, hpos, if_false]
    have hj2 : (j : ℤ) < s.timeRemaining - 1 := by push_cast at hj; omega
    rw [e, ih { s with timeRemaining := s.timeRemaining - 1 } ht hj2]
    have e2 : s.timeRemaining - 1 - (j : ℤ) = s.timeRemaining - ((j + 1 : ℕ) : ℤ) := by
      push_cast; ring
    simp only [e2]

/-- The tick that finds `timeRemaining` at one (or below) runs `timeUp`. -/
theorem timerTick_last (s : App) (ht : s.timer = true) (hr : s.timeRemaining ≤ 1) :
    timerTick s = timeUp { s with timeRemaining := s.timeRemaining - 1, timer := false } := by
  unfold timerTick
  have hz : s.timeRemaining - 1 ≤ 0 := by omega
  simp only [ht, if_true, hz]

theorem timeUp_timer (s : App) : (timeUp s).timer = s.timer := by
  unfold timeUp
  simp only
  split
  · rfl
  · split <;> rfl

/-- The state `displayQuestion` leaves when the question exists. -/
theorem displayQuestion_eq (s : App) (quiz : Quiz) (question : QuestionRecord)
    (sh : List String → List String) (hq : s.currentQuiz = some quiz)
    (hi : quiz.questions[s.currentQuestionIndex]? = some question) :
    displayQuestion s sh =
      { s with
        answersHTML := answerMarkup (sh (question.correct :: question.incorrect))
        answersDisabled := false
        nextDisabled := true
        timer := decide (quiz.settings.timePerQuestion ≠ 0)
        timeRemaining :=
          if quiz.settings.timePerQuestion = 0 then s.timeRemaining
          else quiz.settings.timePerQuestion } := by
  obtain ⟨cu, cq, idx, sc, tm, tr, qst, au, stale, pend, btns, ad, nd, res, us, su⟩ := s
  simp only at hq hi
  subst hq
  simp only [displayQuestion, hi, startTimer]
  split_ifs with h <;> simp [h]

/-- C17: after `displayQuestion` has presented a question of a quiz with
`timePerQuestion = t`: if `t = 0` no timer is running and no number of ticks
changes anything, so no timeout fires; if `t > 0` the first `t - 1` ticks only
count `timeRemaining` down (the quiz is untouched, the timer stays live, the
buttons stay enabled), the `t`-th tick runs `timeUp` with the timer cleared,
which appends the record of the unanswered question, and any further ticks
change nothing: the timeout fires once. -/
theorem question_timer (s : App) (quiz : Quiz) (question : QuestionRecord)
    (sh : List String → List String) (hq : s.currentQuiz = some quiz)
    (hi : quiz.questions[s.currentQuestionIndex]? = some question) :
    (quiz.settings.timePerQuestion = 0 →
      (displayQuestion s sh).timer = false ∧
      ∀ k : ℕ, run (displayQuestion s sh) (ticks k) = displayQuestion s sh) ∧
    (∀ t : ℕ, quiz.settings.timePerQuestion = (t : ℤ) → 0 < t →
      (∀ j : ℕ, j < t →
        (run (displayQuestion s sh) (ticks j)).currentQuiz = some quiz ∧
        (run (displayQuestion s sh) (ticks j)).timer = true ∧
        (run (displayQuestion s sh) (ticks j)).timeRemaining = (t : ℤ) - j ∧
        (run (displayQuestion s sh) (ticks j)).answersDisabled = false) ∧
      run (displayQuestion s sh) (ticks t) =
        timeUp { displayQuestion s sh with timeRemaining := 0, timer := false } ∧
      (run (displayQuestion s sh) (ticks t)).currentQuiz =
        some { quiz with answers := quiz.answers ++
          [{ question := question.question, userAnswer := none,
             correctAnswer := question.correct, isCorrect := false }] } ∧
      (run (displayQuestion s sh) (ticks t)).timer = false ∧
      ∀ k : ℕ, run (displayQuestion s sh) (ticks (t + k)) =
        run (displayQuestion s sh) (ticks t)) := by
  have hd := displayQuestion_eq s quiz question sh hq hi
  have hdq : (displayQuestion s sh).currentQuiz = some quiz := by rw [hd]; exact hq
  have hdi : (displayQuestion s sh).currentQuestionIndex = s.currentQuestionIndex := by rw [hd]
  have hda : (displayQuestion s sh).answersDisabled = false := by rw [hd]
  refine ⟨?_, ?_⟩
  · intro h0
    have ht : (displayQuestion s sh).timer = false := by rw [hd]; simp [h0]
    exact ⟨ht, fun k => run_ticks_of_timer_false k _ ht⟩
  · intro t htq hpos
    have hne : quiz.settings.timePerQuestion ≠ 0 := by rw [htq]; exact_mod_cast hpos.ne'
    have ht : (displayQuestion s sh).timer = true := by rw [hd]; simp [hne]
    have hr : (displayQuestion s sh).timeRemaining = (t : ℤ) := by
      rw [hd]
      show (if quiz.settings.timePerQuestion = 0 then s.timeRemaining
        else quiz.settings.timePerQuestion) = _
      rw [if_neg hne, htq]
    have hbefore : ∀ j : ℕ, j < t → run (displayQuestion s sh) (ticks j) =
        { displayQuestion s sh with timeRemaining := (t : ℤ) - j } := by
      intro j hj
      rw [run_ticks_before j _ ht (by rw [hr]; exact_mod_cast hj), hr]
    have hlast : run (displayQuestion s sh) (ticks t) =
        timeUp { displayQuestion s sh with timeRemaining := 0, timer := false } := by
      obtain ⟨j, rfl⟩ : ∃ j, t = j + 1 := ⟨t - 1, by omega⟩
      rw [ticks_add, run_append, hbefore j (by omega)]
      have e1 : ((j + 1 : ℕ) : ℤ) - (j : ℤ) = 1 := by push_cast; ring
      rw [e1]
      show timerTick { displayQuestion s sh with timeRemaining := 1 } = _
      rw [timerTick_last { displayQuestion s sh with timeRemaining := 1 } ht (le_refl _)]
      rfl
    have hfin : (run (displayQuestion s sh) (ticks t)).timer = false := by
      rw [hlast, timeUp_timer]
    refine ⟨?_, hlast, ?_, hfin, ?_⟩
    · intro j hj
      rw [hbefore j hj]
      exact ⟨hdq, ht, rfl, hda⟩
    · rw [hlast]
      exact (timeUp_records { displayQuestion s sh with timeRemaining := 0, timer := false }
        quiz question hdq (by rw [hdi]; exact hi)).1.1
    · intro k
      rw [ticks_add, run_append, run_ticks_of_timer_false k _ hfin]

/-- The first sample question with thirty seconds, and with no limit. -/
theorem question_timer_witness :
    scienceApp.currentQuiz = some scienceQuiz ∧
    scienceQuiz.questions[scienceApp.currentQuestionIndex]? = some franceQuestion ∧
    scienceQuiz.settings.timePerQuestion = ((30 : ℕ) : ℤ) ∧ 0 < 30 ∧ 29 < 30 ∧
    (run (displayQuestion scienceApp id) (ticks 29)).timer = true ∧
    (run (displayQuestion scienceApp id) (ticks 30)).timer = false ∧
    (run (displayQuestion scienceApp id) (ticks 30)).currentQuiz =
      some { scienceQuiz with answers := scienceQuiz.answers ++
        [{ question := franceQuestion.question, userAnswer := none,
           correctAnswer := franceQuestion.correct, isCorrect := false }] } :=
  ⟨rfl, rfl, rfl, by decide, by decide,
    (((question_timer scienceApp scienceQuiz franceQuestion id rfl rfl).2 30 rfl
      (by decide)).1 29 (by decide)).2.1,
    ((question_timer scienceApp scienceQuiz franceQuestion id rfl rfl).2 30 rfl
      (by decide)).2.2.2.1,
    ((question_timer scienceApp scienceQuiz franceQuestion id rfl rfl).2 30 rfl
      (by decide)).2.2.1⟩

/-! ## Presenting a question -/

/-- The markup `displayQuestion` leaves on the page when the question exists,
and the quiz it leaves untouched. -/
theorem displayQuestion_markup (s : App) (quiz : Quiz) (question : QuestionRecord)
    (sh : List String → List String) (hq : s.currentQuiz = some quiz)
    (hi : quiz.questions[s.currentQuestionIndex]? = some question) :
    (displayQuestion s sh).answersHTML =
      answerMarkup (sh (question.correct :: question.incorrect)) ∧
    (displayQuestion s sh).currentQuiz = some quiz := by
  rw [displayQuestion_eq s quiz question sh hq hi]
  exact ⟨rfl, hq⟩

/-- No value read from a double-quoted attribute holds a double quote. -/
theorem quotedAttributeValue_no_quote (rest v : List Char)
    (h : quotedAttributeValue rest = some v) : Char.ofNat 34 ∉ v := by
  induction rest generalizing v with
  | nil => simp [quotedAttributeValue] at h
  | cons c rest ih =>
    unfold quotedAttributeValue at h
    split_ifs at h with h1 h2
    · cases h; simp
    · cases hr : quotedAttributeValue rest with
      | none => simp [hr] at h
      | some w =>
        simp only [hr, Option.map_some', Option.some.injEq] at h
        subst h
        intro hm
        rcases List.mem_cons.mp hm with hm | hm
        · exact h1 hm.symm
        · exact ih w hr hm

/-- A text free of double quotes, ampersands, NUL and carriage returns is read
back as it is from the attribute it was interpolated into. -/
theorem quotedAttributeValue_plain (text more : List Char)
    (h : ∀ c ∈ text, c ≠ Char.ofNat 34 ∧ c ≠ Char.ofNat 38 ∧ c ≠ Char.ofNat 0 ∧
      c ≠ Char.ofNat 13) :
    quotedAttributeValue (text ++ Char.ofNat 34 :: more) = some text := by
  induction text with
  | nil => simp [quotedAttributeValue]
  | cons c text ih =>
    obtain ⟨c1, c2, c3, c4⟩ := h c (List.mem_cons_self _ _)
    have ih1 := ih (fun d hd => h d (List.mem_cons_of_mem _ hd))
    rw [List.cons_append]
    unfold quotedAttributeValue
    rw [if_neg c1, if_neg (by simp [c2, c3, c4]), ih1]
    rfl

/-- C18: the claim fails at a question whose answers hold a double quote, as
the API returns them after `decodeHTML`.  `displayQuestion` interpolates the
texts unescaped, so in the markup of `floppyQuestion` the `data-answer` of the
button of the correct answer `8"` reads `8`: the value of the option is not
the correct answer, and a click on that button is recorded as a wrong answer,
with no point scored. -/
theorem displayQuestion_unescaped_quote :
    floppyQuestion.correct = "8\"" ∧
    floppyApp.answersHTML = answerMarkup ["8\"", "5.25\"", "3.5\"", "12\""] ∧
    firstDataAnswer floppyApp.answersHTML = some "8" ∧
    (run floppyApp [.clickAnswer "8", .answerTimeout]).currentQuiz.map (fun q => q.answers) =
      some [{ question := "How wide were the first floppy disks?", userAnswer := some "8",
              correctAnswer := "8\"", isCorrect := false }] ∧
    (run floppyApp [.clickAnswer "8", .answerTimeout]).score = 0 := by
  refine ⟨rfl, rfl, by decide, by decide, by decide⟩

/-! ## The question provider -/

theorem sliceTo_of_nonneg {α : Type} (xs : List α) (e : ℤ) (h : 0 ≤ e) :
    sliceTo xs e = xs.take e.toNat := by
  unfold sliceTo
  rw [if_neg (by omega)]

/-- The result of `getOfflineQuestions` for a non-negative count: the first
`min count (bank length)` questions of the shuffled bank. -/
theorem getOfflineQuestions_eq (stored : Option (List QuestionRecord))
    (offlineQuestions : List QuestionRecord)
    (sh : List QuestionRecord → List QuestionRecord) (count : ℤ) (hc : 0 ≤ count) :
    getOfflineQuestions stored offlineQuestions sh count =
      (sh (stored.getD offlineQuestions)).take
        (min count.toNat (sh (stored.getD offlineQuestions)).length) := by
  have e : (match stored with
      | some qs => qs
      | none => offlineQuestions) = stored.getD offlineQuestions := by
    cases stored <;> rfl
  unfold getOfflineQuestions
  simp only [e]
  rw [sliceTo_of_nonneg _ _ (by omega)]
  congr 1
  omega

set_option maxRecDepth 100000 in
theorem offlineBank_nodup : offlineBank.Nodup := by
  decide

theorem offlineBank_length : offlineBank.length = 43 := rfl

/-- C16: for a bank without repetition (the stored copy if there is one, else
the field of `this`), any order the shuffle leaves it in and any count that is
not negative, `getOfflineQuestions` returns exactly `min count (bank length)`
questions, all of them from the bank and none twice; a count of at least the
bank size returns the whole bank, reordered.  The bundled bank has 43
questions, no two alike. -/
theorem getOfflineQuestions_spec (stored : Option (List QuestionRecord))
    (offlineQuestions : List QuestionRecord)
    (sh : List QuestionRecord → List QuestionRecord) (count : ℤ)
    (hperm : (sh (stored.getD offlineQuestions)).Perm (stored.getD offlineQuestions))
    (hnodup : (stored.getD offlineQuestions).Nodup) (hc : 0 ≤ count) :
    (getOfflineQuestions stored offlineQuestions sh count).length =
      min count.toNat (stored.getD offlineQuestions).length ∧
    (∀ q ∈ getOfflineQuestions stored offlineQuestions sh count,
      q ∈ stored.getD offlineQuestions) ∧
    (getOfflineQuestions stored offlineQuestions sh count).Nodup ∧
    (((stored.getD offlineQuestions).length : ℤ) ≤ count →
      (getOfflineQuestions stored offlineQuestions sh count).length =
        (stored.getD offlineQuestions).length ∧
      (getOfflineQuestions stored offlineQuestions sh count).Perm
        (stored.getD offlineQuestions)) ∧
    offlineBank.Nodup ∧ offlineBank.length = 43 := by
  rw [getOfflineQuestions_eq stored offlineQuestions sh count hc]
  have hlen := hperm.length_eq
  refine ⟨?_, ?_, ?_, ?_, offlineBank_nodup, offlineBank_length⟩
  · rw [List.length_take, hlen]
    omega
  · intro q hq
    exact hperm.mem_iff.mp (List.mem_of_mem_take hq)
  · exact (List.take_sublist _ _).nodup (hperm.nodup_iff.mpr hnodup)
  · intro hall
    have hmin : min count.toNat (sh (stored.getD offlineQuestions)).length =
        (sh (stored.getD offlineQuestions)).length := by
      rw [hlen]; omega
    rw [hmin, List.take_length]
    exact ⟨hlen, hperm⟩

/-- Fifty questions asked of the bundled bank of 43, left in source order. -/
theorem getOfflineQuestions_spec_witness :
    (id ((none : Option (List QuestionRecord)).getD offlineBank)).Perm
      ((none : Option (List QuestionRecord)).getD offlineBank) ∧
    ((none : Option (List QuestionRecord)).getD offlineBank).Nodup ∧ (0 : ℤ) ≤ 50 ∧
    ((((none : Option (List QuestionRecord)).getD offlineBank).length : ℤ) ≤ 50) ∧
    (getOfflineQuestions none offlineBank id 50).length =
      ((none : Option (List QuestionRecord)).getD offlineBank).length ∧
    (getOfflineQuestions none offlineBank id 50).Perm
      ((none : Option (List QuestionRecord)).getD offlineBank) :=
  ⟨List.Perm.refl _, offlineBank_nodup, by decide, by decide,
    (getOfflineQuestions_spec none offlineBank id 50 (List.Perm.refl _) offlineBank_nodup
      (by decide)).2.2.2.1 (by decide)⟩

/-- C15, as stated, fails for a response with a non-zero response code: the
remote source answers with code 1 (no results) and `fetchQuestions` returns the
empty list, where the fallback for the two questions asked for has two. -/
theorem fetchQuestions_nonzero_code_counterexample :
    fetchQuestions id none offlineBank id scienceSettings
      (.body { response_code := some 1, results := some [] }) = [] ∧
    (getOfflineQuestions none offlineBank id scienceSettings.numQuestions).length = 2 ∧
    fetchQuestions id none offlineBank id scienceSettings
      (.body { response_code := some 1, results := some [] }) ≠
      getOfflineQuestions none offlineBank id scienceSettings.numQuestions := by
  refine ⟨by rfl, by rfl, by decide⟩

/-- C15 (amended): when the request throws, when the body cannot be parsed, and
when the body has response code 0 but no results array, `fetchQuestions`
returns `getOfflineQuestions(numQuestions)`; when the body carries any other
response code it returns the empty list; and with response code 0 and a
results array it returns the decoded questions. -/
theorem fetchQuestions_spec (decodeHTML : String → String)
    (stored : Option (List QuestionRecord)) (offlineQuestions : List QuestionRecord)
    (sh : List QuestionRecord → List QuestionRecord) (settings : QuizSettings)
    (data : ApiBody) :
    fetchQuestions decodeHTML stored offlineQuestions sh settings .requestFailed =
      getOfflineQuestions stored offlineQuestions sh settings.numQuestions ∧
    fetchQuestions decodeHTML stored offlineQuestions sh settings .bodyUnparsable =
      getOfflineQuestions stored offlineQuestions sh settings.numQuestions ∧
    (data.response_code = some 0 → data.results = none →
      fetchQuestions decodeHTML stored offlineQuestions sh settings (.body data) =
        getOfflineQuestions stored offlineQuestions sh settings.numQuestions) ∧
    (data.response_code ≠ some 0 →
      fetchQuestions decodeHTML stored offlineQuestions sh settings (.body data) = []) ∧
    (∀ results : List RawQuestion, data.response_code = some 0 →
      data.results = some results →
      fetchQuestions decodeHTML stored offlineQuestions sh settings (.body data) =
        results.map (fromRaw decodeHTML)) := by
  refine ⟨rfl, rfl, ?_, ?_, ?_⟩
  · intro h0 hr
    simp [fetchQuestions, h0, hr]
  · intro hne
    simp [fetchQuestions, hne]
  · intro results h0 hr
    simp [fetchQuestions, h0, hr]

/-- A response without results, one with code 5, and one with a question. -/
theorem fetchQuestions_spec_witness :
    fetchQuestions id none offlineBank id scienceSettings
      (.body { response_code := some 0, results := none }) =
      getOfflineQuestions none offlineBank id scienceSettings.numQuestions ∧
    fetchQuestions id none offlineBank id scienceSettings
      (.body { response_code := some 5, results := none }) = [] ∧
    fetchQuestions id none offlineBank id scienceSettings
      (.body { response_code := some 0,
               results := some [⟨"Q", "A", ["B", "C", "D"], "General", "easy"⟩] }) =
      [⟨"Q", "A", ["B", "C", "D"], "General", "easy"⟩] :=
  ⟨(fetchQuestions_spec id none offlineBank id scienceSettings
      { response_code := some 0, results := none }).2.2.1 rfl rfl,
   (fetchQuestions_spec id none offlineBank id scienceSettings
      { response_code := some 5, results := none }).2.2.2.1 (by decide),
   (fetchQuestions_spec id none offlineBank id scienceSettings
      { response_code := some 0,
        results := some [⟨"Q", "A", ["B", "C", "D"], "General", "easy"⟩] }).2.2.2.2
      _ rfl rfl⟩

/-! ## Accounts -/

theorem usersLookup_account_iff (users : List (String × UserAccount)) (username : String)
    (a : UserAccount) : usersLookup users username = .account a ↔ storeGet users username = some a := by
  unfold usersLookup
  cases h : storeGet users username with
  | none => simp only; split_ifs <;> simp
  | some b => simp

/-- C19: `login` returns true exactly when the store holds an account under
the username whose password equals the given one; when it returns false the
whole state, `currentUser` and both stored entries included, is unchanged; when
it returns true `currentUser` and the stored `currentUser` entry become that
account and the `users` entry is unchanged. -/
theorem login_spec (s : App) (username password : String) :
    ((login s username password).2 = true ↔
      ∃ a : UserAccount, storeGet s.users username = some a ∧ a.password = password) ∧
    ((login s username password).2 = false → (login s username password).1 = s) ∧
    (∀ a : UserAccount, storeGet s.users username = some a → a.password = password →
      (login s username password).2 = true ∧
      (login s username password).1.currentUser = some a ∧
      (login s username password).1.storedUser = some a ∧
      (login s username password).1.users = s.users) := by
  unfold login
  cases h : usersLookup s.users username with
  | account a =>
    have hs := (usersLookup_account_iff s.users username a).mp h
    by_cases hp : a.password = password
    · simp [hs, hp]
    · simp only [hs, hp, if_false, Bool.false_eq_true, false_iff, not_exists, not_and,
        Option.some.injEq, forall_true_left, true_and]
      refine ⟨?_, ?_⟩
      · intro b hb; rw [← hb]; exact hp
      · intro b hb hbp; rw [← hb] at hbp; exact absurd hbp hp
  | inherited =>
    have hs : ∀ a, storeGet s.users username ≠ some a := by
      intro a ha
      rw [(usersLookup_account_iff s.users username a).mpr ha] at h
      exact Lookup.noConfusion h
    simp only [Bool.false_eq_true, false_iff, not_exists, not_and, forall_true_left, true_and]
    exact ⟨fun a ha => absurd ha (hs a), fun a ha => absurd ha (hs a)⟩
  | undefined =>
    have hs : ∀ a, storeGet s.users username ≠ some a := by
      intro a ha
      rw [(usersLookup_account_iff s.users username a).mpr ha] at h
      exact Lookup.noConfusion h
    simp only [Bool.false_eq_true, false_iff, not_exists, not_and, forall_true_left, true_and]
    exact ⟨fun a ha => absurd ha (hs a), fun a ha => absurd ha (hs a)⟩

/-- The sample account logging in with its password, and with a wrong one. -/
theorem login_spec_witness :
    storeGet (initialApp [("ada", sampleUser)] none true).users "ada" = some sampleUser ∧
    sampleUser.password = "pw" ∧
    (login (initialApp [("ada", sampleUser)] none true) "ada" "pw").2 = true ∧
    (login (initialApp [("ada", sampleUser)] none true) "ada" "pw").1.currentUser =
      some sampleUser ∧
    (login (initialApp [("ada", sampleUser)] none true) "ada" "wrong").2 = false ∧
    (login (initialApp [("ada", sampleUser)] none true) "ada" "wrong").1 =
      initialApp [("ada", sampleUser)] none true :=
  ⟨rfl, rfl,
    ((login_spec (initialApp [("ada", sampleUser)] none true) "ada" "pw").2.2
      sampleUser rfl rfl).1,
    ((login_spec (initialApp [("ada", sampleUser)] none true) "ada" "pw").2.2
      sampleUser rfl rfl).2.1,
    rfl,
    (login_spec (initialApp [("ada", sampleUser)] none true) "ada" "wrong").2.1 rfl⟩

/-- C20: on an empty store `signup` with the username `constructor` returns
false and stores nothing, although the store holds no account under that name:
`users["constructor"]` is the function every object inherits, and it is
truthy. -/
theorem signup_inherited_name :
    storeGet (initialApp [] none true).users "constructor" = none ∧
    (signup (initialApp [] none true) "constructor" "c@example.org" "pw").2 = false ∧
    (signup (initialApp [] none true) "constructor" "c@example.org" "pw").1 =
      initialApp [] none true ∧
    (signup (initialApp [] none true) "ada" "ada@example.org" "pw").2 = true := by
  refine ⟨by rfl, by rfl, by rfl, by rfl⟩

/-- For a username that is not an inherited property name `signup` does what
is claimed: it returns false exactly when the store holds an account under the
name, leaving the state as it is, and otherwise returns true after adding the
one fresh account at the end of the store. -/
theorem signup_of_ordinary_name (s : App) (username email password : String)
    (hn : username ∉ inheritedNames) :
    ((signup s username email password).2 = false ↔
      ∃ a : UserAccount, storeGet s.users username = some a) ∧
    ((signup s username email password).2 = false →
      (signup s username email password).1 = s) ∧
    ((signup s username email password).2 = true →
      (signup s username email password).1.users = s.users ++
        [(username, { username := username, email := email, password := password,
                      stats := newStats })] ∧
      (signup s username email password).1.currentUser = s.currentUser) := by
  unfold signup usersLookup
  cases h : storeGet s.users username with
  | some a => simp
  | none =>
    have hany : (s.users.any fun e => e.1 == username) = false := by
      unfold storeGet at h
      rw [Option.map_eq_none', List.find?_eq_none] at h
      rw [List.any_eq_false]
      exact h
    simp [hn, storePut, hany]

/-! ## Playing a quiz question by question -/

/-- The tick number `t` on a timer started at `t` runs `timeUp`. -/
theorem run_ticks_fire (s : App) (t : ℕ) (ht : s.timer = true)
    (hr : s.timeRemaining = (t : ℤ)) (hpos : 0 < t) :
    run s (ticks t) = timeUp { s with timeRemaining := 0, timer := false } := by
  obtain ⟨j, rfl⟩ : ∃ j, t = j + 1 := ⟨t - 1, by omega⟩
  rw [ticks_add, run_append, run_ticks_before j s ht (by rw [hr]; push_cast; omega), hr]
  have e1 : ((j + 1 : ℕ) : ℤ) - (j : ℤ) = 1 := by push_cast; ring
  rw [e1]
  show timerTick { s with timeRemaining := 1 } = _
  rw [timerTick_last { s with timeRemaining := 1 } ht (le_refl _)]
  rfl

theorem nextQuestion_autoProgressTimer (s : App) (now : ℤ) (sh : List String → List String) :
    nextQuestion { s with autoProgressTimer := false } now sh = nextQuestion s now sh := rfl

theorem step_advance (s : App) (r : Round) (hn : s.nextDisabled = false)
    (ha : s.autoProgressTimer = true) :
    step s r.advance = nextQuestion s r.now r.shuffle := by
  unfold Round.advance
  cases r.auto with
  | true =>
    simp only [if_true]
    rw [step_autoProgress_eq s r.now r.shuffle ha hn, nextQuestion_autoProgressTimer]
  | false =>
    simp only [Bool.false_eq_true, if_false]
    exact step_clickNext_eq s r.now r.shuffle hn

/-- From a question on display, a click on an answer button and the closure
it schedules leave the question recorded. -/
theorem answered_recorded (st s : App) (k : ℕ) (sh : List String → List String)
    (tr : ℤ) (a : String) (h : Presented st k sh s) :
    Recorded st k (run { s with timeRemaining := tr }
      [Event.clickAnswer a, Event.answerTimeout]) := by
  obtain ⟨quiz0, quiz, question, h1, hq, h3, h4, h5, h6, hi, h8, had, hnd, hp, htm, htr, hsc,
    hcu, hus, hsu, hres, hqs⟩ := h
  obtain ⟨cu, cq, idx, sc, tm, tr0, qst, au, stale, pend, btns, ad, nd, res, us, su⟩ := s
  simp only at hq h6 h8 had hnd hp htm htr hsc hcu hus hsu hres hqs
  subst hq h6 had hnd hp hsc
  have hlt : idx < quiz.questions.length := by
    by_contra hcon
    rw [List.getElem?_eq_none (by omega)] at hi
    exact Option.noConfusion hi
  cases hc : decide (a = question.correct) with
  | true =>
    simp only [run, List.foldl, step, selectAnswer, selectAnswerTimeout, startAutoProgress,
      Bool.false_eq_true, if_false, hi, List.nil_append, hc, if_true]
    refine ⟨quiz0, _, h1, rfl, h3, h4, ?_, rfl, hlt, rfl, rfl, rfl, ?_, hcu, hus, hsu, hres, hqs⟩
    · simp [h5]
    · simp only [correctCount_append, if_true]
  | false =>
    simp only [run, List.foldl, step, selectAnswer, selectAnswerTimeout, startAutoProgress,
      Bool.false_eq_true, if_false, hi, List.nil_append, hc]
    refine ⟨quiz0, _, h1, rfl, h3, h4, ?_, rfl, hlt, rfl, rfl, rfl, ?_, hcu, hus, hsu, hres, hqs⟩
    · simp [h5]
    · simp only [correctCount_append, Bool.false_eq_true, if_false, Nat.add_zero]

/-- From a question on display, `timeUp` with the timer cleared leaves the
question recorded. -/
theorem timedOut_recorded (st s : App) (k : ℕ) (sh : List String → List String)
    (tr : ℤ) (h : Presented st k sh s) :
    Recorded st k (timeUp { s with timeRemaining := tr, timer := false }) := by
  obtain ⟨quiz0, quiz, question, h1, hq, h3, h4, h5, h6, hi, h8, had, hnd, hp, htm, htr, hsc,
    hcu, hus, hsu, hres, hqs⟩ := h
  obtain ⟨cu, cq, idx, sc, tm, tr0, qst, au, stale, pend, btns, ad, nd, res, us, su⟩ := s
  simp only at hq h6 h8 had hnd hp htm htr hsc hcu hus hsu hres hqs
  subst hq h6 had hnd hp hsc
  have hlt : idx < quiz.questions.length := by
    by_contra hcon
    rw [List.getElem?_eq_none (by omega)] at hi
    exact Option.noConfusion hi
  simp only [timeUp, startAutoProgress, hi]
  refine ⟨quiz0, _, h1, rfl, h3, h4, ?_, rfl, hlt, rfl, rfl, rfl, ?_, hcu, hus, hsu, hres, hqs⟩
  · simp [h5]
  · simp only [correctCount_append, Bool.false_eq_true, if_false, Nat.add_zero]

/-- The first part of a round that fits the time limit records the question
on display. -/
theorem answerEvents_recorded (st s : App) (k : ℕ) (sh : List String → List String)
    (r : Round) (tpq : ℤ) (h : Presented st k sh s)
    (htq : ∀ quiz, s.currentQuiz = some quiz → quiz.settings.timePerQuestion = tpq)
    (hw : r.WellTimed tpq) :
    Recorded st k (run s (r.answerEvents tpq)) := by
  have h' := h
  obtain ⟨quiz0, quiz, question, h1, hq, h3, h4, h5, h6, hi, h8, had, hnd, hp, htm, htr, hsc,
    hcu, hus, hsu, hres, hqs⟩ := h'
  have ht := htq quiz hq
  rw [ht] at htm htr
  unfold Round.answerEvents
  unfold Round.WellTimed at hw
  cases ha : r.answer with
  | some a =>
    rw [ha] at hw
    simp only at hw ⊢
    have hticks : ∃ tr, run s (ticks r.wait) = { s with timeRemaining := tr } := by
      rcases hw with h0 | h0 | hlt
      · refine ⟨s.timeRemaining, ?_⟩
        rw [run_ticks_of_timer_false r.wait s (by rw [htm, h0]; rfl)]
      · refine ⟨s.timeRemaining, ?_⟩
        rw [h0]; rfl
      · have hne : tpq ≠ 0 := by omega
        refine ⟨s.timeRemaining - r.wait, ?_⟩
        exact run_ticks_before r.wait s (by rw [htm]; simp [hne]) (by rw [htr hne]; exact hlt)
    obtain ⟨tr, htr'⟩ := hticks
    rw [run_append, htr']
    exact answered_recorded st s k sh tr a h
  | none =>
    rw [ha] at hw
    simp only at hw ⊢
    have htimer : s.timer = true := by rw [htm]; simp [hw]
    rcases lt_or_gt_of_ne hw with hneg | hpos
    · have e1 : (max tpq 1).toNat = 1 := by
        rw [max_eq_right (by omega)]; rfl
      rw [e1]
      have e2 : run s (ticks 1) = timerTick s := rfl
      rw [e2, timerTick_last s htimer (by rw [htr hw]; omega)]
      exact timedOut_recorded st s k sh _ h
    · have e1 : max tpq 1 = tpq := max_eq_left (by omega)
      rw [e1, run_ticks_fire s tpq.toNat htimer (by rw [htr hw]; omega) (by omega)]
      exact timedOut_recorded st s k sh 0 h

/-- With a further question to come, advancing from a recorded question puts
the next question on display. -/
theorem advance_presented (st s : App) (k : ℕ) (r : Round) (h : Recorded st k s)
    (hnext : ∀ quiz, s.currentQuiz = some quiz → k + 1 < quiz.questions.length) :
    Presented st (k + 1) r.shuffle (step s r.advance) := by
  obtain ⟨quiz0, quiz, h1, hq, h3, h4, h5, h6, hlt, hnd, hau, hp, hsc, hcu, hus, hsu, hres,
    hqs⟩ := h
  rw [step_advance s r hnd hau]
  have hn := hnext quiz hq
  obtain ⟨cu, cq, idx, sc, tm, tr0, qst, au, stale, pend, btns, ad, nd, res, us, su⟩ := s
  simp only at hq h6 hnd hau hp hsc hcu hus hsu hres hqs
  subst hq h6 hnd hau hp hsc
  have hi : quiz.questions[idx + 1]? = some quiz.questions[idx + 1] :=
    List.getElem?_eq_getElem hn
  have hge : ¬ idx + 1 ≥ quiz.questions.length := by omega
  simp only [nextQuestion, hge, if_false]
  rw [displayQuestion_eq _ quiz quiz.questions[idx + 1] r.shuffle rfl hi]
  refine ⟨quiz0, quiz, quiz.questions[idx + 1], h1, rfl, h3, h4, h5, rfl, hi, rfl, rfl, rfl, rfl,
    rfl, ?_, rfl, hcu, hus, hsu, hres, hqs⟩
  intro hne
  simp only [hne, if_false]

/-- On the last question, advancing from a recorded question ends the quiz and
reconciles it once. -/
theorem advance_finished (st s : App) (k : ℕ) (r : Round) (u : UserAccount)
    (h : Recorded st k s)
    (hlast : ∀ quiz, s.currentQuiz = some quiz → k + 1 = quiz.questions.length)
    (hu : st.currentUser = some u) :
    Finished st u r.now (step s r.advance) := by
  obtain ⟨quiz0, quiz, h1, hq, h3, h4, h5, h6, hlt, hnd, hau, hp, hsc, hcu, hus, hsu, hres,
    hqs⟩ := h
  rw [step_advance s r hnd hau]
  have hn := hlast quiz hq
  obtain ⟨cu, cq, idx, sc, tm, tr0, qst, au, stale, pend, btns, ad, nd, res, us, su⟩ := s
  simp only at hq h6 hnd hau hp hsc hcu hus hsu hres hqs
  subst hq h6 hnd hau hp hsc
  have hge : idx + 1 ≥ quiz.questions.length := by omega
  have hlen : quiz.questions.length ≠ 0 := by omega
  simp only [nextQuestion, hge, if_true]
  obtain ⟨e1, e2, e3, e4, e5, e6, e7, e8⟩ := endQuiz_state
    ⟨cu, some quiz, idx + 1, correctCount quiz.answers, tm, tr0, qst, false, stale, [], btns, ad,
      false, res, us, su⟩ quiz u r.now rfl hlen (hcu.trans hu)
  simp only at e1 e2 e3 e4 e6 e7 e8
  refine ⟨quiz0, quiz, h1, e5, h3, h4, ?_, ?_, e6, ?_, ?_, e3, ?_⟩
  · omega
  · rw [e8]; exact hn
  · rw [e1, e6, hqs]
  · rw [e2, e6, hqs]
  · rw [e4, e6, hqs, hus]

theorem playRounds_append (tpq : ℤ) (rs : List Round) (r : Round) :
    playRounds tpq (rs ++ [r]) = playRounds tpq rs ++ r.events tpq := by
  unfold playRounds
  simp

theorem lastShuffle_append (sh0 : List String → List String) (rs : List Round) (r : Round) :
    lastShuffle sh0 (rs ++ [r]) = r.shuffle := by
  unfold lastShuffle
  rw [List.getLast?_append_of_ne_nil _ (by simp)]
  rfl

/-- The state `startQuiz` leaves has the first question on display. -/
theorem startQuiz_presented (s0 : App) (settings : QuizSettings)
    (questions : List QuestionRecord) (now0 : ℤ) (sh0 : List String → List String)
    (h0 : s0.pendingAnswers = []) (hne : questions ≠ []) :
    Presented (startQuiz s0 settings questions now0 sh0) 0 sh0
      (startQuiz s0 settings questions now0 sh0) ∧
    (startQuiz s0 settings questions now0 sh0).currentQuiz =
      some { questions := questions, settings := settings, answers := [],
             startTime := now0, offline := false } ∧
    (startQuiz s0 settings questions now0 sh0).currentUser = s0.currentUser ∧
    (startQuiz s0 settings questions now0 sh0).users = s0.users ∧
    (startQuiz s0 settings questions now0 sh0).storedUser = s0.storedUser ∧
    (startQuiz s0 settings questions now0 sh0).results = s0.results ∧
    (startQuiz s0 settings questions now0 sh0).quizStartTime = now0 := by
  have hlen : 0 < questions.length := List.length_pos.mpr hne
  have hi : questions[0]? = some questions[0] := List.getElem?_eq_getElem hlen
  have hst : startQuiz s0 settings questions now0 sh0 =
      displayQuestion
        { s0 with
          currentQuiz := some
            { questions := questions, settings := settings, answers := [],
              startTime := now0, offline := false }
          currentQuestionIndex := 0
          score := 0
          quizStartTime := now0 } sh0 := by
    unfold startQuiz
    rw [if_neg (by omega)]
  rw [hst, displayQuestion_eq _ _ questions[0] sh0 rfl hi]
  refine ⟨⟨_, _, questions[0], rfl, rfl, rfl, rfl, rfl, rfl, hi, rfl, rfl, rfl, h0, rfl, ?_, rfl,
    rfl, rfl, rfl, rfl, rfl⟩, rfl, rfl, rfl, rfl, rfl, rfl⟩
  intro hne0
  simp only [hne0, if_false]

/-- After `k` rounds that fit the time limit, with questions left, question
`k` is on display. -/
theorem playRounds_presented (s0 : App) (settings : QuizSettings)
    (questions : List QuestionRecord) (now0 : ℤ) (sh0 : List String → List String)
    (h0 : s0.pendingAnswers = []) (hne : questions ≠ []) (rs : List Round)
    (hw : ∀ x ∈ rs, x.WellTimed settings.timePerQuestion)
    (hk : rs.length < questions.length) :
    Presented (startQuiz s0 settings questions now0 sh0) rs.length (lastShuffle sh0 rs)
      (run (startQuiz s0 settings questions now0 sh0)
        (playRounds settings.timePerQuestion rs)) := by
  obtain ⟨hp0, hq0, _⟩ := startQuiz_presented s0 settings questions now0 sh0 h0 hne
  induction rs using List.reverseRecOn with
  | nil => exact hp0
  | append_singleton rs r ih =>
    have hk' : rs.length < questions.length := by
      rw [List.length_append, List.length_singleton] at hk; omega
    have hp := ih (fun x hx => hw x (List.mem_append_left _ hx)) hk'
    have hwr := hw r (by simp)
    rw [playRounds_append, run_append, lastShuffle_append, List.length_append,
      List.length_singleton]
    unfold Round.events
    rw [run_append]
    have hsame : ∀ quiz, (run (startQuiz s0 settings questions now0 sh0)
        (playRounds settings.timePerQuestion rs)).currentQuiz = some quiz →
        quiz.settings = settings ∧ quiz.questions = questions := by
      intro quiz hq
      obtain ⟨quiz0, quiz', _, h1, h2, h3, h4, _⟩ := hp
      rw [hq0] at h1
      rw [h2] at hq
      cases hq
      cases h1
      exact ⟨h4, h3⟩
    have hrec := answerEvents_recorded _ _ rs.length _ r settings.timePerQuestion hp
      (fun quiz hq => by rw [(hsame quiz hq).1]) hwr
    have hsame2 : ∀ quiz, (run (run (startQuiz s0 settings questions now0 sh0)
        (playRounds settings.timePerQuestion rs))
        (r.answerEvents settings.timePerQuestion)).currentQuiz = some quiz →
        quiz.questions = questions := by
      intro quiz hq
      obtain ⟨quiz0, quiz', h1, h2, h3, _⟩ := hrec
      rw [hq0] at h1
      rw [h2] at hq
      cases hq
      cases h1
      exact h3
    have e : run (run (run (startQuiz s0 settings questions now0 sh0)
        (playRounds settings.timePerQuestion rs))
        (r.answerEvents settings.timePerQuestion)) [r.advance] =
        step (run (run (startQuiz s0 settings questions now0 sh0)
          (playRounds settings.timePerQuestion rs))
          (r.answerEvents settings.timePerQuestion)) r.advance := rfl
    rw [e]
    apply advance_presented _ _ rs.length r hrec
    intro quiz hq
    rw [hsame2 quiz hq]
    rw [List.length_append, List.length_singleton] at hk
    exact hk

/-- The last of `n` rounds that fit the time limit ends the quiz. -/
theorem playRounds_finished (s0 : App) (settings : QuizSettings)
    (questions : List QuestionRecord) (now0 : ℤ) (sh0 : List String → List String)
    (u : UserAccount) (h0 : s0.pendingAnswers = []) (hne : questions ≠ [])
    (hu : s0.currentUser = some u) (rs : List Round) (r : Round)
    (hw : ∀ x ∈ rs, x.WellTimed settings.timePerQuestion)
    (hwr : r.WellTimed settings.timePerQuestion)
    (hk : rs.length + 1 = questions.length) :
    Finished (startQuiz s0 settings questions now0 sh0) u r.now
      (run (startQuiz s0 settings questions now0 sh0)
        (playRounds settings.timePerQuestion (rs ++ [r]))) := by
  obtain ⟨hp0, hq0, hcu0, _⟩ := startQuiz_presented s0 settings questions now0 sh0 h0 hne
  have hp := playRounds_presented s0 settings questions now0 sh0 h0 hne rs hw (by omega)
  rw [playRounds_append, run_append]
  unfold Round.events
  rw [run_append]
  have hsame : ∀ quiz, (run (startQuiz s0 settings questions now0 sh0)
      (playRounds settings.timePerQuestion rs)).currentQuiz = some quiz →
      quiz.settings = settings ∧ quiz.questions = questions := by
    intro quiz hq
    obtain ⟨quiz0, quiz', _, h1, h2, h3, h4, _⟩ := hp
    rw [hq0] at h1
    rw [h2] at hq
    cases hq
    cases h1
    exact ⟨h4, h3⟩
  have hrec := answerEvents_recorded _ _ rs.length _ r settings.timePerQuestion hp
    (fun quiz hq => by rw [(hsame quiz hq).1]) hwr
  have hsame2 : ∀ quiz, (run (run (startQuiz s0 settings questions now0 sh0)
      (playRounds settings.timePerQuestion rs))
      (r.answerEvents settings.timePerQuestion)).currentQuiz = some quiz →
      quiz.questions = questions := by
    intro quiz hq
    obtain ⟨quiz0, quiz', h1, h2, h3, _⟩ := hrec
    rw [hq0] at h1
    rw [h2] at hq
    cases hq
    cases h1
    exact h3
  have e : run (run (run (startQuiz s0 settings questions now0 sh0)
      (playRounds settings.timePerQuestion rs))
      (r.answerEvents settings.timePerQuestion)) [r.advance] =
      step (run (run (startQuiz s0 settings questions now0 sh0)
        (playRounds settings.timePerQuestion rs))
        (r.answerEvents settings.timePerQuestion)) r.advance := rfl
  rw [e]
  apply advance_finished _ _ rs.length r u hrec
  · intro quiz hq
    rw [hsame2 quiz hq]
    exact hk
  · rw [hcu0]; exact hu

/-- C14: in a session of `n >= 1` questions (from `startQuiz`, no closure of an
earlier quiz pending, a user logged in) played round by round, each question
answered or timed out before the quiz advances by a click or by the
auto-progress: after `k < n` rounds the index is `k`, there are `k` records,
question `k` is on display with its buttons enabled and the next button
disabled, and the accounts and the results screen are as `startQuiz` found
them (the quiz has not ended); after the `n`-th round the index is `n`, there
are `n` records, the summary is on the results screen and has been folded into
the account exactly once (`totalQuizzes` has grown by one). -/
theorem rounds_advance (s0 : App) (settings : QuizSettings)
    (questions : List QuestionRecord) (now0 : ℤ) (sh0 : List String → List String)
    (u : UserAccount) (rs : List Round) (r : Round)
    (h0 : s0.pendingAnswers = []) (hne : questions ≠ [])
    (hu : s0.currentUser = some u)
    (hw : ∀ x ∈ rs, x.WellTimed settings.timePerQuestion)
    (hwr : r.WellTimed settings.timePerQuestion) :
    (rs.length < questions.length →
      (run (startQuiz s0 settings questions now0 sh0)
        (playRounds settings.timePerQuestion rs)).currentQuestionIndex = rs.length ∧
      answersLength (run (startQuiz s0 settings questions now0 sh0)
        (playRounds settings.timePerQuestion rs)) = rs.length ∧
      (∃ question : QuestionRecord, questions[rs.length]? = some question ∧
        (run (startQuiz s0 settings questions now0 sh0)
        (playRounds settings.timePerQuestion rs)).answersHTML =
          answerMarkup (lastShuffle sh0 rs (question.correct :: question.incorrect))) ∧
      (run (startQuiz s0 settings questions now0 sh0)
        (playRounds settings.timePerQuestion rs)).answersDisabled = false ∧
      (run (startQuiz s0 settings questions now0 sh0)
        (playRounds settings.timePerQuestion rs)).nextDisabled = true ∧
      (run (startQuiz s0 settings questions now0 sh0)
        (playRounds settings.timePerQuestion rs)).currentUser = some u ∧
      (run (startQuiz s0 settings questions now0 sh0)
        (playRounds settings.timePerQuestion rs)).users = s0.users ∧
      (run (startQuiz s0 settings questions now0 sh0)
        (playRounds settings.timePerQuestion rs)).storedUser = s0.storedUser ∧
      (run (startQuiz s0 settings questions now0 sh0)
        (playRounds settings.timePerQuestion rs)).results = s0.results) ∧
    (rs.length + 1 = questions.length →
      (run (startQuiz s0 settings questions now0 sh0)
        (playRounds settings.timePerQuestion (rs ++ [r]))).currentQuestionIndex = questions.length ∧
      answersLength (run (startQuiz s0 settings questions now0 sh0)
        (playRounds settings.timePerQuestion (rs ++ [r]))) = questions.length ∧
      (run (startQuiz s0 settings questions now0 sh0)
        (playRounds settings.timePerQuestion (rs ++ [r]))).results =
        some (quizSummary settings.difficulty
          (run (startQuiz s0 settings questions now0 sh0)
        (playRounds settings.timePerQuestion (rs ++ [r]))).score questions.length r.now now0) ∧
      (run (startQuiz s0 settings questions now0 sh0)
        (playRounds settings.timePerQuestion (rs ++ [r]))).currentUser =
        some (accountAfterQuiz u settings.category r.now
          (quizSummary settings.difficulty
            (run (startQuiz s0 settings questions now0 sh0)
        (playRounds settings.timePerQuestion (rs ++ [r]))).score questions.length r.now now0)) ∧
      (∃ u1 : UserAccount,
        (run (startQuiz s0 settings questions now0 sh0)
        (playRounds settings.timePerQuestion (rs ++ [r]))).currentUser = some u1 ∧
        u1.stats.totalQuizzes = u.stats.totalQuizzes + 1) ∧
      (run (startQuiz s0 settings questions now0 sh0)
        (playRounds settings.timePerQuestion (rs ++ [r]))).users =
        storePut s0.users u.username (accountAfterQuiz u settings.category r.now
          (quizSummary settings.difficulty
            (run (startQuiz s0 settings questions now0 sh0)
        (playRounds settings.timePerQuestion (rs ++ [r]))).score questions.length r.now now0))) := by
  obtain ⟨_, hq0, hcu0, hus0, hsu0, hres0, hqs0⟩ :=
    startQuiz_presented s0 settings questions now0 sh0 h0 hne
  refine ⟨?_, ?_⟩
  · intro hk
    obtain ⟨quiz0, quiz, question, h1, hq, h3, h4, h5, h6, hi, h8, had, hnd, hp, htm, htr, hsc,
      hcu, hus, hsu, hres, hqs⟩ :=
      playRounds_presented s0 settings questions now0 sh0 h0 hne rs hw hk
    rw [hq0] at h1
    cases h1
    simp only at h3 h4
    refine ⟨h6, ?_, ⟨question, ?_, h8⟩, had, hnd, ?_, ?_, ?_, ?_⟩
    · simp [answersLength, hq, h5]
    · rw [← h3]; exact hi
    · rw [hcu, hcu0]; exact hu
    · rw [hus, hus0]
    · rw [hsu, hsu0]
    · rw [hres, hres0]
  · intro hk
    obtain ⟨quiz0, quiz, h1, hq, h3, h4, h5, h6, hsc, hres, hcu, hsu, hus⟩ :=
      playRounds_finished s0 settings questions now0 sh0 u h0 hne hu rs r hw hwr hk
    rw [hq0] at h1
    cases h1
    simp only at h3 h4
    rw [h3, h4, hqs0] at hres hcu
    rw [h3, h4, hqs0, hus0] at hus
    rw [h3] at h5 h6
    refine ⟨h6, ?_, hres, hcu, ⟨_, hcu, ?_⟩, hus⟩
    · simp [answersLength, hq, h5]
    · simp [accountAfterQuiz, updateStats]

theorem parisRound_wellTimed : parisRound.WellTimed scienceSettings.timePerQuestion :=
  Or.inr (Or.inr (by decide))

theorem silentRound_wellTimed : silentRound.WellTimed scienceSettings.timePerQuestion := by
  show scienceSettings.timePerQuestion ≠ 0
  decide

/-- The two sample questions: the first answered after three seconds, the
second timed out. -/
theorem rounds_advance_witness :
    sampleApp.pendingAnswers = [] ∧ sampleQuestions ≠ [] ∧
    sampleApp.currentUser = some sampleUser ∧
    (∀ x ∈ [parisRound], x.WellTimed scienceSettings.timePerQuestion) ∧
    silentRound.WellTimed scienceSettings.timePerQuestion ∧
    [parisRound].length < sampleQuestions.length ∧
    [parisRound].length + 1 = sampleQuestions.length ∧
    (run (startQuiz sampleApp scienceSettings sampleQuestions 0 id)
      (playRounds scienceSettings.timePerQuestion [parisRound])).currentQuestionIndex =
        [parisRound].length ∧
    (run (startQuiz sampleApp scienceSettings sampleQuestions 0 id)
      (playRounds scienceSettings.timePerQuestion [parisRound])).results = sampleApp.results ∧
    (run (startQuiz sampleApp scienceSettings sampleQuestions 0 id)
      (playRounds scienceSettings.timePerQuestion
        ([parisRound] ++ [silentRound]))).currentQuestionIndex = sampleQuestions.length ∧
    (∃ u1 : UserAccount,
      (run (startQuiz sampleApp scienceSettings sampleQuestions 0 id)
        (playRounds scienceSettings.timePerQuestion
          ([parisRound] ++ [silentRound]))).currentUser = some u1 ∧
      u1.stats.totalQuizzes = sampleUser.stats.totalQuizzes + 1) :=
  ⟨rfl, by decide, rfl,
    fun x hx => (List.mem_singleton.mp hx) ▸ parisRound_wellTimed,
    silentRound_wellTimed, by decide, by decide,
    ((rounds_advance sampleApp scienceSettings sampleQuestions 0 id sampleUser [parisRound]
      silentRound rfl (by decide) rfl
      (fun x hx => (List.mem_singleton.mp hx) ▸ parisRound_wellTimed)
      silentRound_wellTimed).1 (by decide)).1,
    ((rounds_advance sampleApp scienceSettings sampleQuestions 0 id sampleUser [parisRound]
      silentRound rfl (by decide) rfl
      (fun x hx => (List.mem_singleton.mp hx) ▸ parisRound_wellTimed)
      silentRound_wellTimed).1 (by decide)).2.2.2.2.2.2.2.2,
    ((rounds_advance sampleApp scienceSettings sampleQuestions 0 id sampleUser [parisRound]
      silentRound rfl (by decide) rfl
      (fun x hx => (List.mem_singleton.mp hx) ▸ parisRound_wellTimed)
      silentRound_wellTimed).2 (by decide)).1,
    ((rounds_advance sampleApp scienceSettings sampleQuestions 0 id sampleUser [parisRound]
      silentRound rfl (by decide) rfl
      (fun x hx => (List.mem_singleton.mp hx) ▸ parisRound_wellTimed)
      silentRound_wellTimed).2 (by decide)).2.2.2.2.1⟩

/-! ## Bounds and monotonicity of the award -/

theorem speedBonus_antitone (t t' : ℤ) (h : t' ≤ t) : speedBonus t ≤ speedBonus t' := by
  unfold speedBonus
  split_ifs <;> omega

theorem speedBonus_bounds (t : ℤ) : 0 ≤ speedBonus t ∧ speedBonus t ≤ 50 := by
  unfold speedBonus
  split_ifs <;> omega

/-- C22: for every difficulty `calculatePoints` is monotone: a percentage at
least as high and an elapsed time at most as long never give fewer points; and
for a percentage from 0 to 100 the award lies between 0 and 2100, the upper
bound being reached by 100 percent in under a minute on `hard`. -/
theorem calculatePoints_monotone (d : Option String) (p p' t t' : ℤ)
    (hp : p ≤ p') (ht : t' ≤ t) :
    calculatePoints d p t ≤ calculatePoints d p' t' ∧
    (0 ≤ p → p ≤ 100 → 0 ≤ calculatePoints d p t ∧ calculatePoints d p t ≤ 2100) ∧
    calculatePoints (some "hard") 100 59 = 2100 := by
  have hb := speedBonus_antitone t t' ht
  have hsum : 10 * p + speedBonus t ≤ 10 * p' + speedBonus t' := by omega
  refine ⟨?_, ?_, ?_⟩
  · rw [calculatePoints_eq, calculatePoints_eq]
    split_ifs
    · omega
    · exact Int.ediv_le_ediv (by decide) (by omega)
    · exact hsum
  · intro h0 h100
    obtain ⟨b0, b50⟩ := speedBonus_bounds t
    rw [calculatePoints_eq]
    split_ifs
    · constructor <;> omega
    · constructor <;> omega
    · constructor <;> omega
  · rw [calculatePoints_eq]; decide

/-- A better and faster quiz on `medium`, and the range at 77 percent. -/
theorem calculatePoints_monotone_witness :
    (70 : ℤ) ≤ 77 ∧ (100 : ℤ) ≤ 130 ∧ (0 : ℤ) ≤ 70 ∧ (70 : ℤ) ≤ 100 ∧
    calculatePoints (some "medium") 70 130 ≤ calculatePoints (some "medium") 77 100 ∧
    0 ≤ calculatePoints (some "medium") 70 130 ∧
    calculatePoints (some "medium") 70 130 ≤ 2100 :=
  ⟨by decide, by decide, by decide, by decide,
    (calculatePoints_monotone (some "medium") 70 77 130 100 (by decide) (by decide)).1,
    (calculatePoints_monotone (some "medium") 70 77 130 100 (by decide) (by decide)).2.1
      (by decide) (by decide)⟩

/-! ## The percentage of `endQuiz` in general -/

theorem roundHalfEven_le_floor_add_one (q : ℚ) : roundHalfEven q ≤ ⌊q⌋ + 1 := by
  unfold roundHalfEven
  simp only
  split_ifs <;> omega

theorem roundHalfEven_intCast (k : ℤ) : roundHalfEven (k : ℚ) = k := by
  unfold roundHalfEven
  simp

/-- Rounding to the nearest integer is monotone. -/
theorem roundHalfEven_mono (q q' : ℚ) (h : q ≤ q') : roundHalfEven q ≤ roundHalfEven q' := by
  have hf : ⌊q⌋ ≤ ⌊q'⌋ := Int.floor_mono h
  rcases lt_or_eq_of_le hf with hlt | heq
  · calc roundHalfEven q ≤ ⌊q⌋ + 1 := roundHalfEven_le_floor_add_one q
      _ ≤ ⌊q'⌋ := by omega
      _ ≤ roundHalfEven q' := floor_le_roundHalfEven q'
  · have hsub : q - ⌊q⌋ ≤ q' - ⌊q'⌋ := by rw [heq]; linarith
    unfold roundHalfEven
    simp only
    rw [heq] at hsub ⊢
    split_ifs <;> first | omega | (exfalso; linarith)

theorem roundHalfEven_le_of_le_intCast (q : ℚ) (k : ℤ) (h : q ≤ k) : roundHalfEven q ≤ k := by
  have := roundHalfEven_mono q k h
  rwa [roundHalfEven_intCast] at this

theorem le_roundHalfEven_of_intCast_le (q : ℚ) (k : ℤ) (h : (k : ℚ) ≤ q) : k ≤ roundHalfEven q := by
  have := roundHalfEven_mono k q h
  rwa [roundHalfEven_intCast] at this

theorem toDouble_nonneg (q : ℚ) : 0 ≤ toDouble q := by
  unfold toDouble
  split_ifs with h
  · exact le_refl _
  · have hq : 0 < q := not_le.mp h
    have hpos : (0 : ℚ) < 2 ^ (Int.log 2 q - 52) := by positivity
    have h0 : (0 : ℤ) ≤ roundHalfEven (q / 2 ^ (Int.log 2 q - 52)) :=
      le_roundHalfEven_of_intCast_le _ 0 (by push_cast; positivity)
    have h1 : (0 : ℚ) ≤ (roundHalfEven (q / 2 ^ (Int.log 2 q - 52)) : ℚ) := by exact_mod_cast h0
    exact mul_nonneg h1 hpos.le

/-- A positive number rounds to a double inside its binade. -/
theorem toDouble_binade (q : ℚ) (hq : 0 < q) :
    (2 : ℚ) ^ Int.log 2 q ≤ toDouble q ∧ toDouble q ≤ 2 ^ (Int.log 2 q + 1) := by
  have hlo : (2 : ℚ) ^ Int.log 2 q ≤ q := Int.zpow_log_le_self (by norm_num) hq
  have hhi : q < (2 : ℚ) ^ (Int.log 2 q + 1) := Int.lt_zpow_succ_log_self (by norm_num) q
  have hpe : (0 : ℚ) < 2 ^ (Int.log 2 q - 52) := by positivity
  have htd : toDouble q =
      (roundHalfEven (q / 2 ^ (Int.log 2 q - 52)) : ℚ) * 2 ^ (Int.log 2 q - 52) := by
    unfold toDouble
    rw [if_neg (not_le.mpr hq)]
  have e1 : (2 : ℚ) ^ Int.log 2 q = ((2 ^ 52 : ℤ) : ℚ) * 2 ^ (Int.log 2 q - 52) := by
    have e : (2 : ℚ) ^ Int.log 2 q = 2 ^ (52 : ℤ) * 2 ^ (Int.log 2 q - 52) := by
      rw [← zpow_add₀ (by norm_num)]
      congr 1
      ring
    rw [e]
    norm_num
  have e2 : (2 : ℚ) ^ (Int.log 2 q + 1) = ((2 ^ 53 : ℤ) : ℚ) * 2 ^ (Int.log 2 q - 52) := by
    have e : (2 : ℚ) ^ (Int.log 2 q + 1) = 2 ^ (53 : ℤ) * 2 ^ (Int.log 2 q - 52) := by
      rw [← zpow_add₀ (by norm_num)]
      congr 1
      ring
    rw [e]
    norm_num
  rw [htd, e1, e2]
  constructor
  · apply mul_le_mul_of_nonneg_right _ hpe.le
    have : ((2 ^ 52 : ℤ) : ℚ) ≤ q / 2 ^ (Int.log 2 q - 52) := by
      rw [le_div_iff₀ hpe, ← e1]; exact hlo
    exact_mod_cast le_roundHalfEven_of_intCast_le _ _ this
  · apply mul_le_mul_of_nonneg_right _ hpe.le
    have : q / 2 ^ (Int.log 2 q - 52) ≤ ((2 ^ 53 : ℤ) : ℚ) := by
      rw [div_le_iff₀ hpe, ← e2]; exact hhi.le
    exact_mod_cast roundHalfEven_le_of_le_intCast _ _ this

/-- Rounding to the nearest double is monotone. -/
theorem toDouble_mono (x y : ℚ) (h : x ≤ y) : toDouble x ≤ toDouble y := by
  rcases le_or_lt x 0 with hx | hx
  · have : toDouble x = 0 := by unfold toDouble; rw [if_pos hx]
    rw [this]; exact toDouble_nonneg y
  have hy : 0 < y := lt_of_lt_of_le hx h
  have hlog : Int.log 2 x ≤ Int.log 2 y := Int.log_mono_right hx h
  rcases lt_or_eq_of_le hlog with hlt | heq
  · have hxb := (toDouble_binade x hx).2
    have hyb := (toDouble_binade y hy).1
    have hpow : (2 : ℚ) ^ (Int.log 2 x + 1) ≤ 2 ^ Int.log 2 y :=
      zpow_le_zpow_right₀ (by norm_num) (by omega)
    linarith
  · have hpe : (0 : ℚ) < 2 ^ (Int.log 2 y - 52) := by positivity
    unfold toDouble
    rw [if_neg (not_le.mpr hx), if_neg (not_le.mpr hy), heq]
    apply mul_le_mul_of_nonneg_right _ hpe.le
    have hdiv : x / 2 ^ (Int.log 2 y - 52) ≤ y / 2 ^ (Int.log 2 y - 52) :=
      div_le_div_of_nonneg_right h hpe.le
    exact_mod_cast roundHalfEven_mono _ _ hdiv

theorem toDouble_zero : toDouble 0 = 0 := by
  unfold toDouble
  simp

theorem toDouble_one : toDouble 1 = 1 := by
  have h := toDouble_eq 1 0 (2 ^ 52) (by norm_num) (by norm_num)
    (by
      have e : (1 : ℚ) / 2 ^ ((0 : ℤ) - 52) = ((2 ^ 52 : ℤ) : ℚ) := by norm_num
      rw [e, roundHalfEven_intCast])
  rw [h]; norm_num

theorem toDouble_hundred : toDouble 100 = 100 := by
  have h := toDouble_eq 100 6 (100 * 2 ^ 46) (by norm_num) (by norm_num)
    (by
      have e : (100 : ℚ) / 2 ^ ((6 : ℤ) - 52) = ((100 * 2 ^ 46 : ℤ) : ℚ) := by norm_num
      rw [e, roundHalfEven_intCast])
  rw [h]; norm_num

theorem mathRound_mono (x y : ℚ) (h : x ≤ y) : mathRound x ≤ mathRound y := by
  unfold mathRound
  exact Int.floor_mono (by linarith)

theorem mathRound_intCast (k : ℤ) : mathRound (k : ℚ) = k := by
  unfold mathRound
  rw [Int.floor_eq_iff]
  constructor <;> linarith

/-- The percentage is monotone in the score. -/
theorem quizPercentage_mono (s s' t : ℕ) (h : s ≤ s') :
    quizPercentage s t ≤ quizPercentage s' t := by
  unfold quizPercentage
  apply mathRound_mono
  apply toDouble_mono
  apply mul_le_mul_of_nonneg_right _ (by norm_num)
  apply toDouble_mono
  apply div_le_div_of_nonneg_right _ (Nat.cast_nonneg t)
  exact_mod_cast h

theorem quizPercentage_zero (t : ℕ) : quizPercentage 0 t = 0 := by
  unfold quizPercentage
  simp only [Nat.cast_zero, zero_div, toDouble_zero, zero_mul]
  exact_mod_cast mathRound_intCast 0

theorem quizPercentage_full (t : ℕ) (ht : 1 ≤ t) : quizPercentage t t = 100 := by
  unfold quizPercentage
  have hne : (t : ℚ) ≠ 0 := by
    have : (0 : ℚ) < t := by exact_mod_cast ht
    exact this.ne'
  rw [div_self hne, toDouble_one, one_mul, toDouble_hundred]
  exact_mod_cast mathRound_intCast 100

/-- C21: with at least one question and a score between 0 and the number of
questions, the percentage of `endQuiz` is an integer from 0 to 100, it is 0
for no correct answer and 100 for all correct, and a larger score never gives
a smaller percentage. -/
theorem quizPercentage_range (score score' total : ℕ) (ht : 1 ≤ total)
    (hs : score ≤ score') (hs' : score' ≤ total) :
    0 ≤ quizPercentage score total ∧ quizPercentage score total ≤ 100 ∧
    quizPercentage 0 total = 0 ∧ quizPercentage total total = 100 ∧
    quizPercentage score total ≤ quizPercentage score' total := by
  have h0 := quizPercentage_zero total
  have h100 := quizPercentage_full total ht
  have hlo := quizPercentage_mono 0 score total (Nat.zero_le _)
  have hhi := quizPercentage_mono score total total (le_trans hs hs')
  refine ⟨?_, ?_, h0, h100, quizPercentage_mono score score' total hs⟩
  · rw [h0] at hlo; exact hlo
  · rw [h100] at hhi; exact hhi

/-- Scores 23 and 24 out of 40 questions. -/
theorem quizPercentage_range_witness :
    1 ≤ 40 ∧ 23 ≤ 24 ∧ 24 ≤ 40 ∧
    0 ≤ quizPercentage 23 40 ∧ quizPercentage 23 40 ≤ 100 ∧
    quizPercentage 0 40 = 0 ∧ quizPercentage 40 40 = 100 ∧
    quizPercentage 23 40 ≤ quizPercentage 24 40 :=
  ⟨by decide, by decide, by decide,
    quizPercentage_range 23 24 40 (by decide) (by decide) (by decide)⟩

/-! ## The statistics over many quizzes and the dashboard -/

/-- A non-negative integer up to `2 ^ 53` is a double. -/
theorem toDouble_intCast (k : ℤ) (h0 : 0 ≤ k) (h : k ≤ 2 ^ 53) : toDouble (k : ℚ) = k := by
  rcases eq_or_lt_of_le h0 with hz | hpos
  · rw [← hz]; simpa using toDouble_zero
  rcases eq_or_lt_of_le h with he | hlt
  · rw [he]
    have h1 := toDouble_eq ((2 ^ 53 : ℤ) : ℚ) 53 (2 ^ 52) (by norm_num) (by norm_num)
      (by
        have e : (((2 ^ 53 : ℤ) : ℚ)) / 2 ^ ((53 : ℤ) - 52) = ((2 ^ 52 : ℤ) : ℚ) := by norm_num
        rw [e, roundHalfEven_intCast])
    rw [h1]; norm_num
  · have hq : (0 : ℚ) < k := by exact_mod_cast hpos
    have hlt' : (k : ℚ) < ((2 : ℕ) : ℚ) ^ (53 : ℤ) := by
      have h1 : (k : ℚ) < ((2 ^ 53 : ℤ) : ℚ) := by exact_mod_cast hlt
      have h2 : ((2 : ℕ) : ℚ) ^ (53 : ℤ) = ((2 ^ 53 : ℤ) : ℚ) := by norm_num
      rw [h2]; exact h1
    have hL : Int.log 2 (k : ℚ) < 53 :=
      (Int.lt_zpow_iff_log_lt (b := 2) (by norm_num) hq (x := 53)).1 hlt'
    obtain ⟨n, hn⟩ : ∃ n : ℕ, (n : ℤ) = 52 - Int.log 2 (k : ℚ) :=
      ⟨(52 - Int.log 2 (k : ℚ)).toNat, by omega⟩
    have he : Int.log 2 (k : ℚ) - 52 = -(n : ℤ) := by omega
    have hpow : (0 : ℚ) < 2 ^ n := by positivity
    unfold toDouble
    rw [if_neg (not_le.mpr hq)]
    simp only [he]
    have e : (k : ℚ) / 2 ^ (-(n : ℤ)) = ((k * 2 ^ n : ℤ) : ℚ) := by
      rw [zpow_neg, zpow_natCast]; push_cast; field_simp
    rw [e, roundHalfEven_intCast]
    push_cast
    rw [zpow_neg, zpow_natCast]; field_simp

theorem reconcileAll_append_singleton (st : UserStats) (rs : List Reconciliation)
    (r : Reconciliation) :
    reconcileAll st (rs ++ [r]) =
      updateStats r.category r.now (reconcileAll st rs) r.percentage r.points := by
  unfold reconcileAll
  rw [List.foldl_append]
  rfl

/-- The invariant of the statistics of an account, from `signup` on. -/
theorem reconcileAll_invariant (rs : List Reconciliation) :
    (reconcileAll newStats rs).totalQuizzes = rs.length ∧
    0 ≤ (reconcileAll newStats rs).bestScore ∧
    (∀ r ∈ rs, r.percentage ≤ (reconcileAll newStats rs).bestScore) ∧
    ((reconcileAll newStats rs).bestScore = 0 ∨
      ∃ r ∈ rs, r.percentage = (reconcileAll newStats rs).bestScore) ∧
    (∀ h ∈ (reconcileAll newStats rs).quizHistory,
      h.score ≤ (reconcileAll newStats rs).bestScore) ∧
    (reconcileAll newStats rs).totalScore ≤
      (reconcileAll newStats rs).totalQuizzes * (reconcileAll newStats rs).bestScore := by
  induction rs using List.reverseRecOn with
  | nil =>
    refine ⟨rfl, le_refl _, ?_, Or.inl rfl, ?_, ?_⟩
    · intro r hr; cases hr
    · intro h hh; cases hh
    · show (0 : ℤ) ≤ 0 * 0
      decide
  | append_singleton rs r ih =>
    obtain ⟨i1, i2, i3, i4, i5, i6⟩ := ih
    rw [reconcileAll_append_singleton]
    generalize reconcileAll newStats rs = st at i1 i2 i3 i4 i5 i6
    have hh := updateStats_history r.category r.now st r.percentage r.points
    have hq : (updateStats r.category r.now st r.percentage r.points).totalQuizzes =
        st.totalQuizzes + 1 := rfl
    have hs : (updateStats r.category r.now st r.percentage r.points).totalScore =
        st.totalScore + r.percentage := rfl
    have hb : (updateStats r.category r.now st r.percentage r.points).bestScore =
        max st.bestScore r.percentage := rfl
    rw [hq, hs, hb, hh]
    have hl : st.bestScore ≤ max st.bestScore r.percentage := le_max_left _ _
    have hr : r.percentage ≤ max st.bestScore r.percentage := le_max_right _ _
    refine ⟨?_, le_trans i2 hl, ?_, ?_, ?_, ?_⟩
    · rw [i1, List.length_append]; simp
    · intro x hx
      rcases List.mem_append.mp hx with hx | hx
      · exact le_trans (i3 x hx) hl
      · rw [List.mem_singleton] at hx; rw [hx]; exact hr
    · rcases le_total st.bestScore r.percentage with hc | hc
      · right
        exact ⟨r, by simp, by rw [max_eq_right hc]⟩
      · rw [max_eq_left hc]
        rcases i4 with i4 | ⟨x, hx, hxe⟩
        · exact Or.inl i4
        · exact Or.inr ⟨x, List.mem_append_left _ hx, hxe⟩
    · intro h hmem
      have hmem' := (sliceLast10_suffix _).subset hmem
      rcases List.mem_append.mp hmem' with hx | hx
      · exact le_trans (i5 h hx) hl
      · rw [List.mem_singleton] at hx; rw [hx]; exact hr
    · have hn : (0 : ℤ) ≤ st.totalQuizzes := by rw [i1]; exact Int.natCast_nonneg _
      have hm : st.totalQuizzes * st.bestScore ≤
          st.totalQuizzes * max st.bestScore r.percentage :=
        mul_le_mul_of_nonneg_left hl hn
      have : (st.totalQuizzes + 1) * max st.bestScore r.percentage =
          st.totalQuizzes * max st.bestScore r.percentage + max st.bestScore r.percentage := by
        ring
      rw [this]
      linarith

/-- The average of the dashboard is never above an integer bound of the exact
quotient that a double holds. -/
theorem avgScore_le (stats : UserStats) (b : ℤ) (hb0 : 0 ≤ b) (hb : b ≤ 2 ^ 53)
    (h : stats.totalScore ≤ stats.totalQuizzes * b) :
    ∃ a, (updateDashboardStats stats).avgScore = some a ∧ a ≤ b := by
  unfold updateDashboardStats
  simp only
  split_ifs with hq
  · have hne : stats.totalQuizzes ≠ 0 := by omega
    have hqpos : (0 : ℚ) < (stats.totalQuizzes : ℚ) := by exact_mod_cast hq
    have hle : (stats.totalScore : ℚ) / (stats.totalQuizzes : ℚ) ≤ (b : ℚ) := by
      rw [div_le_iff₀ hqpos]
      have : ((stats.totalScore : ℤ) : ℚ) ≤ ((stats.totalQuizzes * b : ℤ) : ℚ) := by
        exact_mod_cast h
      push_cast at this
      linarith
    unfold jsDivide
    rw [if_neg hne]
    simp only [Option.map_some']
    refine ⟨_, rfl, ?_⟩
    split_ifs with hneg
    · have h1 : -toDouble (-((stats.totalScore : ℚ) / (stats.totalQuizzes : ℚ))) ≤ 0 := by
        have := toDouble_nonneg (-((stats.totalScore : ℚ) / (stats.totalQuizzes : ℚ)))
        linarith
      have h2 := mathRound_mono _ _ h1
      have h3 : mathRound (0 : ℚ) = 0 := by exact_mod_cast mathRound_intCast 0
      omega
    · have h1 := toDouble_mono _ _ hle
      rw [toDouble_intCast b hb0 hb] at h1
      have h2 := mathRound_mono _ _ h1
      rw [mathRound_intCast] at h2
      exact h2
  · exact ⟨0, rfl, hb0⟩

/-- C23: from the all-zero statistics of `signup`, after any sequence of
reconciliations with integer percentages that a double holds, `totalQuizzes`
is the number of reconciliations, `bestScore` is the maximum of the
percentages and of 0, no score of the history is above `bestScore`,
`totalScore` is at most `totalQuizzes * bestScore`, and the average of the
dashboard is a number, never above `bestScore`; with no quiz at all the
average is 0, no division taking place. -/
theorem reconcileAll_newStats (rs : List Reconciliation)
    (hsafe : ∀ r ∈ rs, r.percentage ≤ 9007199254740992) :
    (reconcileAll newStats rs).totalQuizzes = rs.length ∧
    (0 ≤ (reconcileAll newStats rs).bestScore ∧
      (∀ r ∈ rs, r.percentage ≤ (reconcileAll newStats rs).bestScore) ∧
      ((reconcileAll newStats rs).bestScore = 0 ∨
        ∃ r ∈ rs, r.percentage = (reconcileAll newStats rs).bestScore)) ∧
    (∀ h ∈ (reconcileAll newStats rs).quizHistory,
      h.score ≤ (reconcileAll newStats rs).bestScore) ∧
    (reconcileAll newStats rs).totalScore ≤
      (reconcileAll newStats rs).totalQuizzes * (reconcileAll newStats rs).bestScore ∧
    (∃ a, (updateDashboardStats (reconcileAll newStats rs)).avgScore = some a ∧
      a ≤ (reconcileAll newStats rs).bestScore) ∧
    (updateDashboardStats newStats).avgScore = some 0 := by
  obtain ⟨i1, i2, i3, i4, i5, i6⟩ := reconcileAll_invariant rs
  have hb : (reconcileAll newStats rs).bestScore ≤ 2 ^ 53 := by
    rcases i4 with h0 | ⟨r, hr, hre⟩
    · rw [h0]; norm_num
    · rw [← hre]; exact le_trans (hsafe r hr) (by norm_num)
  exact ⟨i1, ⟨i2, i3, i4⟩, i5, i6, avgScore_le _ _ i2 hb i6, rfl⟩

/-- The statistics after the two quizzes of `twoQuizzes`. -/
theorem reconcileAll_newStats_witness :
    (∀ r ∈ twoQuizzes, r.percentage ≤ 9007199254740992) ∧
    (reconcileAll newStats twoQuizzes).totalQuizzes = 2 ∧
    (reconcileAll newStats twoQuizzes).bestScore = 80 ∧
    (reconcileAll newStats twoQuizzes).totalScore = 137 ∧
    (∃ a, (updateDashboardStats (reconcileAll newStats twoQuizzes)).avgScore = some a ∧
      a ≤ (reconcileAll newStats twoQuizzes).bestScore) :=
  ⟨by decide, by decide, by decide, by decide,
    (reconcileAll_newStats twoQuizzes (by decide)).2.2.2.2.1⟩
/-- The two quizzes of `twoQuizzes` average to 68.5, shown as 69. -/
theorem avgScore_twoQuizzes :
    (updateDashboardStats (reconcileAll newStats twoQuizzes)).avgScore = some 69 := by
  have hst : reconcileAll newStats twoQuizzes =
      { totalQuizzes := 2, totalScore := 137, bestScore := 80, points := 1470,
        quizHistory := twoQuizzes.map Reconciliation.entry } := by
    decide
  have hd : toDouble ((137 : ℚ) / 2) = 137 / 2 := by
    have h := toDouble_eq ((137 : ℚ) / 2) 6 (137 * 2 ^ 45) (by norm_num) (by norm_num)
      (by
        have e : (137 : ℚ) / 2 / 2 ^ ((6 : ℤ) - 52) = ((137 * 2 ^ 45 : ℤ) : ℚ) := by norm_num
        rw [e, roundHalfEven_intCast])
    rw [h]; norm_num
  rw [hst]
  have hj : jsDivide 137 2 = some (137 / 2) := by
    unfold jsDivide
    rw [if_neg (by decide)]
    have hq : (((137 : ℤ) : ℚ)) / ((2 : ℤ) : ℚ) = 137 / 2 := by norm_num
    simp only [hq]
    rw [if_neg (by norm_num), hd]
  have hm : mathRound ((137 : ℚ) / 2) = 69 := by
    unfold mathRound
    rw [Int.floor_eq_iff]
    constructor <;> norm_num
  show (if (2 : ℤ) > 0 then (jsDivide 137 2).map mathRound else some 0) = some 69
  rw [if_pos (by decide), hj, Option.map_some', hm]

/-! ## The leaderboard -/

theorem comparePoints_total (a b : UserAccount) :
    comparePoints a b ≤ 0 ∨ comparePoints b a ≤ 0 := by
  unfold comparePoints
  omega

theorem comparePoints_trans (a b c : UserAccount) (h1 : comparePoints a b ≤ 0)
    (h2 : comparePoints b c ≤ 0) : comparePoints a c ≤ 0 := by
  unfold comparePoints at *
  omega

/-- The sort of `loadLeaderboard` orders its input. -/
theorem sorted_by_points (values : List UserAccount) :
    (values.insertionSort (fun a b => comparePoints a b ≤ 0)).Pairwise
      (fun a b => b.stats.points ≤ a.stats.points) := by
  haveI : IsTotal UserAccount (fun a b => comparePoints a b ≤ 0) := ⟨comparePoints_total⟩
  haveI : IsTrans UserAccount (fun a b => comparePoints a b ≤ 0) := ⟨comparePoints_trans⟩
  have h := List.sorted_insertionSort (fun a b : UserAccount => comparePoints a b ≤ 0) values
  refine List.Pairwise.imp ?_ h
  intro a b hab
  unfold comparePoints at hab
  omega

/-- C24: the leaderboard of `loadLeaderboard` has `min 5 n` entries for a
store of `n` accounts; together with the accounts left off it is exactly the
accounts of the store, each once, so that its entries are distinct accounts of
the store; it is in non-increasing order of points; and no account left off
has more points than an account on it. -/
theorem loadLeaderboard_top (values : List UserAccount) :
    (loadLeaderboard values).length = min 5 values.length ∧
    (loadLeaderboard values).Pairwise (fun a b => b.stats.points ≤ a.stats.points) ∧
    (values.Nodup → (loadLeaderboard values).Nodup) ∧
    ∃ rest : List UserAccount,
      (loadLeaderboard values ++ rest).Perm values ∧
      ∀ a ∈ loadLeaderboard values, ∀ b ∈ rest, b.stats.points ≤ a.stats.points := by
  have hs := sorted_by_points values
  have hp := List.perm_insertionSort (fun a b : UserAccount => comparePoints a b ≤ 0) values
  have hsplit := List.take_append_drop 5
    (values.insertionSort (fun a b => comparePoints a b ≤ 0))
  refine ⟨?_, ?_, ?_, ?_⟩
  · unfold loadLeaderboard
    rw [List.length_take, List.length_insertionSort]
  · exact hs.sublist (List.take_sublist _ _)
  · intro hn
    exact ((hp.nodup_iff).2 hn).sublist (List.take_sublist _ _)
  · refine ⟨(values.insertionSort (fun a b => comparePoints a b ≤ 0)).drop 5, ?_, ?_⟩
    · unfold loadLeaderboard
      rw [hsplit]
      exact hp
    · rw [← hsplit] at hs
      exact (List.pairwise_append.1 hs).2.2

/-- The leaderboard of six accounts: the account with no points is left off,
and of the two accounts with 900 points the one stored first comes first. -/
theorem loadLeaderboard_top_witness :
    sixAccounts.Nodup ∧
    (loadLeaderboard sixAccounts).map (fun a => a.username) =
      ["flo", "bob", "dee", "ann", "cy"] ∧
    (loadLeaderboard sixAccounts).Nodup :=
  ⟨by decide, by decide, (loadLeaderboard_top sixAccounts).2.2.1 (by decide)⟩

end QuizApp
